import Mathlib

/-!
# SDL2-Snake: grid geometry, A* search and snake tick

A shallow embedding of `GridCell.cpp`, `Snake.cpp` and `Game.cpp`.

* C++ `int` is `Int`; `/` on `int` is truncating division (`Int.tdiv`). The
  search costs never wrap: a discovered cell's `local_cost_` is at most the
  heuristic (at most 40) times the number of visited cells (`CoreInv.loc_bound`).
* A `GridCell*` that points into `Game::grid_` is the index of that cell
  (`Nat`); `nullptr` is `none`.
* `std::vector` is `List`; `push_back` appends at the end, `back()` is the last
  entry.
-/

set_option autoImplicit false

namespace Snake2D

/-! ## Constants (`Utils/Constants.hpp`) -/

namespace constants

/-- `constants::screen_width`. -/
def screen_width : Int := 1200

/-- `constants::screen_height`. -/
def screen_height : Int := 900

end constants

/-- `std::numeric_limits<int>::max()`. -/
def INT_MAX : Int := 2147483647

/-- `std::abs` on `int`. -/
def std_abs (v : Int) : Int := if v < 0 then -v else v

/-! ## `GridCell` (`GridCell.hpp`, `GridCell.cpp`) -/

/-- The SDL rectangle: `x`, `y`, `w`, `h`. -/
structure SDL_Rect where
  x : Int
  y : Int
  w : Int
  h : Int
  deriving DecidableEq, Repr

/-- `struct GraphInfo`: the search metadata of a cell. -/
structure GraphInfo where
  parent_ : Option Nat
  visited_ : Bool
  in_queue_ : Bool
  global_cost_ : Int
  local_cost_ : Int
  deriving DecidableEq, Repr

/-- `class GridCell`. -/
structure GridCell where
  box_ : SDL_Rect
  graph_info_ : GraphInfo
  deriving DecidableEq, Repr

/-- The metadata written by `GridCell::GridCell()` and by the reset loop at the
start of `Game::FindAStarPath`. -/
def GraphInfo.fresh : GraphInfo :=
  { parent_ := none, visited_ := false, in_queue_ := false,
    global_cost_ := INT_MAX, local_cost_ := INT_MAX }

/-- `GridCell::GridCell()`. -/
def GridCell.ctor : GridCell :=
  { box_ := { x := 0, y := 0, w := 0, h := 0 }, graph_info_ := GraphInfo.fresh }

instance : Inhabited GridCell := ⟨GridCell.ctor⟩

/-- `GridCell::ConvertCellToGridIndex`, a function of the cell's box. -/
def ConvertCellToGridIndex (box_ : SDL_Rect) : Int :=
  let x_pos := box_.x.tdiv box_.w
  let y_pos := box_.y.tdiv box_.h
  y_pos * (constants.screen_width.tdiv box_.w) + x_pos

/-- `GridCell::GetXYDistance` (both quotients divide by `box_.w`, as the source
does). -/
def GetXYDistance (box_ target : SDL_Rect) : Int :=
  let x_distance := (std_abs (target.x - box_.x)).tdiv box_.w
  let y_distance := (std_abs (target.y - box_.y)).tdiv box_.w
  x_distance + y_distance

/-- `GridCell::GetShortestXYDistance`: the minimum of `GetXYDistance` over the
target and four translated copies of it. -/
def GetShortestXYDistance (box_ target_cell : SDL_Rect) : Int :=
  let min_distance := GetXYDistance box_ target_cell
  let target_copy := target_cell
  let target_copy := { target_copy with x := target_copy.x + constants.screen_width }
  let min_distance := min min_distance (GetXYDistance box_ target_copy)
  let target_copy := { target_copy with x := target_copy.x - 2 * constants.screen_width }
  let min_distance := min min_distance (GetXYDistance box_ target_copy)
  let target_copy := { target_copy with x := target_copy.x + constants.screen_width }
  let target_copy := { target_copy with y := target_copy.y + constants.screen_height }
  let min_distance := min min_distance (GetXYDistance box_ target_copy)
  let target_copy := { target_copy with y := target_copy.y - 2 * constants.screen_height }
  let min_distance := min min_distance (GetXYDistance box_ target_copy)
  min_distance

/-- `GridCell::GetNeighboursIndices`: the candidates `left`, `right`, `top`,
`bottom` are appended in that order. -/
def GetNeighboursIndices (box_ : SDL_Rect) (wrap_around : Bool) : List Int :=
  let neighbours_indices : List Int := []
  let left : SDL_Rect := { x := box_.x - box_.w, y := box_.y, w := box_.w, h := box_.h }
  let neighbours_indices :=
    if left.x < 0 ∧ wrap_around then
      neighbours_indices ++
        [ConvertCellToGridIndex { left with x := left.x + constants.screen_width }]
    else if left.x ≥ 0 then
      neighbours_indices ++ [ConvertCellToGridIndex left]
    else neighbours_indices
  let right : SDL_Rect := { x := box_.x + box_.w, y := box_.y, w := box_.w, h := box_.h }
  let neighbours_indices :=
    if right.x = constants.screen_width ∧ wrap_around then
      neighbours_indices ++
        [ConvertCellToGridIndex { right with x := right.x - constants.screen_width }]
    else if right.x ≠ constants.screen_width then
      neighbours_indices ++ [ConvertCellToGridIndex right]
    else neighbours_indices
  let top : SDL_Rect := { x := box_.x, y := box_.y - box_.h, w := box_.w, h := box_.h }
  let neighbours_indices :=
    if top.y < 0 ∧ wrap_around then
      neighbours_indices ++
        [ConvertCellToGridIndex { top with y := top.y + constants.screen_height }]
    else if top.y ≥ 0 then
      neighbours_indices ++ [ConvertCellToGridIndex top]
    else neighbours_indices
  let bottom : SDL_Rect := { x := box_.x, y := box_.y + box_.h, w := box_.w, h := box_.h }
  let neighbours_indices :=
    if bottom.y = constants.screen_height ∧ wrap_around then
      neighbours_indices ++
        [ConvertCellToGridIndex { bottom with y := bottom.y - constants.screen_height }]
    else if bottom.y ≠ constants.screen_height then
      neighbours_indices ++ [ConvertCellToGridIndex bottom]
    else neighbours_indices
  neighbours_indices

/-! ## The grid built by `Game::Game()` -/

/-- `grid_cell_side_`, set to 50 by the constructor's initialiser list. -/
def grid_cell_side : Int := 50

/-- Number of cells: `(screen_width / side) * (screen_height / side)`. -/
def grid_size : Nat :=
  ((constants.screen_width.tdiv grid_cell_side) *
    (constants.screen_height.tdiv grid_cell_side)).toNat

/-- Loop state of the constructor's fill loop: the cells written so far and the
running `x_pos`, `y_pos`. -/
structure FillState where
  cells : List GridCell
  x_pos : Int
  y_pos : Int

/-- One iteration of the fill loop in `Game::Game()` for index `i`. -/
def fillStep (st : FillState) (i : Nat) : FillState :=
  let grid_cell : GridCell :=
    { box_ := { x := st.x_pos, y := st.y_pos, w := grid_cell_side, h := grid_cell_side },
      graph_info_ := GraphInfo.fresh }
  let x_pos := st.x_pos + grid_cell_side
  if i ≠ 0 ∧ ((i : Int) + 1).tmod (constants.screen_width.tdiv grid_cell_side) = 0 then
    { cells := st.cells ++ [grid_cell], x_pos := 0, y_pos := st.y_pos + grid_cell_side }
  else
    { cells := st.cells ++ [grid_cell], x_pos := x_pos, y_pos := st.y_pos }

/-- The grid `grid_` as left by `Game::Game()` (resize, then the fill loop). -/
def initGrid : List GridCell :=
  ((List.range grid_size).foldl fillStep { cells := [], x_pos := 0, y_pos := 0 }).cells

/-- `Game::ConvertXYToGridIndex`. -/
def ConvertXYToGridIndex (x y : Int) : Int :=
  let x_pos := x.tdiv grid_cell_side
  let y_pos := y.tdiv grid_cell_side
  let x_offset := constants.screen_width.tdiv grid_cell_side
  y_pos * x_offset + x_pos

/-- The box of grid cell `i` in closed form: column `i mod 24`, row `i div 24`,
side 50. -/
def cellBox (i : Nat) : SDL_Rect :=
  { x := ((i % 24 : Nat) : Int) * 50, y := ((i / 24 : Nat) : Int) * 50, w := 50, h := 50 }

/-! ## `Snake` and `Game` state -/

/-- `enum class Direction`. -/
inductive Direction where
  | LEFT
  | RIGHT
  | UP
  | DOWN
  deriving DecidableEq, Repr

/-- `class Snake`. `segment_side_size_` is the constructor argument
`grid_cell_side_` and is never written again, so it is the constant
`grid_cell_side`; the back pointer `game_` is the enclosing `Game` value. -/
structure Snake where
  direction_ : Direction
  snake_segments_ : List Nat
  moved_snake_ : Bool
  deriving DecidableEq, Repr

/-- `class Game`, without the window, renderer, font and text textures.
`mt_` stands for the generator together with the two distributions: it lists
the pairs `(random_x_(mt_), random_y_(mt_))` that the generator delivers from now
on, in order. -/
structure Game where
  is_running_ : Bool
  game_over_ : Bool
  paused_ : Bool
  autopilot_toggle_ : Bool
  shortest_path_toggle_ : Bool
  wrapped_shortest_path_toggle_ : Bool
  info_toggle_ : Bool
  last_ms_ : Int
  tick_ms_ : Int
  score_ : Int
  grid_ : List GridCell
  snake_ : Snake
  shortest_path_cells_ : List Nat
  food_ : Nat
  mt_ : List (Int × Int)
  deriving DecidableEq, Repr

/-- Dereference of a cell pointer into `grid_`: its box. -/
def boxAt (grid : List GridCell) (c : Nat) : SDL_Rect := (grid.getD c default).box_

/-- Dereference of a cell pointer into `grid_`: its search metadata. -/
def infoAt (grid : List GridCell) (c : Nat) : GraphInfo := (grid.getD c default).graph_info_

/-- Write the search metadata of the cell behind pointer `c`. -/
def setInfo (grid : List GridCell) (c : Nat) (v : GraphInfo) : List GridCell :=
  grid.set c { box_ := boxAt grid c, graph_info_ := v }

/-- `Snake::SnakeGridIndices`. -/
def SnakeGridIndices (grid : List GridCell) (snake_segments_ : List Nat) : List Int :=
  snake_segments_.map (fun snake_segment => ConvertCellToGridIndex (boxAt grid snake_segment))

/-! ## `std::priority_queue` as used by `Game::FindAStarPath`

The queue holds cell pointers and compares them by the `global_cost_` they have
when the queue is rearranged (`queue_cmp` orders by greater cost, so the top has
minimal cost). The container is a list whose first entry is `top()`. The library
leaves open which of several entries of minimal cost is on top; the parameter
`tie` decides it (it receives the entries of minimal cost in container order and
returns a position, taken modulo their number), and every statement below holds
for all `tie`. -/

/-- Key read by `queue_cmp`. -/
def globalCost (grid : List GridCell) (c : Nat) : Int := (infoAt grid c).global_cost_

/-- Restore the queue order: an entry of minimal `global_cost_` comes first. -/
def heapArrange (tie : List Nat → Nat) (grid : List GridCell) (c : List Nat) : List Nat :=
  match c with
  | [] => []
  | x :: xs =>
    let m := xs.foldl (fun acc y => min acc (globalCost grid y)) (globalCost grid x)
    let cands := (x :: xs).filter (fun y => decide (globalCost grid y = m))
    let t := cands.getD (tie cands % cands.length) x
    t :: (x :: xs).erase t

/-- `min_heap.push(cell)`. -/
def heapPush (tie : List Nat → Nat) (grid : List GridCell) (c : List Nat) (cell : Nat) :
    List Nat :=
  heapArrange tie grid (c ++ [cell])

/-- `min_heap.pop()`. -/
def heapPop (tie : List Nat → Nat) (grid : List GridCell) (c : List Nat) : List Nat :=
  heapArrange tie grid c.tail

/-! ## `Game::FindAStarPath` -/

/-- The term `wrapped ? start_cell->GetShortestXYDistance(*target_cell) :
start_cell->GetXYDistance(*target_cell)`. -/
def heuristic (grid : List GridCell) (start_cell target_cell : Nat) (wrapped : Bool) : Int :=
  if wrapped then GetShortestXYDistance (boxAt grid start_cell) (boxAt grid target_cell)
  else GetXYDistance (boxAt grid start_cell) (boxAt grid target_cell)

/-- The grid and the queue while the search runs. -/
structure SearchState where
  grid_ : List GridCell
  min_heap : List Nat
  deriving DecidableEq, Repr

/-- Body of the neighbour loop for one `index`. `grid_.at(index)` throws for an
index outside the grid: the result is `none`. -/
def relaxNeighbour (tie : List Nat → Nat) (snake_indices : List Int)
    (start_cell target_cell : Nat) (wrapped : Bool) (current_cell : Nat)
    (st : SearchState) (index : Int) : Option SearchState :=
  if 0 ≤ index ∧ index.toNat < st.grid_.length then
    let neighbour_cell := index.toNat
    let is_snake_segment := decide (index ∈ snake_indices)
    if is_snake_segment then some st
    else
      let lower_cost := (infoAt st.grid_ current_cell).local_cost_ +
        heuristic st.grid_ start_cell target_cell wrapped
      let grid1 :=
        if lower_cost < (infoAt st.grid_ neighbour_cell).local_cost_ then
          setInfo st.grid_ neighbour_cell
            ({ infoAt st.grid_ neighbour_cell with
              parent_ := some current_cell,
              local_cost_ := lower_cost,
              global_cost_ := lower_cost + heuristic st.grid_ start_cell target_cell wrapped })
        else st.grid_
      if (infoAt grid1 neighbour_cell).visited_ = false ∧ is_snake_segment = false then
        some { grid_ := grid1, min_heap := heapPush tie grid1 st.min_heap neighbour_cell }
      else some { grid_ := grid1, min_heap := st.min_heap }
  else none

/-- The inner loop `while (!min_heap.empty() && min_heap.top()->graph_info_.visited_)
min_heap.pop();`, run with the queue length as the number of rounds. -/
def popVisited (tie : List Nat → Nat) : Nat → SearchState → SearchState
  | 0, st => st
  | n + 1, st =>
    match st.min_heap with
    | [] => st
    | t :: _ =>
      if (infoAt st.grid_ t).visited_ then
        popVisited tie n { st with min_heap := heapPop tie st.grid_ st.min_heap }
      else st

/-- One round of the main loop: drop visited tops; on an empty queue `break`
(the state is returned with the empty queue, which ends the loop); otherwise
mark the top visited and run the neighbour loop. -/
def expandTop (tie : List Nat → Nat) (snake_indices : List Int)
    (start_cell target_cell : Nat) (wrapped : Bool) (st : SearchState) : Option SearchState :=
  let st1 := popVisited tie st.min_heap.length st
  match st1.min_heap with
  | [] => some st1
  | current_cell :: _ =>
    let st2 : SearchState :=
      { grid_ := setInfo st1.grid_ current_cell
          ({ infoAt st1.grid_ current_cell with visited_ := true }),
        min_heap := st1.min_heap }
    (GetNeighboursIndices (boxAt st2.grid_ current_cell) wrapped).foldlM
      (relaxNeighbour tie snake_indices start_cell target_cell wrapped current_cell) st2

/-- Loop condition `!min_heap.empty() && min_heap.top() != target_cell`. -/
def loopCond (target_cell : Nat) (st : SearchState) : Bool :=
  match st.min_heap with
  | [] => false
  | t :: _ => decide (t ≠ target_cell)

/-- The main `while` loop with a bound on the number of rounds; `none` when the
bound is used up while the loop condition still holds. -/
def searchLoop (tie : List Nat → Nat) (snake_indices : List Int)
    (start_cell target_cell : Nat) (wrapped : Bool) : Nat → SearchState → Option SearchState
  | 0, st => if loopCond target_cell st then none else some st
  | fuel + 1, st =>
    if loopCond target_cell st then
      (expandTop tie snake_indices start_cell target_cell wrapped st).bind
        (searchLoop tie snake_indices start_cell target_cell wrapped fuel)
    else some st

/-- The reconstruction loop `while (cell != start_cell)` with a bound on the
number of rounds; `path` is `shortest_path_cells_`. -/
def walkParents (grid : List GridCell) (start_cell : Nat) :
    Nat → Nat → List Nat → Option (Bool × List Nat)
  | 0, cell, path => if cell = start_cell then some (true, path) else none
  | fuel + 1, cell, path =>
    if cell = start_cell then some (true, path)
    else
      let path := path ++ [cell]
      match (infoAt grid cell).parent_ with
      | none => some (false, [])
      | some p => walkParents grid start_cell fuel p path

/-- The reset loop at the start of `Game::FindAStarPath`. -/
def resetGrid (grid : List GridCell) : List GridCell :=
  grid.map (fun grid_cell => { grid_cell with graph_info_ := GraphInfo.fresh })

/-- The state in which the main loop of `Game::FindAStarPath` starts. -/
def searchInit (tie : List Nat → Nat) (grid : List GridCell) (start_cell target_cell : Nat)
    (wrapped : Bool) : SearchState :=
  let grid0 := resetGrid grid
  let grid1 := setInfo grid0 start_cell
    ({ infoAt grid0 start_cell with
      local_cost_ := 0,
      global_cost_ := heuristic grid0 start_cell target_cell wrapped })
  { grid_ := grid1, min_heap := heapPush tie grid1 [] start_cell }

/-- `Game::FindAStarPath`. Both loops run with `grid_.size() + 1` rounds; `none`
stands for a loop that needs more. The result is the returned boolean and the
game with the new metadata and `shortest_path_cells_`. -/
def Game.FindAStarPath (tie : List Nat → Nat) (g : Game) (start_cell target_cell : Nat)
    (wrapped : Bool) : Option (Bool × Game) :=
  let st0 := searchInit tie g.grid_ start_cell target_cell wrapped
  let snake_indices := SnakeGridIndices st0.grid_ g.snake_.snake_segments_
  match searchLoop tie snake_indices start_cell target_cell wrapped (g.grid_.length + 1) st0 with
  | none => none
  | some st =>
    match walkParents st.grid_ start_cell (g.grid_.length + 1) target_cell [] with
    | none => none
    | some (found, path) =>
      some (found, { g with grid_ := st.grid_, shortest_path_cells_ := path })

/-- A game whose grid is `initGrid` with no search metadata yet, used for
concrete evaluations. -/
@[reducible]
def Game.sample (segs : List Nat) (food : Nat) (draws : List (Int × Int)) : Game :=
  { is_running_ := false, game_over_ := false, paused_ := false, autopilot_toggle_ := false,
    shortest_path_toggle_ := false, wrapped_shortest_path_toggle_ := false,
    info_toggle_ := false, last_ms_ := 0, tick_ms_ := 100, score_ := 0,
    grid_ := initGrid,
    snake_ := { direction_ := Direction.RIGHT, snake_segments_ := segs, moved_snake_ := false },
    shortest_path_cells_ := [], food_ := food, mt_ := draws }

/-! ## `SDL_HasIntersection` (SDL library, `SDL_rect.c`) -/

/-- `SDL_RectEmpty`: no area. -/
def SDL_RectEmpty (r : SDL_Rect) : Bool := decide (r.w ≤ 0) || decide (r.h ≤ 0)

/-- `SDL_HasIntersection`: false for an empty rectangle, else the two intervals
on each axis overlap in more than a point. -/
def SDL_HasIntersection (A B : SDL_Rect) : Bool :=
  if SDL_RectEmpty A || SDL_RectEmpty B then false
  else
    let Amin := A.x
    let Amax := Amin + A.w
    let Bmin := B.x
    let Bmax := Bmin + B.w
    let Amin := if Bmin > Amin then Bmin else Amin
    let Amax := if Bmax < Amax then Bmax else Amax
    if Amax ≤ Amin then false
    else
      let Amin := A.y
      let Amax := Amin + A.h
      let Bmin := B.y
      let Bmax := Bmin + B.h
      let Amin := if Bmin > Amin then Bmin else Amin
      let Amax := if Bmax < Amax then Bmax else Amax
      if Amax ≤ Amin then false else true

/-! ## `Game::SpawnFood`, `Game::IncrementScore`, `Game::SpeedUp`, `Game::GameOver` -/

/-- The rounding of one raw coordinate in `Game::SpawnFood`. -/
def snapCoordinate (random_v : Int) : Int :=
  let v_mod := random_v.tmod grid_cell_side
  if v_mod > grid_cell_side.tdiv 2 then random_v - v_mod + grid_cell_side
  else random_v - v_mod

/-- The `do ... while (food_snake_collision)` loop of `Game::SpawnFood` over the
pairs the generator delivers, followed by `food_ = &grid_.at(...)`. The result is
`none` when every listed pair collides with the snake (the loop asks for more) or
when `at` throws. -/
def Game.spawnLoop (g : Game) : List (Int × Int) → Option Game
  | [] => none
  | (raw_x, raw_y) :: rest =>
    let random_x := snapCoordinate raw_x
    let random_y := snapCoordinate raw_y
    let food_snake_collision := g.snake_.snake_segments_.any (fun snake_segment =>
      decide ((boxAt g.grid_ snake_segment).x = random_x ∧
        (boxAt g.grid_ snake_segment).y = random_y))
    if food_snake_collision then Game.spawnLoop g rest
    else
      let index := ConvertXYToGridIndex random_x random_y
      if 0 ≤ index ∧ index.toNat < g.grid_.length then
        some { g with food_ := index.toNat, mt_ := rest }
      else none

/-- `Game::SpawnFood`. -/
def Game.SpawnFood (g : Game) : Option Game := g.spawnLoop g.mt_

/-- `Game::IncrementScore`. -/
def Game.IncrementScore (g : Game) : Game := { g with score_ := g.score_ + 10 }

/-- `Game::SpeedUp`. -/
def Game.SpeedUp (g : Game) : Game :=
  let minimum_speed : Int := 50
  if g.tick_ms_ > minimum_speed then { g with tick_ms_ := g.tick_ms_ - 1 } else g

/-- `Game::GameOver`. -/
def Game.GameOver (g : Game) : Game := { g with game_over_ := true }

/-! ## `Snake` operations (`Snake.cpp`), on the enclosing game -/

/-- `Snake::GetHead`: `snake_segments_[0]`. -/
def Game.GetHead (g : Game) : Nat := g.snake_.snake_segments_.getD 0 0

/-- `Snake::AddSegment`. -/
def Game.AddSegment (g : Game) : Game :=
  { g with snake_ := { g.snake_ with
      snake_segments_ := g.snake_.snake_segments_ ++
        [g.snake_.snake_segments_.getD (g.snake_.snake_segments_.length - 1) 0] } }

/-- The shift loop of `Snake::MoveSnake`:
`for (i = size - 1; i > 0; --i) snake_segments_[i] = snake_segments_[i - 1];`. -/
def shiftSegments (snake_segments_ : List Nat) : List Nat :=
  (((List.range (snake_segments_.length - 1)).reverse).map (fun k => k + 1)).foldl
    (fun segs i => segs.set i (segs.getD (i - 1) 0)) snake_segments_

/-- `Snake::MoveSnake`. The result is `none` for a snake without segments, when
the `assert` fails, or when `Grid()[new_head_index]` is outside the grid. -/
def Game.MoveSnake (g : Game) (next_cell : Option Nat) : Option Game :=
  match g.snake_.snake_segments_ with
  | [] => none
  | _ :: _ =>
    let segs := shiftSegments g.snake_.snake_segments_
    let snake_head := segs.getD 0 0
    let x_offset := constants.screen_width.tdiv grid_cell_side
    let y_offset := constants.screen_height.tdiv grid_cell_side
    let head_box := boxAt g.grid_ snake_head
    let new_head_index := ConvertXYToGridIndex head_box.x head_box.y
    match next_cell with
    | some next =>
      let diff_x := (boxAt g.grid_ next).x - head_box.x
      let diff_y := (boxAt g.grid_ next).y - head_box.y
      let step : Direction × Int :=
        if diff_x < 0 then (Direction.LEFT, new_head_index - 1)
        else if diff_x > 0 then (Direction.RIGHT, new_head_index + 1)
        else if diff_y > 0 then (Direction.DOWN, new_head_index + x_offset)
        else if diff_y < 0 then (Direction.UP, new_head_index - x_offset)
        else (g.snake_.direction_, new_head_index)
      if 0 ≤ step.2 ∧ step.2.toNat < g.grid_.length then
        some { g with snake_ := { g.snake_ with
          direction_ := step.1, snake_segments_ := segs.set 0 step.2.toNat } }
      else none
    | none =>
      let new_head_index :=
        match g.snake_.direction_ with
        | Direction.LEFT =>
          (if head_box.x = 0 then new_head_index + x_offset else new_head_index) - 1
        | Direction.RIGHT =>
          (if head_box.x = constants.screen_width - grid_cell_side then new_head_index - x_offset
            else new_head_index) + 1
        | Direction.UP =>
          (if head_box.y = 0 then new_head_index + x_offset * y_offset else new_head_index)
            - x_offset
        | Direction.DOWN =>
          (if head_box.y = constants.screen_height - grid_cell_side then
              new_head_index - x_offset * y_offset
            else new_head_index) + x_offset
      if 0 ≤ new_head_index ∧ new_head_index < x_offset * y_offset ∧
          new_head_index.toNat < g.grid_.length then
        some { g with snake_ := { g.snake_ with
          snake_segments_ := segs.set 0 new_head_index.toNat } }
      else none

/-- The collision loop of `Snake::Tick`: does the head's box intersect the box of
some segment `snake_segments_[i]`, `i ≥ 1`. -/
def Game.headHitsBody (g : Game) : Bool :=
  (g.snake_.snake_segments_.drop 1).any (fun snake_segment =>
    SDL_HasIntersection (boxAt g.grid_ g.GetHead) (boxAt g.grid_ snake_segment))

/-- `Snake::Tick`. `Game::UpdateScore` only redraws the score texture. -/
def Game.SnakeTick (tie : List Nat → Nat) (g : Game) (next_cell : Option Nat) : Option Game :=
  match g.MoveSnake next_cell with
  | none => none
  | some g0 =>
    let g1 : Game := { g0 with snake_ := { g0.snake_ with moved_snake_ := false } }
    if SDL_HasIntersection (boxAt g1.grid_ g1.GetHead) (boxAt g1.grid_ g1.food_) then
      match g1.SpawnFood with
      | none => none
      | some g2 =>
        let g3 := (g2.IncrementScore.AddSegment).SpeedUp
        if g3.autopilot_toggle_ then
          let index := ConvertCellToGridIndex (boxAt g3.grid_ g3.food_)
          if 0 ≤ index ∧ index.toNat < g3.grid_.length then
            (g3.FindAStarPath tie g3.GetHead index.toNat g3.wrapped_shortest_path_toggle_).map
              (fun r => r.2)
          else none
        else some g3
    else if g1.headHitsBody then some g1.GameOver
    else some g1

/-! ## Input events (SDL library) and `Snake::HandleEvent` -/

/-- The event types the program distinguishes (`SDL_Event::type`). -/
inductive SDL_EventType where
  | SDL_QUIT
  | SDL_KEYDOWN
  | SDL_KEYUP
  | SDL_OTHER
  deriving DecidableEq, Repr

/-- The key codes the program distinguishes (`key.keysym.sym`). -/
inductive SDL_Keycode where
  | SDLK_LEFT
  | SDLK_RIGHT
  | SDLK_UP
  | SDLK_DOWN
  | SDLK_SPACE
  | SDLK_a
  | SDLK_s
  | SDLK_w
  | SDLK_i
  | SDLK_ESCAPE
  | SDLK_OTHER
  deriving DecidableEq, Repr

/-- The fields of `SDL_Event` that the program reads: `type`, `key.keysym.sym` and
`key.repeat`. -/
structure SDL_Event where
  type_ : SDL_EventType
  sym : SDL_Keycode
  repeat_ : Nat
  deriving DecidableEq, Repr

/-- `Snake::Snake(segments_size, segment_side_size, game)`: the segments point at
the cells `y_half * (screen_width / side) + x_half - i`. -/
def Snake.ctor (segments_size : Nat) : Snake :=
  let x_half := constants.screen_width.tdiv 100
  let y_half := constants.screen_height.tdiv 100
  { direction_ := Direction.RIGHT,
    snake_segments_ := (List.range segments_size).map (fun i =>
      (y_half * (constants.screen_width.tdiv grid_cell_side) + x_half - (i : Int)).toNat),
    moved_snake_ := false }

/-- `Snake::HandleEvent`. -/
def Snake.HandleEvent (s : Snake) (e : SDL_Event) : Snake :=
  if s.moved_snake_ = false ∧ e.type_ = SDL_EventType.SDL_KEYDOWN ∧ e.repeat_ = 0 then
    let direction_ :=
      match e.sym with
      | SDL_Keycode.SDLK_LEFT =>
        if s.direction_ ≠ Direction.RIGHT then Direction.LEFT else s.direction_
      | SDL_Keycode.SDLK_RIGHT =>
        if s.direction_ ≠ Direction.LEFT then Direction.RIGHT else s.direction_
      | SDL_Keycode.SDLK_UP =>
        if s.direction_ ≠ Direction.DOWN then Direction.UP else s.direction_
      | SDL_Keycode.SDLK_DOWN =>
        if s.direction_ ≠ Direction.UP then Direction.DOWN else s.direction_
      | _ => s.direction_
    { s with direction_ := direction_, moved_snake_ := true }
  else s

/-! ## `Game::Game`, `Game::Reset`, `Game::HandleEvents`, `Game::Tick` -/

/-- `Game::Game()`: the initialiser list, the grid, the snake of 4 segments and
`SpawnFood()`. `draws` are the pairs the freshly seeded generator delivers.
`food_` is `nullptr` until `SpawnFood` assigns it; the value 0 stands for it and is
never read. -/
def Game.ctor (draws : List (Int × Int)) : Option Game :=
  Game.SpawnFood
    { is_running_ := false, game_over_ := false, paused_ := false, autopilot_toggle_ := false,
      shortest_path_toggle_ := false, wrapped_shortest_path_toggle_ := false,
      info_toggle_ := false, last_ms_ := 0, tick_ms_ := 100, score_ := 0,
      grid_ := initGrid, snake_ := Snake.ctor 4, shortest_path_cells_ := [], food_ := 0,
      mt_ := draws }

/-- `Game::Stop`. -/
def Game.Stop (g : Game) : Game := { g with is_running_ := false }

/-- `Game::Reset` (`UpdateScore` only redraws the score texture). -/
def Game.Reset (g : Game) : Option Game :=
  Game.SpawnFood
    { g with score_ := 0, snake_ := Snake.ctor 4, tick_ms_ := 100, game_over_ := false }

/-- The body of the polling loop of `Game::HandleEvents` for one event `e`
(`UpdateControlsStatus` only redraws a texture). -/
def Game.HandleEvent (g : Game) (e : SDL_Event) : Option Game :=
  let handled : Option Game :=
    if e.type_ = SDL_EventType.SDL_QUIT then some g.Stop
    else if g.game_over_ = true ∧ e.type_ = SDL_EventType.SDL_KEYDOWN ∧
        e.sym = SDL_Keycode.SDLK_SPACE then
      Game.Reset { g with autopilot_toggle_ := false }
    else if e.type_ = SDL_EventType.SDL_KEYUP ∧ e.sym = SDL_Keycode.SDLK_i then
      some { g with info_toggle_ := !g.info_toggle_ }
    else if g.game_over_ = false then
      if e.type_ = SDL_EventType.SDL_KEYUP ∧ e.sym = SDL_Keycode.SDLK_a then
        some { g with
          shortest_path_toggle_ := false, wrapped_shortest_path_toggle_ := false,
          autopilot_toggle_ := !g.autopilot_toggle_, shortest_path_cells_ := [] }
      else if e.type_ = SDL_EventType.SDL_KEYUP ∧ e.sym = SDL_Keycode.SDLK_s then
        some { g with
          autopilot_toggle_ := false, wrapped_shortest_path_toggle_ := false,
          shortest_path_toggle_ := !g.shortest_path_toggle_, shortest_path_cells_ := [] }
      else if e.type_ = SDL_EventType.SDL_KEYUP ∧ e.sym = SDL_Keycode.SDLK_w then
        some { g with
          autopilot_toggle_ := false, shortest_path_toggle_ := false,
          wrapped_shortest_path_toggle_ := !g.wrapped_shortest_path_toggle_,
          shortest_path_cells_ := [] }
      else if e.type_ = SDL_EventType.SDL_KEYUP ∧ e.sym = SDL_Keycode.SDLK_ESCAPE then
        some { g with paused_ := !g.paused_ }
      else some g
    else some g
  handled.map (fun g1 => { g1 with snake_ := g1.snake_.HandleEvent e })

/-- `Game::HandleEvents`: the loop over the events that `SDL_PollEvent` delivers. -/
def Game.HandleEvents (g : Game) (events : List SDL_Event) : Option Game :=
  events.foldlM Game.HandleEvent g

/-- `Game::Tick`; `current_ms` is the value of `SDL_GetTicks()`. -/
def Game.Tick (tie : List Nat → Nat) (g : Game) (current_ms : Int) : Option Game :=
  if g.paused_ = false ∧ g.game_over_ = false ∧ current_ms - g.last_ms_ > g.tick_ms_ then
    let g1 : Game := { g with last_ms_ := current_ms }
    let popped : Option Nat × Game :=
      if g1.autopilot_toggle_ = true ∧ g1.shortest_path_cells_ ≠ [] then
        (g1.shortest_path_cells_.getLast?,
          { g1 with shortest_path_cells_ := g1.shortest_path_cells_.dropLast })
      else (none, g1)
    match popped.2.SnakeTick tie popped.1 with
    | none => none
    | some g2 =>
      if (g2.autopilot_toggle_ = true ∧ g2.shortest_path_cells_ = []) ∨
          (g2.shortest_path_toggle_ = true ∨ g2.wrapped_shortest_path_toggle_ = true) then
        let index := ConvertCellToGridIndex (boxAt g2.grid_ g2.food_)
        if 0 ≤ index ∧ index.toNat < g2.grid_.length then
          (g2.FindAStarPath tie g2.GetHead index.toNat g2.wrapped_shortest_path_toggle_).map
            (fun r => r.2)
        else none
      else some g2
  else some g

/-! ## Vocabulary of the statements -/

/-- The grid has the cell boxes written by `Game::Game()`; the search metadata is
arbitrary. -/
def GridOK (grid : List GridCell) : Prop :=
  grid.map (fun cell => cell.box_) = initGrid.map (fun cell => cell.box_)

instance (grid : List GridCell) : Decidable (GridOK grid) := by
  unfold GridOK; infer_instance

/-- Cell `b` is among the neighbour indices that `GetNeighboursIndices` returns
for cell `a` of the constructor's grid. -/
def Adj (wrapped : Bool) (a b : Nat) : Prop :=
  (b : Int) ∈ GetNeighboursIndices (cellBox a) wrapped

instance (wrapped : Bool) (a b : Nat) : Decidable (Adj wrapped a b) := by
  unfold Adj; infer_instance

/-- A route: `cells` lists the cells after `a`, each a neighbour of the one before
it and none with its index in `occupied`, ending in `b`. -/
def IsRoute (wrapped : Bool) (occupied : List Int) : Nat → List Nat → Nat → Prop
  | a, [], b => a = b
  | a, c :: rest, b => Adj wrapped a c ∧ (c : Int) ∉ occupied ∧ IsRoute wrapped occupied c rest b

/-- Left neighbour of cell `i` on the torus. -/
def nbLeft (i : Nat) : Nat := if i % 24 = 0 then i + 23 else i - 1

/-- Right neighbour of cell `i` on the torus. -/
def nbRight (i : Nat) : Nat := if i % 24 = 23 then i - 23 else i + 1

/-- Upper neighbour of cell `i` on the torus. -/
def nbTop (i : Nat) : Nat := if i / 24 = 0 then i + 408 else i - 24

/-- Lower neighbour of cell `i` on the torus. -/
def nbBottom (i : Nat) : Nat := if i / 24 = 17 then i - 408 else i + 24

/-- The closed form that the specification gives for the wrapped distance:
`min(|dx|, width-|dx|)/side + min(|dy|, height-|dy|)/side`. -/
def toroidalManhattan (a b : SDL_Rect) : Int :=
  let dx := b.x - a.x
  let dy := b.y - a.y
  (min (std_abs dx) (constants.screen_width - std_abs dx)).tdiv grid_cell_side +
    (min (std_abs dy) (constants.screen_height - std_abs dy)).tdiv grid_cell_side

/-- The heuristic term of `Game::FindAStarPath` on the cells `start`, `target` of
the constructor's grid. -/
def cellHeuristic (start target : Nat) (wrapped : Bool) : Int :=
  if wrapped then GetShortestXYDistance (cellBox start) (cellBox target)
  else GetXYDistance (cellBox start) (cellBox target)

/-- What a call of `Game::FindAStarPath` leaves to its caller: the returned
boolean and the cached path `shortest_path_cells_`. -/
def Game.searchResult (tie : List Nat → Nat) (g : Game) (start_cell target_cell : Nat)
    (wrapped : Bool) : Option (Bool × List Nat) :=
  (g.FindAStarPath tie start_cell target_cell wrapped).map
    (fun r => (r.1, r.2.shortest_path_cells_))

/-- The cached path `path` (first entry pushed first) is a valid free route from
`target` back to `start`: each of its cells is a grid cell whose index is not in
`SnakeGridIndices` (and which is no snake segment); its first cell is `target` when
`start ≠ target`; consecutive cells are neighbours of each other under the
topology `wrapped`; `start` is not on it; its last cell is a neighbour of `start`. -/
def ValidPath (wrapped : Bool) (grid : List GridCell) (snake_segments_ : List Nat)
    (start target : Nat) (path : List Nat) : Prop :=
  (∀ c ∈ path, c < grid.length ∧
    ConvertCellToGridIndex (boxAt grid c) ∉ SnakeGridIndices grid snake_segments_ ∧
    c ∉ snake_segments_) ∧
  (start ≠ target → path.head? = some target) ∧
  List.Chain' (fun a b => Adj wrapped a b ∧ Adj wrapped b a) path ∧
  start ∉ path ∧
  (∀ l, path.getLast? = some l → Adj wrapped l start ∧ Adj wrapped start l)

/-- Cell `c` lies in the axis-aligned rectangle of cells spanned by the cells `a`
and `b` (columns `mod 24`, rows `div 24`). -/
def inRect (a b c : Nat) : Prop :=
  min (a % 24) (b % 24) ≤ c % 24 ∧ c % 24 ≤ max (a % 24) (b % 24) ∧
    min (a / 24) (b / 24) ≤ c / 24 ∧ c / 24 ≤ max (a / 24) (b / 24)

instance (a b c : Nat) : Decidable (inRect a b c) := by
  unfold inRect; infer_instance

/-- The tie-break that puts the first entry of minimal cost on top, used for
concrete evaluations. -/
def tieFirst : List Nat → Nat := fun _ => 0

/-- The grid cell that `Game::SpawnFood` selects for the raw pair `d`: the cell at
the rounded coordinates. -/
def drawCell (d : Int × Int) : Nat :=
  (ConvertXYToGridIndex (snapCoordinate d.1) (snapCoordinate d.2)).toNat

/-- The raw pair `d` lies in the ranges of `random_x_` and `random_y_`:
`[0, screen_width - side]` and `[0, screen_height - side]`. -/
def DrawInRange (d : Int × Int) : Prop :=
  0 ≤ d.1 ∧ d.1 ≤ constants.screen_width - grid_cell_side ∧
    0 ≤ d.2 ∧ d.2 ≤ constants.screen_height - grid_cell_side

instance (d : Int × Int) : Decidable (DrawInRange d) := by
  unfold DrawInRange; infer_instance

/-! ## Invariants of the search loop

`H` is the value of the heuristic term, `occ` the list `snake_indices`. -/

/-- The search has reached cell `c`: it is the start cell or has a parent. -/
def Discovered (grid : List GridCell) (start c : Nat) : Prop :=
  c = start ∨ (infoAt grid c).parent_ ≠ none

/-- Number of grid cells marked visited. -/
def visitedCount (grid : List GridCell) : Nat :=
  (List.range grid.length).countP (fun c => (infoAt grid c).visited_)

/-- Every neighbour index of `u` that is not occupied has a local cost of at most
the local cost of `u` plus `H`. -/
def Relaxed (occ : List Int) (wrapped : Bool) (H : Int) (grid : List GridCell) (u : Nat) :
    Prop :=
  ∀ index ∈ GetNeighboursIndices (cellBox u) wrapped, index ∉ occ →
    (infoAt grid index.toNat).local_cost_ ≤ (infoAt grid u).local_cost_ + H

/-- Facts about the metadata that hold throughout the search. -/
structure CoreInv (occ : List Int) (start target : Nat) (wrapped : Bool) (H : Int)
    (st : SearchState) : Prop where
  grid_ok : GridOK st.grid_
  heur : heuristic st.grid_ start target wrapped = H
  loc_start : (infoAt st.grid_ start).local_cost_ = 0
  par_start : (infoAt st.grid_ start).parent_ = none
  par_ok : ∀ c p, (infoAt st.grid_ c).parent_ = some p →
    c < 432 ∧ p < 432 ∧ (infoAt st.grid_ p).visited_ = true ∧ Adj wrapped p c ∧
      (c : Int) ∉ occ ∧
      (infoAt st.grid_ p).local_cost_ + H ≤ (infoAt st.grid_ c).local_cost_
  heap_disc : ∀ c ∈ st.min_heap, c < 432 ∧ Discovered st.grid_ start c
  vis_disc : ∀ c, (infoAt st.grid_ c).visited_ = true → c < 432 ∧ Discovered st.grid_ start c
  loc_nonneg : ∀ c, 0 ≤ (infoAt st.grid_ c).local_cost_
  undisc : ∀ c, ¬ Discovered st.grid_ start c → (infoAt st.grid_ c).local_cost_ = INT_MAX
  loc_bound : ∀ c, Discovered st.grid_ start c →
    (infoAt st.grid_ c).local_cost_ ≤ H * visitedCount st.grid_
  glob : ∀ c, Discovered st.grid_ start c →
    (infoAt st.grid_ c).global_cost_ = (infoAt st.grid_ c).local_cost_ + H
  frontier : ∀ c, Discovered st.grid_ start c → (infoAt st.grid_ c).visited_ = false →
    c ∈ st.min_heap
  top_min : ∀ t rest, st.min_heap = t :: rest → ∀ b ∈ st.min_heap,
    globalCost st.grid_ t ≤ globalCost st.grid_ b

/-- The invariant at the head of the main loop. -/
structure HeadInv (occ : List Int) (start target : Nat) (wrapped : Bool) (H : Int)
    (st : SearchState) extends CoreInv occ start target wrapped H st : Prop where
  relaxed : ∀ u, (infoAt st.grid_ u).visited_ = true → Relaxed occ wrapped H st.grid_ u
  vis_le_heap : ∀ a, (infoAt st.grid_ a).visited_ = true → ∀ b ∈ st.min_heap,
    (infoAt st.grid_ b).visited_ = false →
      (infoAt st.grid_ a).local_cost_ ≤ (infoAt st.grid_ b).local_cost_
  disc_le_heap : ∀ c, Discovered st.grid_ start c → ∀ b ∈ st.min_heap,
    (infoAt st.grid_ b).visited_ = false →
      (infoAt st.grid_ c).local_cost_ ≤ (infoAt st.grid_ b).local_cost_ + H

/-- The invariant inside the neighbour loop of `cur`, after the indices `done`. -/
structure FoldInv (occ : List Int) (start target : Nat) (wrapped : Bool) (H : Int)
    (cur : Nat) (done : List Int) (st : SearchState)
    extends CoreInv occ start target wrapped H st : Prop where
  cur_lt : cur < 432
  cur_vis : (infoAt st.grid_ cur).visited_ = true
  vis_le : ∀ a, (infoAt st.grid_ a).visited_ = true →
    (infoAt st.grid_ a).local_cost_ ≤ (infoAt st.grid_ cur).local_cost_
  le_heap : ∀ b ∈ st.min_heap, (infoAt st.grid_ b).visited_ = false →
    (infoAt st.grid_ cur).local_cost_ ≤ (infoAt st.grid_ b).local_cost_
  disc_le : ∀ c, Discovered st.grid_ start c →
    (infoAt st.grid_ c).local_cost_ ≤ (infoAt st.grid_ cur).local_cost_ + H
  cur_bound : (infoAt st.grid_ cur).local_cost_ + H ≤ H * visitedCount st.grid_
  relaxed_others : ∀ u, (infoAt st.grid_ u).visited_ = true → u ≠ cur →
    Relaxed occ wrapped H st.grid_ u
  relaxed_done : ∀ index ∈ done, index ∉ occ →
    (infoAt st.grid_ index.toNat).local_cost_ ≤ (infoAt st.grid_ cur).local_cost_ + H

/-- The chain of parent links from `cell` back to, but excluding, `start`. -/
inductive ParChain (grid : List GridCell) (start : Nat) : Nat → List Nat → Prop where
  | nil : ParChain grid start start []
  | cons (cell p : Nat) (rest : List Nat) : cell ≠ start →
      (infoAt grid cell).parent_ = some p → ParChain grid start p rest →
      ParChain grid start cell (cell :: rest)

/-! ## Reachable states and their invariants -/

/-- The states the program can be in: the constructor's state (the generator
delivers pairs in the ranges of its distributions), and every state that one
handled event or one call of `Game::Tick` leads to. -/
inductive Reachable : Game → Prop where
  | ctor (draws : List (Int × Int)) (g : Game) :
      (∀ d ∈ draws, DrawInRange d) → Game.ctor draws = some g → Reachable g
  | event (g : Game) (e : SDL_Event) (g' : Game) :
      Reachable g → g.HandleEvent e = some g' → Reachable g'
  | tick (tie : List Nat → Nat) (g : Game) (current_ms : Int) (g' : Game) :
      Reachable g → g.Tick tie current_ms = some g' → Reachable g'

/-- The opposite heading. -/
def Direction.opposite : Direction → Direction
  | Direction.LEFT => Direction.RIGHT
  | Direction.RIGHT => Direction.LEFT
  | Direction.UP => Direction.DOWN
  | Direction.DOWN => Direction.UP

/-- The heading an arrow key asks for; `none` for every other key. -/
def keyDirection : SDL_Keycode → Option Direction
  | SDL_Keycode.SDLK_LEFT => some Direction.LEFT
  | SDL_Keycode.SDLK_RIGHT => some Direction.RIGHT
  | SDL_Keycode.SDLK_UP => some Direction.UP
  | SDL_Keycode.SDLK_DOWN => some Direction.DOWN
  | _ => none

/-- The wrap-around neighbour of cell `i` in direction `d`. -/
def wrapNeighbour (d : Direction) (i : Nat) : Nat :=
  match d with
  | Direction.LEFT => nbLeft i
  | Direction.RIGHT => nbRight i
  | Direction.UP => nbTop i
  | Direction.DOWN => nbBottom i

/-- The position of direction `d` in the list `GetNeighboursIndices` returns in
wrapped mode (left, right, top, bottom). -/
def neighbourSlot : Direction → Nat
  | Direction.LEFT => 0
  | Direction.RIGHT => 1
  | Direction.UP => 2
  | Direction.DOWN => 3

/-- At most one of the three mode flags is set. -/
def ModesExclusive (g : Game) : Prop :=
  ¬ (g.autopilot_toggle_ = true ∧ g.shortest_path_toggle_ = true) ∧
    ¬ (g.autopilot_toggle_ = true ∧ g.wrapped_shortest_path_toggle_ = true) ∧
    ¬ (g.shortest_path_toggle_ = true ∧ g.wrapped_shortest_path_toggle_ = true)

/-- The segment list has no repetition, except that its last entry may repeat the
entry before it. -/
def SegmentsDistinct (segs : List Nat) : Prop :=
  segs.Nodup ∨ ∃ front t, segs = front ++ [t, t] ∧ (front ++ [t]).Nodup

/-- Facts that hold in every reachable state. -/
structure GameInv (g : Game) : Prop where
  grid_ok : GridOK g.grid_
  segs_valid : ∀ s ∈ g.snake_.snake_segments_, s < 432
  segs_ne : g.snake_.snake_segments_ ≠ []
  food_lt : g.food_ < 432
  food_free : g.food_ ∉ g.snake_.snake_segments_
  draws_ok : ∀ d ∈ g.mt_, DrawInRange d
  modes : ModesExclusive g
  distinct : g.game_over_ = false → SegmentsDistinct g.snake_.snake_segments_

/-! ## Sessions of the main loop, for concrete evaluations -/

/-- One thing the main loop of `Game::Run` does to the state: hand an event of
`SDL_PollEvent` to the handlers, or call `Game::Tick` at a clock reading. -/
inductive LoopStep where
  | event (e : SDL_Event)
  | tick (current_ms : Int)
  deriving DecidableEq, Repr

/-- The effect of one loop step. -/
def Game.loopStep (tie : List Nat → Nat) (g : Game) : LoopStep → Option Game
  | LoopStep.event e => g.HandleEvent e
  | LoopStep.tick current_ms => g.Tick tie current_ms

/-- The state after a list of loop steps. -/
def Game.play (tie : List Nat → Nat) (g : Game) : List LoopStep → Option Game
  | [] => some g
  | step :: steps =>
    match g.loopStep tie step with
    | none => none
    | some g1 => Game.play tie g1 steps

/-- The state the program is in after the constructor received `draws` and the
main loop performed `steps`. -/
def Game.session (draws : List (Int × Int)) (steps : List LoopStep) : Option Game :=
  match Game.ctor draws with
  | none => none
  | some g => g.play tieFirst steps

/-- A non-repeat key-down event of key `k`. -/
def keyDown (k : SDL_Keycode) : SDL_Event :=
  { type_ := SDL_EventType.SDL_KEYDOWN, sym := k, repeat_ := 0 }

/-- A key-up event of key `k`. -/
def keyUp (k : SDL_Keycode) : SDL_Event :=
  { type_ := SDL_EventType.SDL_KEYUP, sym := k, repeat_ := 0 }

/-- A session that ends in a self-collision: the snake eats the food in front of
it, grows to five segments and turns up, left and down into its own body. -/
def collisionSteps : List LoopStep :=
  [LoopStep.tick 1000, LoopStep.tick 2000,
   LoopStep.event (keyDown SDL_Keycode.SDLK_UP), LoopStep.tick 3000,
   LoopStep.event (keyDown SDL_Keycode.SDLK_LEFT), LoopStep.tick 4000,
   LoopStep.event (keyDown SDL_Keycode.SDLK_DOWN), LoopStep.tick 5000]

/-- The pairs the generator delivers in the sessions used for evaluations: the
first puts the food on cell 229, right in front of the new snake, the second on
cell 0, the third on cell 50. -/
def sessionDraws : List (Int × Int) := [(650, 450), (0, 0), (100, 100)]

/-- The state after the constructor and one tick that eats the food on cell 229. -/
def grownGame : Game :=
  { is_running_ := false, game_over_ := false, paused_ := false, autopilot_toggle_ := false,
    shortest_path_toggle_ := false, wrapped_shortest_path_toggle_ := false,
    info_toggle_ := false, last_ms_ := 1000, tick_ms_ := 99, score_ := 10,
    grid_ := initGrid,
    snake_ := { direction_ := Direction.RIGHT, snake_segments_ := [229, 228, 227, 226, 226],
                moved_snake_ := false },
    shortest_path_cells_ := [], food_ := 0, mt_ := [(100, 100)] }

/-- The state after the constructor and `collisionSteps`. -/
def collidedGame : Game :=
  { is_running_ := false, game_over_ := true, paused_ := false, autopilot_toggle_ := false,
    shortest_path_toggle_ := false, wrapped_shortest_path_toggle_ := false,
    info_toggle_ := false, last_ms_ := 5000, tick_ms_ := 99, score_ := 10,
    grid_ := initGrid,
    snake_ := { direction_ := Direction.DOWN, snake_segments_ := [229, 205, 206, 230, 229],
                moved_snake_ := false },
    shortest_path_cells_ := [], food_ := 0, mt_ := [(100, 100)] }

/-! ## Vocabulary for the rounding counts, the rounds of the search and path following -/

/-- Number of raw values `0, ..., limit` of a distribution of `Game::SpawnFood`
that the rounding maps to the coordinate `v`. -/
def rawCount (limit : Nat) (v : Int) : Nat :=
  (List.range (limit + 1)).countP (fun raw : Nat => decide (snapCoordinate (raw : Int) = v))

/-- Number of raw pairs `(x, y)` with `0 ≤ x ≤ 1150` and `0 ≤ y ≤ 850` for which
`Game::SpawnFood` selects the grid cell `cell`. -/
def rawPairCount (cell : Nat) : Nat :=
  (List.range 1151).foldl (fun (n : Nat) (raw_x : Nat) =>
    n + (List.range 851).countP (fun raw_y : Nat =>
      decide (drawCell ((raw_x : Int), (raw_y : Int)) = cell))) 0

/-- The states of the main loop of `Game::FindAStarPath` started in `st0`:
`SearchRounds ... st0 n st` says that the loop is in state `st` after `n` rounds,
each entered with the loop condition true. -/
inductive SearchRounds (tie : List Nat → Nat) (snake_indices : List Int)
    (start_cell target_cell : Nat) (wrapped : Bool) (st0 : SearchState) :
    Nat → SearchState → Prop where
  | start : SearchRounds tie snake_indices start_cell target_cell wrapped st0 0 st0
  | round (n : Nat) (st st1 : SearchState) :
      SearchRounds tie snake_indices start_cell target_cell wrapped st0 n st →
      loopCond target_cell st = true →
      expandTop tie snake_indices start_cell target_cell wrapped st = some st1 →
      SearchRounds tie snake_indices start_cell target_cell wrapped st0 (n + 1) st1

/-- Consecutive calls of `Game::Tick` at the clock readings `times`. -/
def Game.ticks (tie : List Nat → Nat) (g : Game) : List Int → Option Game
  | [] => some g
  | current_ms :: times =>
    match g.Tick tie current_ms with
    | none => none
    | some g1 => Game.ticks tie g1 times

/-- The time test `current_ms - last_ms_ > tick_ms_` of `Game::Tick` succeeds at
each clock reading of the list, when `last_ms_` is `last_ms` at the first call and
`tick_ms_` stays `tick_ms`: each reading is more than `tick_ms` after the one
before it. -/
def TicksDue (tick_ms : Int) : Int → List Int → Prop
  | _, [] => True
  | last_ms, current_ms :: times =>
    current_ms - last_ms > tick_ms ∧ TicksDue tick_ms current_ms times

/-- The situation while the autopilot follows the cached path `cache` (target
first, next step last): the game runs in autopilot mode, the cache holds `cache`,
whose cells are pairwise distinct grid cells off the snake, each a direct
neighbour of the one after it and the last one a direct neighbour of the head,
and the first one is the food cell. -/
structure FollowInv (g : Game) (cache : List Nat) : Prop where
  grid_ok : GridOK g.grid_
  auto : g.autopilot_toggle_ = true
  shortest : g.shortest_path_toggle_ = false
  wrapped : g.wrapped_shortest_path_toggle_ = false
  paused : g.paused_ = false
  over : g.game_over_ = false
  cache_eq : g.shortest_path_cells_ = cache
  segs_valid : ∀ s ∈ g.snake_.snake_segments_, s < 432
  segs_ne : g.snake_.snake_segments_ ≠ []
  food_lt : g.food_ < 432
  draws_ok : ∀ d ∈ g.mt_, DrawInRange d
  nodup : cache.Nodup
  free : ∀ c ∈ cache, c < 432 ∧ c ∉ g.snake_.snake_segments_
  chain : List.Chain' (fun a b => Adj false b a) cache
  last_adj : ∀ l, cache.getLast? = some l → Adj false g.GetHead l
  first_food : ∀ c, cache.head? = some c → c = g.food_

/-- The session in which the autopilot is switched on before the first tick: the
constructor puts the food on cell 231, the tick moves the head to cell 229 and,
the cache being empty, searches the path to the food. -/
def autopilotSteps : List LoopStep :=
  [LoopStep.event (keyUp SDL_Keycode.SDLK_a), LoopStep.tick 1000]

/-! # Theorems -/

/-! ## Grid geometry -/

set_option maxRecDepth 1000000 in
theorem initGrid_boxes :
    initGrid.map (fun cell => cell.box_) = (List.range 432).map cellBox := by
  decide

theorem GridOK.length {grid : List GridCell} (h : GridOK grid) : grid.length = 432 := by
  have := congrArg List.length h
  rw [initGrid_boxes] at this
  simpa using this

theorem GridOK.boxAt {grid : List GridCell} (h : GridOK grid) {i : Nat} (hi : i < 432) :
    boxAt grid i = cellBox i := by
  have hl := h.length
  unfold GridOK at h
  rw [initGrid_boxes] at h
  have h2 : (grid.map (fun cell => cell.box_))[i]? = ((List.range 432).map cellBox)[i]? := by rw [h]
  simp only [List.getElem?_map] at h2
  rw [List.getElem?_range hi] at h2
  unfold Snake2D.boxAt
  rw [List.getD_eq_getElem?_getD]
  cases hg : grid[i]? with
  | none => rw [hg] at h2; simp at h2
  | some c => rw [hg] at h2; simpa using h2

theorem gridOK_iff (grid : List GridCell) :
    GridOK grid ↔ grid.length = 432 ∧ ∀ i, i < 432 → Snake2D.boxAt grid i = cellBox i := by
  constructor
  · intro h; exact ⟨h.length, fun i hi => h.boxAt hi⟩
  · rintro ⟨hl, hb⟩
    unfold GridOK
    rw [initGrid_boxes]
    apply List.ext_getElem
    · simp [hl]
    · intro i h1 h2
      simp only [List.length_map] at h1
      have := hb i (by omega)
      unfold Snake2D.boxAt at this
      rw [List.getD_eq_getElem?_getD, List.getElem?_eq_getElem h1] at this
      simpa using this

set_option maxRecDepth 1000000 in
theorem neighbours_wrapped : ∀ i, i < 432 →
    GetNeighboursIndices (cellBox i) true =
      [(nbLeft i : Int), (nbRight i : Int), (nbTop i : Int), (nbBottom i : Int)] := by
  decide

set_option maxRecDepth 1000000 in
theorem neighbours_bounded : ∀ i, i < 432 →
    GetNeighboursIndices (cellBox i) false =
      (if i % 24 = 0 then [] else [((i - 1 : Nat) : Int)]) ++
      (if i % 24 = 23 then [] else [((i + 1 : Nat) : Int)]) ++
      (if i / 24 = 0 then [] else [((i - 24 : Nat) : Int)]) ++
      (if i / 24 = 17 then [] else [((i + 24 : Nat) : Int)]) := by
  decide

theorem neighbours_range {i : Nat} (hi : i < 432) (w : Bool) {idx : Int}
    (h : idx ∈ GetNeighboursIndices (cellBox i) w) : 0 ≤ idx ∧ idx < 432 := by
  cases w
  · rw [neighbours_bounded i hi] at h
    simp only [List.mem_append] at h
    rcases h with ((h | h) | h) | h <;> split_ifs at h <;> simp at h <;> omega
  · rw [neighbours_wrapped i hi] at h
    simp only [List.mem_cons, List.mem_singleton, List.not_mem_nil, or_false, nbLeft, nbRight, nbTop, nbBottom] at h
    rcases h with h | h | h | h <;> split_ifs at h <;> omega

theorem adj_lt {w : Bool} {a b : Nat} (ha : a < 432) (h : Adj w a b) : b < 432 := by
  have := neighbours_range ha w h
  omega

set_option maxRecDepth 1000000 in
theorem nb_inverse : ∀ a, a < 432 →
    nbRight (nbLeft a) = a ∧ nbLeft (nbRight a) = a ∧ nbBottom (nbTop a) = a ∧
      nbTop (nbBottom a) = a := by
  decide

theorem adj_symm {w : Bool} {a b : Nat} (ha : a < 432) (h : Adj w a b) : Adj w b a := by
  have hb := adj_lt ha h
  unfold Adj at *
  cases w
  · rw [neighbours_bounded a ha] at h
    rw [neighbours_bounded b hb]
    simp only [List.mem_append] at h ⊢
    rcases h with ((h | h) | h) | h <;> split_ifs at h <;> simp at h <;>
      · split_ifs <;> simp <;> omega
  · rw [neighbours_wrapped a ha] at h
    rw [neighbours_wrapped b hb]
    obtain ⟨h1, h2, h3, h4⟩ := nb_inverse a ha
    simp only [List.mem_cons, List.mem_singleton, List.not_mem_nil, or_false, Nat.cast_inj] at h ⊢
    rcases h with h | h | h | h <;> subst h
    · right; left; exact h1.symm
    · left; exact h2.symm
    · right; right; right; exact h3.symm
    · right; right; left; exact h4.symm

theorem gridOK_initGrid : GridOK initGrid := rfl

theorem std_abs_cases (v : Int) : (0 ≤ v ∧ std_abs v = v) ∨ (v < 0 ∧ std_abs v = -v) := by
  unfold std_abs
  split_ifs <;> omega

theorem std_abs_nonneg (v : Int) : 0 ≤ std_abs v := by
  rcases std_abs_cases v with h | h <;> omega

theorem std_abs_scaled (k : Int) : (std_abs (k * 50)).tdiv 50 = std_abs k := by
  rw [Int.tdiv_eq_ediv (std_abs_nonneg _) (by norm_num)]
  rcases std_abs_cases (k * 50) with h | h <;> rcases std_abs_cases k with h' | h' <;> omega

theorem getXYDistance_scaled (c1 r1 c2 r2 h1 w2 h2 : Int) :
    GetXYDistance ⟨c1 * 50, r1 * 50, 50, h1⟩ ⟨c2 * 50, r2 * 50, w2, h2⟩ =
      std_abs (c2 - c1) + std_abs (r2 - r1) := by
  simp only [GetXYDistance]
  rw [show c2 * 50 - c1 * 50 = (c2 - c1) * 50 by ring,
    show r2 * 50 - r1 * 50 = (r2 - r1) * 50 by ring, std_abs_scaled, std_abs_scaled]

theorem getShortestXYDistance_scaled (c1 c2 r1 r2 : Int) :
    GetShortestXYDistance ⟨c1 * 50, r1 * 50, 50, 50⟩ ⟨c2 * 50, r2 * 50, 50, 50⟩ =
      min (min (min (min (std_abs (c2 - c1) + std_abs (r2 - r1))
        (std_abs (c2 + 24 - c1) + std_abs (r2 - r1)))
        (std_abs (c2 - 24 - c1) + std_abs (r2 - r1)))
        (std_abs (c2 - c1) + std_abs (r2 + 18 - r1)))
        (std_abs (c2 - c1) + std_abs (r2 - 18 - r1)) := by
  simp only [GetShortestXYDistance, constants.screen_width, constants.screen_height]
  rw [show c2 * 50 + 1200 - 2 * 1200 + 1200 = c2 * 50 by ring,
    show c2 * 50 + 1200 - 2 * 1200 = (c2 - 24) * 50 by ring,
    show c2 * 50 + 1200 = (c2 + 24) * 50 by ring,
    show r2 * 50 + 900 - 2 * 900 = (r2 - 18) * 50 by ring,
    show r2 * 50 + 900 = (r2 + 18) * 50 by ring]
  simp only [getXYDistance_scaled]

theorem getXYDistance_cell (i j : Nat) :
    GetXYDistance (cellBox i) (cellBox j) =
      std_abs ((j % 24 : Nat) - (i % 24 : Nat)) + std_abs ((j / 24 : Nat) - (i / 24 : Nat)) := by
  simp only [cellBox]
  rw [getXYDistance_scaled]

theorem getShortestXYDistance_le (a b : SDL_Rect) :
    GetShortestXYDistance a b ≤ GetXYDistance a b := by
  simp only [GetShortestXYDistance]
  exact le_trans (min_le_left _ _) (le_trans (min_le_left _ _)
    (le_trans (min_le_left _ _) (min_le_left _ _)))

theorem getXYDistance_cell_pos {i j : Nat} (hij : i ≠ j) :
    0 < GetXYDistance (cellBox i) (cellBox j) := by
  rw [getXYDistance_cell]
  rcases std_abs_cases (((j % 24 : Nat) : Int) - ((i % 24 : Nat) : Int)) with k | k <;>
  rcases std_abs_cases (((j / 24 : Nat) : Int) - ((i / 24 : Nat) : Int)) with k' | k' <;>
  omega

theorem getXYDistance_cell_le {i j : Nat} (hi : i < 432) (hj : j < 432) :
    GetXYDistance (cellBox i) (cellBox j) ≤ 40 := by
  rw [getXYDistance_cell]
  rcases std_abs_cases (((j % 24 : Nat) : Int) - ((i % 24 : Nat) : Int)) with k | k <;>
  rcases std_abs_cases (((j / 24 : Nat) : Int) - ((i / 24 : Nat) : Int)) with k' | k' <;>
  omega

theorem getShortestXYDistance_cell_pos {i j : Nat} (hi : i < 432) (hj : j < 432)
    (hij : i ≠ j) : 0 < GetShortestXYDistance (cellBox i) (cellBox j) := by
  have h0 := getXYDistance_cell_pos hij
  rw [getXYDistance_cell] at h0
  simp only [cellBox]
  rw [getShortestXYDistance_scaled]
  have n1 := std_abs_nonneg (((j % 24 : Nat) : Int) - ((i % 24 : Nat) : Int))
  have n2 := std_abs_nonneg (((j / 24 : Nat) : Int) - ((i / 24 : Nat) : Int))
  have hi2 : i % 24 < 24 := Nat.mod_lt _ (by norm_num)
  have hj2 : j % 24 < 24 := Nat.mod_lt _ (by norm_num)
  have e1 : 0 < std_abs (((j % 24 : Nat) : Int) + 24 - ((i % 24 : Nat) : Int)) := by
    rcases std_abs_cases (((j % 24 : Nat) : Int) + 24 - ((i % 24 : Nat) : Int)) with k | k <;> omega
  have e2 : 0 < std_abs (((j % 24 : Nat) : Int) - 24 - ((i % 24 : Nat) : Int)) := by
    rcases std_abs_cases (((j % 24 : Nat) : Int) - 24 - ((i % 24 : Nat) : Int)) with k | k <;> omega
  have e3 : 0 < std_abs (((j / 24 : Nat) : Int) + 18 - ((i / 24 : Nat) : Int)) := by
    rcases std_abs_cases (((j / 24 : Nat) : Int) + 18 - ((i / 24 : Nat) : Int)) with k | k <;> omega
  have e4 : 0 < std_abs (((j / 24 : Nat) : Int) - 18 - ((i / 24 : Nat) : Int)) := by
    rcases std_abs_cases (((j / 24 : Nat) : Int) - 18 - ((i / 24 : Nat) : Int)) with k | k <;> omega
  refine lt_min (lt_min (lt_min (lt_min ?_ ?_) ?_) ?_) ?_ <;> omega

/-- With no wrap shortcut on either axis every translated probe is at least as
far as the target itself. -/
theorem getShortestXYDistance_scaled_eq (c1 c2 r1 r2 : Int)
    (hc : std_abs (c2 - c1) ≤ 12) (hr : std_abs (r2 - r1) ≤ 9) :
    GetShortestXYDistance ⟨c1 * 50, r1 * 50, 50, 50⟩ ⟨c2 * 50, r2 * 50, 50, 50⟩ =
      GetXYDistance ⟨c1 * 50, r1 * 50, 50, 50⟩ ⟨c2 * 50, r2 * 50, 50, 50⟩ := by
  rw [getShortestXYDistance_scaled, getXYDistance_scaled]
  have e1 : std_abs (c2 - c1) ≤ std_abs (c2 + 24 - c1) := by
    rcases std_abs_cases (c2 + 24 - c1) with k | k <;>
    rcases std_abs_cases (c2 - c1) with k' | k' <;> omega
  have e2 : std_abs (c2 - c1) ≤ std_abs (c2 - 24 - c1) := by
    rcases std_abs_cases (c2 - 24 - c1) with k | k <;>
    rcases std_abs_cases (c2 - c1) with k' | k' <;> omega
  have e3 : std_abs (r2 - r1) ≤ std_abs (r2 + 18 - r1) := by
    rcases std_abs_cases (r2 + 18 - r1) with k | k <;>
    rcases std_abs_cases (r2 - r1) with k' | k' <;> omega
  have e4 : std_abs (r2 - r1) ≤ std_abs (r2 - 18 - r1) := by
    rcases std_abs_cases (r2 - 18 - r1) with k | k <;>
    rcases std_abs_cases (r2 - r1) with k' | k' <;> omega
  rw [min_eq_left (by omega), min_eq_left (by omega), min_eq_left (by omega),
    min_eq_left (by omega)]

set_option maxRecDepth 1000000 in
theorem convert_cellBox : ∀ i, i < 432 →
    ConvertCellToGridIndex (cellBox i) = i ∧
      ConvertXYToGridIndex (cellBox i).x (cellBox i).y = i := by
  decide

set_option maxRecDepth 1000000 in
theorem neighbours_bounded_length : ∀ i, i < 432 →
    (GetNeighboursIndices (cellBox i) false).length =
      if (i % 24 = 0 ∨ i % 24 = 23) ∧ (i / 24 = 0 ∨ i / 24 = 17) then 2
      else if i % 24 = 0 ∨ i % 24 = 23 ∨ i / 24 = 0 ∨ i / 24 = 17 then 3
      else 4 := by
  decide

/-! ## Claims on the grid geometry -/

/-- C5 (evaluation at the failing input): for the cells `grid_[0]` at `(0, 0)` and
`grid_[431]` at `(1150, 850)` `GetShortestXYDistance` returns 18, while the
toroidal Manhattan distance `min(|dx|, width-|dx|)/side + min(|dy|, height-|dy|)/side`
is 2: no probe translates the target on both axes at once. -/
theorem C5_shortest_distance_misses_double_wrap :
    GetShortestXYDistance (boxAt initGrid 0) (boxAt initGrid 431) = 18 ∧
      toroidalManhattan (boxAt initGrid 0) (boxAt initGrid 431) = 2 := by
  rw [gridOK_initGrid.boxAt (by decide), gridOK_initGrid.boxAt (by decide)]
  decide

/-- C6: for every cell `i` of the 24x18 grid, `GetNeighboursIndices(true)` returns
the four indices left, right, top, bottom (with wrap-around) in this order;
`GetNeighboursIndices(false)` returns, in the same order, those of `i - 1`, `i + 1`,
`i - 24`, `i + 24` that stay on the grid, which are 2 for a corner cell, 3 for
another border cell and 4 for an interior cell; every returned index is in
`[0, 432)`. -/
theorem C6_neighbour_indices (i : Nat) (hi : i < 432) :
    GetNeighboursIndices (boxAt initGrid i) true =
        [(nbLeft i : Int), (nbRight i : Int), (nbTop i : Int), (nbBottom i : Int)] ∧
      GetNeighboursIndices (boxAt initGrid i) false =
        (if i % 24 = 0 then [] else [((i - 1 : Nat) : Int)]) ++
        (if i % 24 = 23 then [] else [((i + 1 : Nat) : Int)]) ++
        (if i / 24 = 0 then [] else [((i - 24 : Nat) : Int)]) ++
        (if i / 24 = 17 then [] else [((i + 24 : Nat) : Int)]) ∧
      (GetNeighboursIndices (boxAt initGrid i) false).length =
        (if (i % 24 = 0 ∨ i % 24 = 23) ∧ (i / 24 = 0 ∨ i / 24 = 17) then 2
         else if i % 24 = 0 ∨ i % 24 = 23 ∨ i / 24 = 0 ∨ i / 24 = 17 then 3
         else 4) ∧
      ∀ (wrap_around : Bool) (index : Int),
        index ∈ GetNeighboursIndices (boxAt initGrid i) wrap_around →
          0 ≤ index ∧ index < 432 := by
  rw [gridOK_initGrid.boxAt hi]
  exact ⟨neighbours_wrapped i hi, neighbours_bounded i hi, neighbours_bounded_length i hi,
    fun w idx h => neighbours_range hi w h⟩

/-- C6 at the corner cell 0 and at the interior cell 228. -/
theorem C6_neighbour_indices_witness :
    GetNeighboursIndices (boxAt initGrid 0) true = [23, 1, 408, 24] ∧
      GetNeighboursIndices (boxAt initGrid 0) false = [1, 24] ∧
      GetNeighboursIndices (boxAt initGrid 228) false = [227, 229, 204, 252] := by
  have h0 := C6_neighbour_indices 0 (by decide)
  have h1 := C6_neighbour_indices 228 (by decide)
  refine ⟨h0.1.trans (by decide), h0.2.1.trans (by decide), h1.2.1.trans (by decide)⟩

/-- C7: the constructor's grid has 432 cells; cell `i` has the box
`((i mod 24) * 50, (i div 24) * 50, 50, 50)`; `ConvertCellToGridIndex` of the cell
and `ConvertXYToGridIndex` of its coordinates both return `i`, so looking up the
index of a cell gives the cell back. -/
theorem C7_index_roundtrip (i : Nat) (hi : i < 432) :
    initGrid.length = 432 ∧
      boxAt initGrid i =
        { x := ((i % 24 : Nat) : Int) * 50, y := ((i / 24 : Nat) : Int) * 50, w := 50, h := 50 } ∧
      ConvertCellToGridIndex (boxAt initGrid i) = i ∧
      ConvertXYToGridIndex (boxAt initGrid i).x (boxAt initGrid i).y = i ∧
      initGrid[(ConvertCellToGridIndex (boxAt initGrid i)).toNat]? = initGrid[i]? := by
  have hb := gridOK_initGrid.boxAt hi
  have hc := convert_cellBox i hi
  rw [hb]
  refine ⟨gridOK_initGrid.length, rfl, hc.1, hc.2, ?_⟩
  rw [hc.1]
  simp

/-- C7 at cell 431, the last cell of the grid. -/
theorem C7_index_roundtrip_witness :
    boxAt initGrid 431 = { x := 1150, y := 850, w := 50, h := 50 } ∧
      ConvertCellToGridIndex (boxAt initGrid 431) = 431 ∧
      ConvertXYToGridIndex 1150 850 = 431 := by
  have h := C7_index_roundtrip 431 (by decide)
  refine ⟨h.2.1.trans (by decide), h.2.2.1, ?_⟩
  decide

/-- C8: for every pair of grid cells `GetShortestXYDistance` is at most
`GetXYDistance`, and the two are equal when `|b.x - a.x| <= screen_width / 2` and
`|b.y - a.y| <= screen_height / 2`. -/
theorem C8_wrapped_le_bounded (i j : Nat) (hi : i < 432) (hj : j < 432) :
    GetShortestXYDistance (boxAt initGrid i) (boxAt initGrid j) ≤
        GetXYDistance (boxAt initGrid i) (boxAt initGrid j) ∧
      (std_abs ((boxAt initGrid j).x - (boxAt initGrid i).x) ≤ constants.screen_width.tdiv 2 →
        std_abs ((boxAt initGrid j).y - (boxAt initGrid i).y) ≤ constants.screen_height.tdiv 2 →
        GetShortestXYDistance (boxAt initGrid i) (boxAt initGrid j) =
          GetXYDistance (boxAt initGrid i) (boxAt initGrid j)) := by
  refine ⟨getShortestXYDistance_le _ _, ?_⟩
  rw [gridOK_initGrid.boxAt hi, gridOK_initGrid.boxAt hj]
  intro hx hy
  have e1 : constants.screen_width.tdiv 2 = 600 := by decide
  have e2 : constants.screen_height.tdiv 2 = 450 := by decide
  rw [e1] at hx
  rw [e2] at hy
  simp only [cellBox] at hx hy ⊢
  apply getShortestXYDistance_scaled_eq
  · rcases std_abs_cases (((j % 24 : Nat) : Int) * 50 - ((i % 24 : Nat) : Int) * 50) with k | k <;>
    rcases std_abs_cases (((j % 24 : Nat) : Int) - ((i % 24 : Nat) : Int)) with k' | k' <;> omega
  · rcases std_abs_cases (((j / 24 : Nat) : Int) * 50 - ((i / 24 : Nat) : Int) * 50) with k | k <;>
    rcases std_abs_cases (((j / 24 : Nat) : Int) - ((i / 24 : Nat) : Int)) with k' | k' <;> omega

/-- C8 at the cells 0 and 23 (opposite ends of the top row, where the wrapped
distance is strictly smaller) and at the cells 228 and 300 (no wrap shortcut). -/
theorem C8_wrapped_le_bounded_witness :
    GetShortestXYDistance (boxAt initGrid 0) (boxAt initGrid 23) ≤
        GetXYDistance (boxAt initGrid 0) (boxAt initGrid 23) ∧
      GetShortestXYDistance (boxAt initGrid 228) (boxAt initGrid 300) =
        GetXYDistance (boxAt initGrid 228) (boxAt initGrid 300) := by
  refine ⟨(C8_wrapped_le_bounded 0 23 (by decide) (by decide)).1,
    (C8_wrapped_le_bounded 228 300 (by decide) (by decide)).2 ?_ ?_⟩
  · rw [gridOK_initGrid.boxAt (by decide), gridOK_initGrid.boxAt (by decide)]; decide
  · rw [gridOK_initGrid.boxAt (by decide), gridOK_initGrid.boxAt (by decide)]; decide

/-! ## Reading and writing cells -/

theorem length_setInfo (grid : List GridCell) (c : Nat) (v : GraphInfo) :
    (setInfo grid c v).length = grid.length := by
  simp [setInfo]

theorem boxAt_setInfo (grid : List GridCell) (c : Nat) (v : GraphInfo) (j : Nat) :
    boxAt (setInfo grid c v) j = boxAt grid j := by
  unfold boxAt setInfo
  rw [List.getD_eq_getElem?_getD, List.getD_eq_getElem?_getD, List.getElem?_set]
  by_cases h : c = j
  · subst h
    by_cases hc : c < grid.length
    · simp [hc, boxAt, List.getD_eq_getElem?_getD]
    · simp [hc, List.getElem?_eq_none (Nat.le_of_not_lt hc)]
  · simp [h]

theorem infoAt_setInfo_same {grid : List GridCell} {c : Nat} (v : GraphInfo)
    (hc : c < grid.length) : infoAt (setInfo grid c v) c = v := by
  unfold infoAt setInfo
  rw [List.getD_eq_getElem?_getD, List.getElem?_set]
  simp [hc]

theorem infoAt_setInfo_ne {grid : List GridCell} {c j : Nat} (v : GraphInfo) (h : c ≠ j) :
    infoAt (setInfo grid c v) j = infoAt grid j := by
  unfold infoAt setInfo
  rw [List.getD_eq_getElem?_getD, List.getD_eq_getElem?_getD, List.getElem?_set]
  simp [h]

theorem gridOK_setInfo {grid : List GridCell} (h : GridOK grid) (c : Nat) (v : GraphInfo) :
    GridOK (setInfo grid c v) := by
  rw [gridOK_iff] at h ⊢
  refine ⟨by rw [length_setInfo]; exact h.1, fun i hi => ?_⟩
  rw [boxAt_setInfo]
  exact h.2 i hi

theorem map_box_resetGrid (grid : List GridCell) :
    (resetGrid grid).map (fun cell => cell.box_) = grid.map (fun cell => cell.box_) := by
  simp [resetGrid, Function.comp_def]

theorem gridOK_resetGrid {grid : List GridCell} (h : GridOK grid) : GridOK (resetGrid grid) := by
  unfold GridOK at *
  rw [map_box_resetGrid]
  exact h

theorem infoAt_resetGrid (grid : List GridCell) (c : Nat) :
    infoAt (resetGrid grid) c = GraphInfo.fresh := by
  unfold infoAt resetGrid
  rw [List.getD_eq_getElem?_getD, List.getElem?_map]
  cases grid[c]? <;> rfl

theorem heuristic_of_gridOK {grid : List GridCell} (h : GridOK grid) {start target : Nat}
    (hs : start < 432) (ht : target < 432) (wrapped : Bool) :
    heuristic grid start target wrapped = cellHeuristic start target wrapped := by
  unfold heuristic cellHeuristic
  rw [h.boxAt hs, h.boxAt ht]

theorem cellHeuristic_pos {start target : Nat} (hs : start < 432) (ht : target < 432)
    (hne : start ≠ target) (wrapped : Bool) : 0 < cellHeuristic start target wrapped := by
  unfold cellHeuristic
  cases wrapped
  · rw [if_neg (by decide)]; exact getXYDistance_cell_pos hne
  · rw [if_pos rfl]; exact getShortestXYDistance_cell_pos hs ht hne

theorem cellHeuristic_le {start target : Nat} (hs : start < 432) (ht : target < 432)
    (wrapped : Bool) : cellHeuristic start target wrapped ≤ 40 := by
  unfold cellHeuristic
  cases wrapped
  · rw [if_neg (by decide)]; exact getXYDistance_cell_le hs ht
  · rw [if_pos rfl]
    exact le_trans (getShortestXYDistance_le _ _) (getXYDistance_cell_le hs ht)

/-! ## The priority queue -/

theorem foldl_min_le (f : Nat → Int) (xs : List Nat) (a : Int) :
    xs.foldl (fun acc y => min acc (f y)) a ≤ a ∧
      ∀ y ∈ xs, xs.foldl (fun acc y => min acc (f y)) a ≤ f y := by
  induction xs generalizing a with
  | nil => simp
  | cons x xs ih =>
    simp only [List.foldl_cons, List.mem_cons, forall_eq_or_imp]
    obtain ⟨h1, h2⟩ := ih (min a (f x))
    exact ⟨le_trans h1 (min_le_left _ _), le_trans h1 (min_le_right _ _), h2⟩

theorem foldl_min_mem (f : Nat → Int) (xs : List Nat) (a : Int) :
    xs.foldl (fun acc y => min acc (f y)) a = a ∨
      ∃ y ∈ xs, xs.foldl (fun acc y => min acc (f y)) a = f y := by
  induction xs generalizing a with
  | nil => simp
  | cons x xs ih =>
    simp only [List.foldl_cons, List.mem_cons]
    rcases ih (min a (f x)) with h | ⟨y, hy, h⟩
    · rcases min_choice a (f x) with h' | h'
      · left; rw [h, h']
      · right; exact ⟨x, Or.inl rfl, by rw [h, h']⟩
    · right; exact ⟨y, Or.inr hy, h⟩

theorem heapArrange_spec (tie : List Nat → Nat) (grid : List GridCell) (c : List Nat) :
    (heapArrange tie grid c).Perm c ∧
      ∀ t rest, heapArrange tie grid c = t :: rest →
        ∀ b ∈ c, globalCost grid t ≤ globalCost grid b := by
  cases c with
  | nil => simp [heapArrange]
  | cons x xs =>
    simp only [heapArrange]
    set m := xs.foldl (fun acc y => min acc (globalCost grid y)) (globalCost grid x) with hm
    set cands := (x :: xs).filter (fun y => decide (globalCost grid y = m)) with hc
    have hle := foldl_min_le (globalCost grid) xs (globalCost grid x)
    have hmem := foldl_min_mem (globalCost grid) xs (globalCost grid x)
    rw [← hm] at hle hmem
    have hne : cands ≠ [] := by
      rcases hmem with h | ⟨y, hy, h⟩
      · have : x ∈ cands := by
          rw [hc, List.mem_filter]; exact ⟨List.mem_cons_self _ _, by simp [h]⟩
        exact List.ne_nil_of_mem this
      · have : y ∈ cands := by
          rw [hc, List.mem_filter]; exact ⟨List.mem_cons_of_mem _ hy, by simp [h]⟩
        exact List.ne_nil_of_mem this
    have hpos : 0 < cands.length := List.length_pos.mpr hne
    have hlt : tie cands % cands.length < cands.length := Nat.mod_lt _ hpos
    have ht : cands.getD (tie cands % cands.length) x ∈ cands := by
      rw [List.getD_eq_getElem?_getD, List.getElem?_eq_getElem hlt]
      exact List.getElem_mem _
    set t := cands.getD (tie cands % cands.length) x with htdef
    rw [hc, List.mem_filter] at ht
    obtain ⟨ht1, ht2⟩ := ht
    have ht3 : globalCost grid t = m := by simpa using ht2
    refine ⟨(List.perm_cons_erase ht1).symm, ?_⟩
    intro t' rest heq b hb
    simp only [List.cons.injEq] at heq
    rw [← heq.1, ht3]
    rcases List.mem_cons.mp hb with rfl | hb
    · exact hle.1
    · exact hle.2 b hb

theorem heapArrange_perm (tie : List Nat → Nat) (grid : List GridCell) (c : List Nat) :
    (heapArrange tie grid c).Perm c := (heapArrange_spec tie grid c).1

theorem mem_heapArrange {tie : List Nat → Nat} {grid : List GridCell} {c : List Nat} {x : Nat} :
    x ∈ heapArrange tie grid c ↔ x ∈ c := (heapArrange_perm tie grid c).mem_iff

theorem mem_heapPush {tie : List Nat → Nat} {grid : List GridCell} {c : List Nat}
    {cell x : Nat} : x ∈ heapPush tie grid c cell ↔ x ∈ c ∨ x = cell := by
  unfold heapPush
  rw [mem_heapArrange]
  simp

theorem heapPush_top_min (tie : List Nat → Nat) (grid : List GridCell) (c : List Nat)
    (cell t : Nat) (rest : List Nat) (h : heapPush tie grid c cell = t :: rest) :
    ∀ b ∈ heapPush tie grid c cell, globalCost grid t ≤ globalCost grid b := by
  intro b hb
  unfold heapPush at h hb
  rw [mem_heapArrange] at hb
  exact (heapArrange_spec tie grid _).2 t rest h b hb

theorem mem_heapPop {tie : List Nat → Nat} {grid : List GridCell} {c : List Nat} {x : Nat} :
    x ∈ heapPop tie grid c ↔ x ∈ c.tail := by
  unfold heapPop
  exact mem_heapArrange

theorem heapPop_top_min (tie : List Nat → Nat) (grid : List GridCell) (c : List Nat)
    (t : Nat) (rest : List Nat) (h : heapPop tie grid c = t :: rest) :
    ∀ b ∈ heapPop tie grid c, globalCost grid t ≤ globalCost grid b := by
  intro b hb
  unfold heapPop at h hb
  rw [mem_heapArrange] at hb
  exact (heapArrange_spec tie grid _).2 t rest h b hb

theorem length_heapPop (tie : List Nat → Nat) (grid : List GridCell) (c : List Nat) :
    (heapPop tie grid c).length = c.length - 1 := by
  unfold heapPop
  rw [(heapArrange_perm tie grid _).length_eq]
  simp

/-! ## Counting visited cells -/

theorem countP_flip (l : List Nat) (hnd : l.Nodup) (p q : Nat → Bool) (a : Nat) (ha : a ∈ l)
    (hpa : p a = false) (hqa : q a = true) (hother : ∀ x, x ≠ a → p x = q x) :
    l.countP q = l.countP p + 1 := by
  induction l with
  | nil => simp at ha
  | cons x xs ih =>
    rw [List.nodup_cons] at hnd
    rcases List.mem_cons.mp ha with rfl | hmem
    · have hcongr : xs.countP q = xs.countP p := by
        apply List.countP_congr
        intro y hy
        have : y ≠ a := fun h => hnd.1 (h ▸ hy)
        rw [hother y this]
      rw [List.countP_cons_of_pos _ _ hqa, List.countP_cons_of_neg _ _ (by simp [hpa]), hcongr]
    · have hx : x ≠ a := fun h => hnd.1 (h ▸ hmem)
      have := ih hnd.2 hmem
      by_cases hp : p x = true
      · rw [List.countP_cons_of_pos _ _ hp, List.countP_cons_of_pos _ _ (hother x hx ▸ hp), this]
      · rw [List.countP_cons_of_neg _ _ hp, List.countP_cons_of_neg _ _ (hother x hx ▸ hp), this]

theorem visitedCount_le (grid : List GridCell) : visitedCount grid ≤ grid.length := by
  unfold visitedCount
  exact le_trans (List.countP_le_length _) (by simp)

theorem visitedCount_congr {g1 g2 : List GridCell} (hl : g1.length = g2.length)
    (h : ∀ c, (infoAt g1 c).visited_ = (infoAt g2 c).visited_) :
    visitedCount g1 = visitedCount g2 := by
  unfold visitedCount
  rw [hl]
  apply List.countP_congr
  intro c _
  rw [h c]

theorem visitedCount_mark {grid : List GridCell} {c : Nat} (v : GraphInfo)
    (hc : c < grid.length) (h0 : (infoAt grid c).visited_ = false) (h1 : v.visited_ = true) :
    visitedCount (setInfo grid c v) = visitedCount grid + 1 := by
  unfold visitedCount
  rw [length_setInfo]
  apply countP_flip _ (List.nodup_range _) _ _ c (List.mem_range.mpr hc) h0
  · rw [infoAt_setInfo_same v hc]; exact h1
  · intro x hx
    rw [infoAt_setInfo_ne v (Ne.symm hx)]

/-! ## The invariant holds when the main loop starts -/

theorem infoAt_searchInit (tie : List Nat → Nat) (grid : List GridCell) (start target : Nat)
    (wrapped : Bool) (hs : start < grid.length) (c : Nat) :
    infoAt (searchInit tie grid start target wrapped).grid_ c =
      if c = start then
        { GraphInfo.fresh with
          local_cost_ := 0, global_cost_ := heuristic (resetGrid grid) start target wrapped }
      else GraphInfo.fresh := by
  simp only [searchInit]
  by_cases h : c = start
  · subst h
    rw [if_pos rfl, infoAt_setInfo_same _ (by simpa [resetGrid] using hs), infoAt_resetGrid]
  · rw [if_neg h, infoAt_setInfo_ne _ (Ne.symm h), infoAt_resetGrid]

theorem mem_heap_searchInit (tie : List Nat → Nat) (grid : List GridCell) (start target : Nat)
    (wrapped : Bool) (c : Nat) :
    c ∈ (searchInit tie grid start target wrapped).min_heap ↔ c = start := by
  simp only [searchInit]
  rw [mem_heapPush]
  simp

theorem gridOK_searchInit (tie : List Nat → Nat) {grid : List GridCell} (h : GridOK grid)
    (start target : Nat) (wrapped : Bool) :
    GridOK (searchInit tie grid start target wrapped).grid_ := by
  simp only [searchInit]
  exact gridOK_setInfo (gridOK_resetGrid h) _ _

theorem headInv_searchInit (tie : List Nat → Nat) (occ : List Int) {grid : List GridCell}
    (hg : GridOK grid) {start target : Nat} (hs : start < 432) (ht : target < 432)
    (wrapped : Bool) (hH : 0 ≤ cellHeuristic start target wrapped) :
    HeadInv occ start target wrapped (cellHeuristic start target wrapped)
      (searchInit tie grid start target wrapped) := by
  have hlen : start < grid.length := by rw [hg.length]; exact hs
  have hinfo := infoAt_searchInit tie grid start target wrapped hlen
  have hheur : heuristic (resetGrid grid) start target wrapped =
      cellHeuristic start target wrapped := heuristic_of_gridOK (gridOK_resetGrid hg) hs ht wrapped
  have hok := gridOK_searchInit tie hg start target wrapped
  have hpar : ∀ c, (infoAt (searchInit tie grid start target wrapped).grid_ c).parent_ = none := by
    intro c; rw [hinfo]; split_ifs <;> rfl
  have hvis : ∀ c, (infoAt (searchInit tie grid start target wrapped).grid_ c).visited_ = false := by
    intro c; rw [hinfo]; split_ifs <;> rfl
  have hdisc : ∀ c, Discovered (searchInit tie grid start target wrapped).grid_ start c →
      c = start := by
    intro c hc
    rcases hc with h | h
    · exact h
    · exact absurd (hpar c) h
  have hloc : (infoAt (searchInit tie grid start target wrapped).grid_ start).local_cost_ = 0 := by
    rw [hinfo, if_pos rfl]
  refine
    { grid_ok := hok
      heur := heuristic_of_gridOK hok hs ht wrapped
      loc_start := hloc
      par_start := hpar start
      par_ok := fun c p h => by rw [hpar c] at h; exact absurd h (by simp)
      heap_disc := fun c hc => by
        rw [mem_heap_searchInit] at hc
        exact ⟨hc ▸ hs, Or.inl hc⟩
      vis_disc := fun c h => by rw [hvis c] at h; exact absurd h (by simp)
      loc_nonneg := fun c => by
        rw [hinfo]; split_ifs
        · exact le_refl _
        · decide
      undisc := fun c hc => by
        have : c ≠ start := fun h => hc (Or.inl h)
        rw [hinfo, if_neg this]; rfl
      loc_bound := fun c hc => by
        rw [hdisc c hc, hloc]
        exact mul_nonneg hH (by exact_mod_cast Nat.zero_le _)
      glob := fun c hc => by
        rw [hdisc c hc, hinfo, if_pos rfl]
        simp only [hheur]
        omega
      frontier := fun c hc _ => by
        rw [mem_heap_searchInit]; exact hdisc c hc
      top_min := fun t rest h b hb => by
        simp only [searchInit] at h hb ⊢
        exact heapPush_top_min tie _ _ _ t rest h b hb
      relaxed := fun u h => by rw [hvis u] at h; exact absurd h (by simp)
      vis_le_heap := fun a h => by rw [hvis a] at h; exact absurd h (by simp)
      disc_le_heap := fun c hc b hb _ => by
        rw [mem_heap_searchInit] at hb
        rw [hdisc c hc, hb, hloc]
        omega }

/-! ## Dropping visited tops -/

section Search

variable (tie : List Nat → Nat) {occ : List Int} {start target : Nat} {wrapped : Bool} {H : Int}

theorem headInv_pop {st : SearchState} (h : HeadInv occ start target wrapped H st)
    {t : Nat} {rest : List Nat} (hh : st.min_heap = t :: rest)
    (hv : (infoAt st.grid_ t).visited_ = true) :
    HeadInv occ start target wrapped H
      { st with min_heap := heapPop tie st.grid_ st.min_heap } := by
  have hsub : ∀ x, x ∈ heapPop tie st.grid_ st.min_heap → x ∈ st.min_heap := by
    intro x hx
    rw [mem_heapPop] at hx
    exact List.mem_of_mem_tail hx
  exact
    { grid_ok := h.grid_ok
      heur := h.heur
      loc_start := h.loc_start
      par_start := h.par_start
      par_ok := h.par_ok
      heap_disc := fun c hc => h.heap_disc c (hsub c hc)
      vis_disc := h.vis_disc
      loc_nonneg := h.loc_nonneg
      undisc := h.undisc
      loc_bound := h.loc_bound
      glob := h.glob
      frontier := fun c hc hvc => by
        have hmem := h.frontier c hc hvc
        rw [hh] at hmem
        show c ∈ heapPop tie st.grid_ st.min_heap
        rw [mem_heapPop, hh]
        rcases List.mem_cons.mp hmem with rfl | hr
        · rw [hv] at hvc; exact absurd hvc (by simp)
        · exact hr
      top_min := fun t' rest' heq b hb => heapPop_top_min tie st.grid_ st.min_heap t' rest' heq b hb
      relaxed := h.relaxed
      vis_le_heap := fun a ha b hb hvb => h.vis_le_heap a ha b (hsub b hb) hvb
      disc_le_heap := fun c hc b hb hvb => h.disc_le_heap c hc b (hsub b hb) hvb }

theorem popVisited_spec (n : Nat) (st : SearchState)
    (h : HeadInv occ start target wrapped H st) (hn : st.min_heap.length ≤ n) :
    HeadInv occ start target wrapped H (popVisited tie n st) ∧
      (popVisited tie n st).grid_ = st.grid_ ∧
      ((popVisited tie n st).min_heap = [] ∨
        ∃ t rest, (popVisited tie n st).min_heap = t :: rest ∧
          (infoAt st.grid_ t).visited_ = false) := by
  induction n generalizing st with
  | zero =>
    have : st.min_heap = [] := List.length_eq_zero.mp (Nat.le_zero.mp hn)
    exact ⟨h, rfl, Or.inl this⟩
  | succ n ih =>
    unfold popVisited
    cases hh : st.min_heap with
    | nil => exact ⟨h, rfl, Or.inl hh⟩
    | cons t rest =>
      simp only
      by_cases hv : (infoAt st.grid_ t).visited_ = true
      · rw [if_pos hv]
        have h' := headInv_pop tie h hh hv
        have hlen : ({ st with min_heap := heapPop tie st.grid_ st.min_heap } :
            SearchState).min_heap.length ≤ n := by
          show (heapPop tie st.grid_ st.min_heap).length ≤ n
          have hn' : (t :: rest).length ≤ n + 1 := hh ▸ hn
          rw [length_heapPop, hh]
          simp only [List.length_cons] at hn' ⊢
          omega
        have := ih _ h' hlen
        rw [hh] at this
        exact this
      · rw [if_neg hv]
        refine ⟨h, rfl, Or.inr ⟨t, rest, hh, ?_⟩⟩
        simpa using hv

/-! ## Marking the top visited -/

theorem heuristic_setInfo (grid : List GridCell) (c : Nat) (v : GraphInfo) (s t : Nat) (w : Bool) :
    heuristic (setInfo grid c v) s t w = heuristic grid s t w := by
  unfold heuristic
  rw [boxAt_setInfo, boxAt_setInfo]

theorem foldInv_mark {st : SearchState} (h : HeadInv occ start target wrapped H st)
    (hH : 0 ≤ H) {cur : Nat} {rest : List Nat} (hh : st.min_heap = cur :: rest)
    (hv : (infoAt st.grid_ cur).visited_ = false) :
    FoldInv occ start target wrapped H cur []
      { grid_ := setInfo st.grid_ cur ({ infoAt st.grid_ cur with visited_ := true }),
        min_heap := st.min_heap } ∧
      visitedCount (setInfo st.grid_ cur ({ infoAt st.grid_ cur with visited_ := true })) =
        visitedCount st.grid_ + 1 := by
  have hcur : cur ∈ st.min_heap := by rw [hh]; exact List.mem_cons_self _ _
  have hcd := h.heap_disc cur hcur
  have hclt : cur < st.grid_.length := by rw [h.grid_ok.length]; exact hcd.1
  set g' := setInfo st.grid_ cur ({ infoAt st.grid_ cur with visited_ := true }) with hg'
  have hinfo : ∀ c, infoAt g' c =
      if c = cur then { infoAt st.grid_ cur with visited_ := true } else infoAt st.grid_ c := by
    intro c
    by_cases hc : c = cur
    · subst hc; rw [if_pos rfl, hg', infoAt_setInfo_same _ hclt]
    · rw [if_neg hc, hg', infoAt_setInfo_ne _ (Ne.symm hc)]
  have hloc : ∀ c, (infoAt g' c).local_cost_ = (infoAt st.grid_ c).local_cost_ := by
    intro c; rw [hinfo]; split_ifs with hc
    · subst hc; rfl
    · rfl
  have hglob : ∀ c, (infoAt g' c).global_cost_ = (infoAt st.grid_ c).global_cost_ := by
    intro c; rw [hinfo]; split_ifs with hc
    · subst hc; rfl
    · rfl
  have hpar : ∀ c, (infoAt g' c).parent_ = (infoAt st.grid_ c).parent_ := by
    intro c; rw [hinfo]; split_ifs with hc
    · subst hc; rfl
    · rfl
  have hvis : ∀ c, (infoAt g' c).visited_ = true ↔
      (c = cur ∨ (infoAt st.grid_ c).visited_ = true) := by
    intro c; rw [hinfo]; split_ifs with hc
    · subst hc; simp
    · simp [hc]
  have hvisf : ∀ c, (infoAt g' c).visited_ = false → (infoAt st.grid_ c).visited_ = false := by
    intro c hc
    by_contra hcon
    have : (infoAt g' c).visited_ = true := (hvis c).mpr (Or.inr (by simpa using hcon))
    rw [hc] at this; exact absurd this (by simp)
  have hdisc : ∀ c, Discovered g' start c ↔ Discovered st.grid_ start c := by
    intro c; unfold Discovered; rw [hpar]
  have hcount : visitedCount g' = visitedCount st.grid_ + 1 :=
    visitedCount_mark _ hclt hv rfl
  have hrel : ∀ u, Relaxed occ wrapped H g' u ↔ Relaxed occ wrapped H st.grid_ u := by
    intro u; unfold Relaxed; simp only [hloc]
  have hgc : ∀ c, globalCost g' c = globalCost st.grid_ c := by
    intro c; unfold globalCost; exact hglob c
  have hcurmin : ∀ b ∈ st.min_heap, (infoAt st.grid_ cur).local_cost_ ≤
      (infoAt st.grid_ b).local_cost_ := by
    intro b hb
    have := h.top_min cur rest hh b hb
    unfold globalCost at this
    rw [h.glob cur hcd.2, h.glob b (h.heap_disc b hb).2] at this
    omega
  refine ⟨?_, hcount⟩
  exact
    { grid_ok := gridOK_setInfo h.grid_ok _ _
      heur := by show heuristic g' start target wrapped = H; rw [hg', heuristic_setInfo]; exact h.heur
      loc_start := by show (infoAt g' start).local_cost_ = 0; rw [hloc]; exact h.loc_start
      par_start := by show (infoAt g' start).parent_ = none; rw [hpar]; exact h.par_start
      par_ok := fun c p hcp => by
        change (infoAt g' c).parent_ = some p at hcp
        rw [hpar] at hcp
        obtain ⟨h1, h2, h3, h4, h5, h6⟩ := h.par_ok c p hcp
        refine ⟨h1, h2, (hvis p).mpr (Or.inr h3), h4, h5, ?_⟩
        show (infoAt g' p).local_cost_ + H ≤ (infoAt g' c).local_cost_
        rw [hloc, hloc]; exact h6
      heap_disc := fun c hc => ⟨(h.heap_disc c hc).1, (hdisc c).mpr (h.heap_disc c hc).2⟩
      vis_disc := fun c hc => by
        rcases (hvis c).mp hc with rfl | hc'
        · exact ⟨hcd.1, (hdisc _).mpr hcd.2⟩
        · exact ⟨(h.vis_disc c hc').1, (hdisc c).mpr (h.vis_disc c hc').2⟩
      loc_nonneg := fun c => by show 0 ≤ (infoAt g' c).local_cost_; rw [hloc]; exact h.loc_nonneg c
      undisc := fun c hc => by
        show (infoAt g' c).local_cost_ = INT_MAX
        rw [hloc]; exact h.undisc c (fun hd => hc ((hdisc c).mpr hd))
      loc_bound := fun c hc => by
        show (infoAt g' c).local_cost_ ≤ H * (visitedCount g' : Int)
        rw [hloc, hcount]
        have := h.loc_bound c ((hdisc c).mp hc)
        push_cast
        nlinarith
      glob := fun c hc => by
        show (infoAt g' c).global_cost_ = (infoAt g' c).local_cost_ + H
        rw [hglob, hloc]; exact h.glob c ((hdisc c).mp hc)
      frontier := fun c hc hvc => h.frontier c ((hdisc c).mp hc) (hvisf c hvc)
      top_min := fun t rest' heq b hb => by
        show globalCost g' t ≤ globalCost g' b
        rw [hgc, hgc]; exact h.top_min t rest' heq b hb
      cur_lt := hcd.1
      cur_vis := (hvis cur).mpr (Or.inl rfl)
      vis_le := fun a ha => by
        show (infoAt g' a).local_cost_ ≤ (infoAt g' cur).local_cost_
        rw [hloc, hloc]
        rcases (hvis a).mp ha with rfl | ha'
        · exact le_refl _
        · exact h.vis_le_heap a ha' cur hcur hv
      le_heap := fun b hb _ => by
        show (infoAt g' cur).local_cost_ ≤ (infoAt g' b).local_cost_
        rw [hloc, hloc]; exact hcurmin b hb
      disc_le := fun c hc => by
        show (infoAt g' c).local_cost_ ≤ (infoAt g' cur).local_cost_ + H
        rw [hloc, hloc]; exact h.disc_le_heap c ((hdisc c).mp hc) cur hcur hv
      cur_bound := by
        show (infoAt g' cur).local_cost_ + H ≤ H * (visitedCount g' : Int)
        rw [hloc, hcount]
        have := h.loc_bound cur hcd.2
        push_cast
        nlinarith
      relaxed_others := fun u hu hne => by
        show Relaxed occ wrapped H g' u
        rw [hrel]
        rcases (hvis u).mp hu with rfl | hu'
        · exact absurd rfl hne
        · exact h.relaxed u hu'
      relaxed_done := fun index hi => by simp at hi }

end Search

/-! ## The neighbour loop -/

section Search

variable (tie : List Nat → Nat) {occ : List Int} {start target : Nat} {wrapped : Bool} {H : Int}

theorem foldInv_snoc {cur : Nat} {done : List Int} {st : SearchState}
    (h : FoldInv occ start target wrapped H cur done st) (index : Int)
    (hi : index ∉ occ → (infoAt st.grid_ index.toNat).local_cost_ ≤
      (infoAt st.grid_ cur).local_cost_ + H) :
    FoldInv occ start target wrapped H cur (done ++ [index]) st :=
  { h with
    relaxed_done := fun i hmem hocc => by
      rcases List.mem_append.mp hmem with hm | hm
      · exact h.relaxed_done i hm hocc
      · rw [List.mem_singleton.mp hm]; exact hi (List.mem_singleton.mp hm ▸ hocc) }

/-- Pushing a cell that is already discovered and not visited. -/
theorem foldInv_push {cur : Nat} {done : List Int} {st : SearchState}
    (h : FoldInv occ start target wrapped H cur done st) {n : Nat} (hn : n < 432)
    (hd : Discovered st.grid_ start n) (hv : (infoAt st.grid_ n).visited_ = false) :
    FoldInv occ start target wrapped H cur done
      { grid_ := st.grid_, min_heap := heapPush tie st.grid_ st.min_heap n } := by
  have hn_heap : n ∈ st.min_heap := h.frontier n hd hv
  have hsub : ∀ x, x ∈ heapPush tie st.grid_ st.min_heap n → x ∈ st.min_heap := by
    intro x hx
    rcases mem_heapPush.mp hx with hx | rfl
    · exact hx
    · exact hn_heap
  exact
    { grid_ok := h.grid_ok
      heur := h.heur
      loc_start := h.loc_start
      par_start := h.par_start
      par_ok := h.par_ok
      heap_disc := fun c hc => h.heap_disc c (hsub c hc)
      vis_disc := h.vis_disc
      loc_nonneg := h.loc_nonneg
      undisc := h.undisc
      loc_bound := h.loc_bound
      glob := h.glob
      frontier := fun c hc hvc => mem_heapPush.mpr (Or.inl (h.frontier c hc hvc))
      top_min := fun t rest heq b hb => heapPush_top_min tie st.grid_ st.min_heap n t rest heq b hb
      cur_lt := h.cur_lt
      cur_vis := h.cur_vis
      vis_le := h.vis_le
      le_heap := fun b hb hvb => h.le_heap b (hsub b hb) hvb
      disc_le := h.disc_le
      cur_bound := h.cur_bound
      relaxed_others := h.relaxed_others
      relaxed_done := h.relaxed_done }

/-- Reaching an undiscovered, unoccupied neighbour `n` of `cur`: its parent and
costs are written and it is pushed. -/
theorem foldInv_discover {cur : Nat} {done : List Int} {st : SearchState}
    (h : FoldInv occ start target wrapped H cur done st) (hH : 0 < H) (hH40 : H ≤ 40)
    {n : Nat} (hn : n < 432) (hadj : Adj wrapped cur n) (hocc : (n : Int) ∉ occ)
    (hd : ¬ Discovered st.grid_ start n) :
    FoldInv occ start target wrapped H cur done
      { grid_ := setInfo st.grid_ n
          ({ infoAt st.grid_ n with
            parent_ := some cur,
            local_cost_ := (infoAt st.grid_ cur).local_cost_ + H,
            global_cost_ := (infoAt st.grid_ cur).local_cost_ + H + H }),
        min_heap := heapPush tie
          (setInfo st.grid_ n
            ({ infoAt st.grid_ n with
              parent_ := some cur,
              local_cost_ := (infoAt st.grid_ cur).local_cost_ + H,
              global_cost_ := (infoAt st.grid_ cur).local_cost_ + H + H }))
          st.min_heap n } ∧
      visitedCount (setInfo st.grid_ n
          ({ infoAt st.grid_ n with
            parent_ := some cur,
            local_cost_ := (infoAt st.grid_ cur).local_cost_ + H,
            global_cost_ := (infoAt st.grid_ cur).local_cost_ + H + H })) =
        visitedCount st.grid_ := by
  set L := (infoAt st.grid_ cur).local_cost_ with hL
  set v : GraphInfo := { infoAt st.grid_ n with
    parent_ := some cur, local_cost_ := L + H, global_cost_ := L + H + H } with hvdef
  set g' := setInfo st.grid_ n v with hg'
  have hlen : st.grid_.length = 432 := h.grid_ok.length
  have hnlt : n < st.grid_.length := by rw [hlen]; exact hn
  have hcd := h.vis_disc cur h.cur_vis
  have hncur : n ≠ cur := fun e => hd (e ▸ hcd.2)
  have hnstart : n ≠ start := fun e => hd (Or.inl e)
  have hnvis : (infoAt st.grid_ n).visited_ = false := by
    by_contra hcon
    exact hd (h.vis_disc n (by simpa using hcon)).2
  have hnloc : (infoAt st.grid_ n).local_cost_ = INT_MAX := h.undisc n hd
  have hcount0 : (visitedCount st.grid_ : Int) ≤ 432 := by
    have := visitedCount_le st.grid_
    rw [hlen] at this
    exact_mod_cast this
  have hLH : L + H ≤ INT_MAX := by
    have := h.cur_bound
    rw [← hL] at this
    have h2 : H * (visitedCount st.grid_ : Int) ≤ 40 * 432 := by nlinarith
    unfold INT_MAX
    omega
  have hL0 : 0 ≤ L := h.loc_nonneg cur
  have hinfo : ∀ c, infoAt g' c = if c = n then v else infoAt st.grid_ c := by
    intro c
    by_cases hc : c = n
    · subst hc; rw [if_pos rfl, hg', infoAt_setInfo_same _ hnlt]
    · rw [if_neg hc, hg', infoAt_setInfo_ne _ (Ne.symm hc)]
  have hinfo_ne : ∀ c, c ≠ n → infoAt g' c = infoAt st.grid_ c := by
    intro c hc; rw [hinfo, if_neg hc]
  have hinfo_n : infoAt g' n = v := by rw [hinfo, if_pos rfl]
  have hvis : ∀ c, (infoAt g' c).visited_ = (infoAt st.grid_ c).visited_ := by
    intro c; rw [hinfo]; split_ifs with hc
    · subst hc; rfl
    · rfl
  have hvis_ne : ∀ c, (infoAt st.grid_ c).visited_ = true → c ≠ n := by
    intro c hc e; rw [e, hnvis] at hc; exact absurd hc (by simp)
  have hloc_le : ∀ c, (infoAt g' c).local_cost_ ≤ (infoAt st.grid_ c).local_cost_ := by
    intro c; rw [hinfo]; split_ifs with hc
    · subst hc; rw [hnloc]; exact hLH
    · exact le_refl _
  have hdisc : ∀ c, Discovered g' start c ↔ (Discovered st.grid_ start c ∨ c = n) := by
    intro c
    unfold Discovered
    by_cases hc : c = n
    · subst hc; rw [hinfo_n]; simp [hvdef]
    · rw [hinfo_ne c hc]; simp [hc]
  have hcount : visitedCount g' = visitedCount st.grid_ :=
    visitedCount_congr (by rw [hg', length_setInfo]) hvis
  have hcur' : infoAt g' cur = infoAt st.grid_ cur := hinfo_ne cur (Ne.symm hncur)
  have hlocn : (infoAt g' n).local_cost_ = L + H := by rw [hinfo_n]
  refine ⟨?_, hcount⟩
  exact
    { grid_ok := gridOK_setInfo h.grid_ok _ _
      heur := by
        show heuristic g' start target wrapped = H
        rw [hg', heuristic_setInfo]; exact h.heur
      loc_start := by
        show (infoAt g' start).local_cost_ = 0
        rw [hinfo_ne start (Ne.symm hnstart)]; exact h.loc_start
      par_start := by
        show (infoAt g' start).parent_ = none
        rw [hinfo_ne start (Ne.symm hnstart)]; exact h.par_start
      par_ok := fun c p hcp => by
        change (infoAt g' c).parent_ = some p at hcp
        show c < 432 ∧ p < 432 ∧ (infoAt g' p).visited_ = true ∧ Adj wrapped p c ∧
          (c : Int) ∉ occ ∧ (infoAt g' p).local_cost_ + H ≤ (infoAt g' c).local_cost_
        by_cases hc : c = n
        · subst hc
          rw [hinfo_n] at hcp
          have hp : cur = p := by simpa [hvdef] using hcp
          subst hp
          rw [hvis, hcur', hlocn]
          exact ⟨hn, h.cur_lt, h.cur_vis, hadj, hocc, le_refl _⟩
        · rw [hinfo_ne c hc] at hcp
          obtain ⟨h1, h2, h3, h4, h5, h6⟩ := h.par_ok c p hcp
          rw [hvis, hinfo_ne c hc, hinfo_ne p (hvis_ne p h3)]
          exact ⟨h1, h2, h3, h4, h5, h6⟩
      heap_disc := fun c hc => by
        show c < 432 ∧ Discovered g' start c
        rcases mem_heapPush.mp hc with hc | rfl
        · exact ⟨(h.heap_disc c hc).1, (hdisc c).mpr (Or.inl (h.heap_disc c hc).2)⟩
        · exact ⟨hn, (hdisc _).mpr (Or.inr rfl)⟩
      vis_disc := fun c hc => by
        change (infoAt g' c).visited_ = true at hc
        rw [hvis] at hc
        exact ⟨(h.vis_disc c hc).1, (hdisc c).mpr (Or.inl (h.vis_disc c hc).2)⟩
      loc_nonneg := fun c => by
        show 0 ≤ (infoAt g' c).local_cost_
        by_cases hc : c = n
        · subst hc; rw [hlocn]; omega
        · rw [hinfo_ne c hc]; exact h.loc_nonneg c
      undisc := fun c hc => by
        show (infoAt g' c).local_cost_ = INT_MAX
        have h1 : ¬ Discovered st.grid_ start c := fun e => hc ((hdisc c).mpr (Or.inl e))
        have h2 : c ≠ n := fun e => hc ((hdisc c).mpr (Or.inr e))
        rw [hinfo_ne c h2]; exact h.undisc c h1
      loc_bound := fun c hc => by
        show (infoAt g' c).local_cost_ ≤ H * (visitedCount g' : Int)
        rw [hcount]
        by_cases hcn : c = n
        · subst hcn; rw [hlocn]; exact h.cur_bound
        · rw [hinfo_ne c hcn]
          rcases (hdisc c).mp hc with hc' | hc'
          · exact h.loc_bound c hc'
          · exact absurd hc' hcn
      glob := fun c hc => by
        show (infoAt g' c).global_cost_ = (infoAt g' c).local_cost_ + H
        by_cases hcn : c = n
        · subst hcn; rw [hinfo_n]
        · rw [hinfo_ne c hcn]
          rcases (hdisc c).mp hc with hc' | hc'
          · exact h.glob c hc'
          · exact absurd hc' hcn
      frontier := fun c hc hvc => by
        change (infoAt g' c).visited_ = false at hvc
        show c ∈ heapPush tie g' st.min_heap n
        rw [hvis] at hvc
        rcases (hdisc c).mp hc with hc' | hc'
        · exact mem_heapPush.mpr (Or.inl (h.frontier c hc' hvc))
        · exact mem_heapPush.mpr (Or.inr hc')
      top_min := fun t rest heq b hb => heapPush_top_min tie g' st.min_heap n t rest heq b hb
      cur_lt := h.cur_lt
      cur_vis := by show (infoAt g' cur).visited_ = true; rw [hvis]; exact h.cur_vis
      vis_le := fun a ha => by
        change (infoAt g' a).visited_ = true at ha
        show (infoAt g' a).local_cost_ ≤ (infoAt g' cur).local_cost_
        rw [hvis] at ha
        rw [hcur', hinfo_ne a (hvis_ne a ha)]
        exact h.vis_le a ha
      le_heap := fun b hb hvb => by
        change (infoAt g' b).visited_ = false at hvb
        show (infoAt g' cur).local_cost_ ≤ (infoAt g' b).local_cost_
        rw [hvis] at hvb
        rw [hcur']
        by_cases hbn : b = n
        · subst hbn; rw [hlocn]; omega
        · rw [hinfo_ne b hbn]
          rcases mem_heapPush.mp hb with hb | hb
          · exact h.le_heap b hb hvb
          · exact absurd hb hbn
      disc_le := fun c hc => by
        show (infoAt g' c).local_cost_ ≤ (infoAt g' cur).local_cost_ + H
        rw [hcur']
        by_cases hcn : c = n
        · subst hcn; rw [hlocn]
        · rw [hinfo_ne c hcn]
          rcases (hdisc c).mp hc with hc' | hc'
          · exact h.disc_le c hc'
          · exact absurd hc' hcn
      cur_bound := by
        show (infoAt g' cur).local_cost_ + H ≤ H * (visitedCount g' : Int)
        rw [hcur', hcount]; exact h.cur_bound
      relaxed_others := fun u hu hne => by
        change (infoAt g' u).visited_ = true at hu
        rw [hvis] at hu
        intro index hi hio
        show (infoAt g' index.toNat).local_cost_ ≤ (infoAt g' u).local_cost_ + H
        rw [hinfo_ne u (hvis_ne u hu)]
        exact le_trans (hloc_le _) (h.relaxed_others u hu hne index hi hio)
      relaxed_done := fun index hi hio => by
        show (infoAt g' index.toNat).local_cost_ ≤ (infoAt g' cur).local_cost_ + H
        rw [hcur']
        exact le_trans (hloc_le _) (h.relaxed_done index hi hio) }

end Search

section Search

variable (tie : List Nat → Nat) {occ : List Int} {start target : Nat} {wrapped : Bool} {H : Int}

theorem relaxNeighbour_spec {cur : Nat} {done : List Int} {st : SearchState}
    (h : FoldInv occ start target wrapped H cur done st) (hH : 0 < H) (hH40 : H ≤ 40)
    {index : Int} (hi : index ∈ GetNeighboursIndices (cellBox cur) wrapped) :
    ∃ st', relaxNeighbour tie occ start target wrapped cur st index = some st' ∧
      FoldInv occ start target wrapped H cur (done ++ [index]) st' ∧
      visitedCount st'.grid_ = visitedCount st.grid_ := by
  obtain ⟨hr0, hr1⟩ := neighbours_range h.cur_lt wrapped hi
  have hlen : st.grid_.length = 432 := h.grid_ok.length
  have hn : index.toNat < 432 := by omega
  have hcast : ((index.toNat : Nat) : Int) = index := Int.toNat_of_nonneg hr0
  have hadj : Adj wrapped cur index.toNat := by
    unfold Adj; rw [hcast]; exact hi
  have hcond : 0 ≤ index ∧ index.toNat < st.grid_.length := ⟨hr0, by rw [hlen]; exact hn⟩
  have hcount0 : (visitedCount st.grid_ : Int) ≤ 432 := by
    have := visitedCount_le st.grid_
    rw [hlen] at this
    exact_mod_cast this
  have hLH : (infoAt st.grid_ cur).local_cost_ + H < INT_MAX := by
    have := h.cur_bound
    have h2 : H * (visitedCount st.grid_ : Int) ≤ 40 * 432 := by nlinarith
    unfold INT_MAX
    omega
  unfold relaxNeighbour
  rw [if_pos hcond]
  by_cases hocc : index ∈ occ
  · simp only [hocc, decide_True, if_true]
    exact ⟨st, rfl, foldInv_snoc h index (fun hno => absurd hocc hno), rfl⟩
  · simp only [hocc, decide_False, Bool.false_eq_true, if_false, h.heur, and_true]
    by_cases hlt : (infoAt st.grid_ cur).local_cost_ + H <
        (infoAt st.grid_ index.toNat).local_cost_
    · have hd : ¬ Discovered st.grid_ start index.toNat := by
        intro hd
        have := h.disc_le _ hd
        omega
      have hnvis : (infoAt st.grid_ index.toNat).visited_ = false := by
        by_contra hcon
        exact hd (h.vis_disc _ (by simpa using hcon)).2
      obtain ⟨hA, hcnt⟩ := foldInv_discover tie h hH hH40 hn hadj (by rw [hcast]; exact hocc) hd
      rw [if_pos hlt]
      have hvis' : (infoAt (setInfo st.grid_ index.toNat
          ({ infoAt st.grid_ index.toNat with
            parent_ := some cur,
            local_cost_ := (infoAt st.grid_ cur).local_cost_ + H,
            global_cost_ := (infoAt st.grid_ cur).local_cost_ + H + H })) index.toNat).visited_
            = false := by
        rw [infoAt_setInfo_same _ (by rw [hlen]; exact hn)]
        exact hnvis
      rw [if_pos hvis']
      refine ⟨_, rfl, foldInv_snoc hA index (fun _ => ?_), hcnt⟩
      show (infoAt (setInfo _ _ _) index.toNat).local_cost_ ≤ (infoAt (setInfo _ _ _) cur).local_cost_ + H
      rw [infoAt_setInfo_same _ (by rw [hlen]; exact hn)]
      have hne : index.toNat ≠ cur := fun e => hd (e ▸ (h.vis_disc cur h.cur_vis).2)
      rw [infoAt_setInfo_ne _ hne]
    · rw [if_neg hlt]
      have hle : (infoAt st.grid_ index.toNat).local_cost_ ≤
          (infoAt st.grid_ cur).local_cost_ + H := by omega
      have hd : Discovered st.grid_ start index.toNat := by
        by_contra hd
        have := h.undisc _ hd
        omega
      by_cases hv : (infoAt st.grid_ index.toNat).visited_ = false
      · rw [if_pos hv]
        exact ⟨_, rfl, foldInv_snoc (foldInv_push tie h hn hd hv) index (fun _ => hle), rfl⟩
      · rw [if_neg hv]
        exact ⟨_, rfl, foldInv_snoc h index (fun _ => hle), rfl⟩

theorem foldlM_relax_spec {cur : Nat} (hH : 0 < H) (hH40 : H ≤ 40) (l : List Int)
    (hl : ∀ index ∈ l, index ∈ GetNeighboursIndices (cellBox cur) wrapped)
    (done : List Int) (st : SearchState)
    (h : FoldInv occ start target wrapped H cur done st) :
    ∃ st', l.foldlM (relaxNeighbour tie occ start target wrapped cur) st = some st' ∧
      FoldInv occ start target wrapped H cur (done ++ l) st' ∧
      visitedCount st'.grid_ = visitedCount st.grid_ := by
  induction l generalizing done st with
  | nil => exact ⟨st, rfl, by simpa using h, rfl⟩
  | cons x xs ih =>
    obtain ⟨st1, h1, h2, h3⟩ := relaxNeighbour_spec tie h hH hH40 (hl x (List.mem_cons_self _ _))
    obtain ⟨st2, h4, h5, h6⟩ := ih (fun i hi => hl i (List.mem_cons_of_mem _ hi)) _ st1 h2
    refine ⟨st2, ?_, ?_, by rw [h6, h3]⟩
    · rw [List.foldlM_cons, h1]; exact h4
    · simpa using h5

theorem headInv_of_foldInv {cur : Nat} {st : SearchState}
    (h : FoldInv occ start target wrapped H cur (GetNeighboursIndices (cellBox cur) wrapped) st) :
    HeadInv occ start target wrapped H st :=
  { h.toCoreInv with
    relaxed := fun u hu => by
      by_cases hu' : u = cur
      · subst hu'
        intro index hi hio
        exact h.relaxed_done index hi hio
      · exact h.relaxed_others u hu hu'
    vis_le_heap := fun a ha b hb hvb => le_trans (h.vis_le a ha) (h.le_heap b hb hvb)
    disc_le_heap := fun c hc b hb hvb => by
      have h1 := h.disc_le c hc
      have h2 := h.le_heap b hb hvb
      omega }

/-! ## One round of the main loop and the whole loop -/

theorem expandTop_spec {st : SearchState} (h : HeadInv occ start target wrapped H st)
    (hH : 0 < H) (hH40 : H ≤ 40) :
    ∃ st', expandTop tie occ start target wrapped st = some st' ∧
      HeadInv occ start target wrapped H st' ∧
      (st'.min_heap = [] ∨ visitedCount st'.grid_ = visitedCount st.grid_ + 1) := by
  obtain ⟨h1, hg, htop⟩ := popVisited_spec tie st.min_heap.length st h (le_refl _)
  unfold expandTop
  rcases htop with hnil | ⟨t, rest, hcons, hv⟩
  · simp only [hnil]
    exact ⟨_, rfl, h1, Or.inl hnil⟩
  · simp only [hcons]
    rw [← hg] at hv
    obtain ⟨hF, hcnt⟩ := foldInv_mark h1 (le_of_lt hH) hcons hv
    rw [boxAt_setInfo, h1.grid_ok.boxAt (h1.heap_disc t (by rw [hcons]; exact List.mem_cons_self _ _)).1]
    obtain ⟨st', hs1, hs2, hs3⟩ := foldlM_relax_spec tie hH hH40
      (GetNeighboursIndices (cellBox t) wrapped) (fun _ hi => hi) [] _ hF
    rw [← hcons]
    refine ⟨st', hs1, headInv_of_foldInv (by simpa using hs2), Or.inr ?_⟩
    rw [hs3]
    show visitedCount (setInfo _ _ _) = _
    rw [hcnt, hg]

theorem searchLoop_spec (hH : 0 < H) (hH40 : H ≤ 40) (fuel : Nat) (st : SearchState)
    (h : HeadInv occ start target wrapped H st)
    (hf : 432 - visitedCount st.grid_ < fuel) :
    ∃ st', searchLoop tie occ start target wrapped fuel st = some st' ∧
      HeadInv occ start target wrapped H st' ∧ loopCond target st' = false := by
  induction fuel generalizing st with
  | zero => omega
  | succ fuel ih =>
    unfold searchLoop
    by_cases hc : loopCond target st = true
    · rw [if_pos hc]
      obtain ⟨st1, h1, h2, h3⟩ := expandTop_spec tie h hH hH40
      rw [h1]
      show ∃ st', searchLoop tie occ start target wrapped fuel st1 = some st' ∧ _
      rcases h3 with hnil | hcnt
      · have hc1 : loopCond target st1 = false := by unfold loopCond; rw [hnil]
        refine ⟨st1, ?_, h2, hc1⟩
        cases fuel with
        | zero => unfold searchLoop; simp [hc1]
        | succ f => unfold searchLoop; simp [hc1]
      · apply ih st1 h2
        have := visitedCount_le st1.grid_
        rw [h2.grid_ok.length] at this
        omega
    · rw [if_neg hc]
      exact ⟨st, rfl, h, by simpa using hc⟩

end Search

/-! ## Routes and parent chains -/

theorem isRoute_append {wrapped : Bool} {occ : List Int} {a b c : Nat} {r s : List Nat}
    (h1 : IsRoute wrapped occ a r b) (h2 : IsRoute wrapped occ b s c) :
    IsRoute wrapped occ a (r ++ s) c := by
  induction r generalizing a with
  | nil =>
    simp only [IsRoute] at h1
    subst h1
    simpa using h2
  | cons x xs ih =>
    simp only [IsRoute, List.cons_append] at h1 ⊢
    exact ⟨h1.1, h1.2.1, ih h1.2.2⟩

theorem isRoute_lt {wrapped : Bool} {occ : List Int} {a b : Nat} {r : List Nat}
    (ha : a < 432) (h : IsRoute wrapped occ a r b) : b < 432 ∧ ∀ c ∈ r, c < 432 := by
  induction r generalizing a with
  | nil =>
    simp only [IsRoute] at h
    subst h
    exact ⟨ha, by simp⟩
  | cons x xs ih =>
    simp only [IsRoute] at h
    have hx := adj_lt ha h.1
    obtain ⟨h1, h2⟩ := ih hx h.2.2
    refine ⟨h1, ?_⟩
    intro c hc
    rcases List.mem_cons.mp hc with rfl | hc
    · exact hx
    · exact h2 c hc

section Search

variable {occ : List Int} {start target : Nat} {wrapped : Bool} {H : Int}

theorem parChain_length_le {st : SearchState} (h : CoreInv occ start target wrapped H st)
    {cell : Nat} {chain : List Nat} (hc : ParChain st.grid_ start cell chain) :
    H * (chain.length : Int) ≤ (infoAt st.grid_ cell).local_cost_ := by
  induction hc with
  | nil => rw [h.loc_start]; simp
  | cons cell p rest _ hp _ ih =>
    have := (h.par_ok cell p hp).2.2.2.2.2
    simp only [List.length_cons]
    push_cast
    linarith

theorem parChain_route {st : SearchState} (h : CoreInv occ start target wrapped H st)
    {cell : Nat} {chain : List Nat} (hc : ParChain st.grid_ start cell chain) :
    IsRoute wrapped occ start chain.reverse cell := by
  induction hc with
  | nil => simp [IsRoute]
  | cons cell p rest _ hp _ ih =>
    obtain ⟨_, _, _, h4, h5, _⟩ := h.par_ok cell p hp
    rw [List.reverse_cons]
    exact isRoute_append ih ⟨h4, h5, rfl⟩

theorem parChain_mem {st : SearchState} (h : CoreInv occ start target wrapped H st)
    {cell : Nat} {chain : List Nat} (hc : ParChain st.grid_ start cell chain) :
    ∀ c ∈ chain, c < 432 ∧ (c : Int) ∉ occ ∧ c ≠ start := by
  induction hc with
  | nil => simp
  | cons cell p rest hne hp _ ih =>
    obtain ⟨h1, _, _, _, h5, _⟩ := h.par_ok cell p hp
    intro c hc
    rcases List.mem_cons.mp hc with rfl | hc
    · exact ⟨h1, h5, hne⟩
    · exact ih c hc

theorem parChain_head {grid : List GridCell} {cell : Nat} {chain : List Nat}
    (hc : ParChain grid start cell chain) (hne : cell ≠ start) :
    chain.head? = some cell := by
  cases hc with
  | nil => exact absurd rfl hne
  | cons _ p rest _ _ _ => rfl

theorem parChain_nil_iff {grid : List GridCell} {cell : Nat} {chain : List Nat}
    (hc : ParChain grid start cell chain) : chain = [] ↔ cell = start := by
  cases hc with
  | nil => simp
  | cons _ p rest hne _ _ => simp [hne]

theorem parChain_chain {st : SearchState} (h : CoreInv occ start target wrapped H st)
    {cell : Nat} {chain : List Nat} (hc : ParChain st.grid_ start cell chain) :
    List.Chain' (fun a b => Adj wrapped b a ∧ Adj wrapped a b) chain := by
  induction hc with
  | nil => exact List.chain'_nil
  | cons cell p rest _ hp hrest ih =>
    obtain ⟨_, h2, _, h4, _, _⟩ := h.par_ok cell p hp
    cases hrest with
    | nil => exact List.chain'_singleton _
    | cons _ q rest' hne' hq hr' =>
      exact List.Chain'.cons ⟨h4, adj_symm h2 h4⟩ ih

theorem parChain_last {st : SearchState} (h : CoreInv occ start target wrapped H st)
    (hs : start < 432)
    {cell : Nat} {chain : List Nat} (hc : ParChain st.grid_ start cell chain) :
    ∀ l, chain.getLast? = some l → Adj wrapped start l ∧ Adj wrapped l start := by
  induction hc with
  | nil => simp
  | cons cell p rest _ hp hrest ih =>
    obtain ⟨_, h2, _, h4, _, _⟩ := h.par_ok cell p hp
    intro l hl
    cases hrest with
    | nil =>
      simp only [List.getLast?_singleton, Option.some.injEq] at hl
      subst hl
      exact ⟨h4, adj_symm hs h4⟩
    | cons _ q rest' hne' hq hr' =>
      rw [List.getLast?_cons_cons] at hl
      exact ih l hl

/-! ## The reconstruction loop -/

theorem walkParents_disc {st : SearchState} (h : CoreInv occ start target wrapped H st)
    (hH : 0 < H) (f : Nat) (cell : Nat) (path : List Nat)
    (hd : Discovered st.grid_ start cell)
    (hb : (infoAt st.grid_ cell).local_cost_ ≤ H * (f : Int)) :
    ∃ chain, ParChain st.grid_ start cell chain ∧
      walkParents st.grid_ start (f + 1) cell path = some (true, path ++ chain) := by
  induction f generalizing cell path with
  | zero =>
    by_cases hc : cell = start
    · subst hc
      exact ⟨[], ParChain.nil, by simp [walkParents]⟩
    · exfalso
      rcases hd with hd | hd
      · exact hc hd
      · obtain ⟨p, hp⟩ := Option.ne_none_iff_exists'.mp hd
        have h1 := (h.par_ok cell p hp).2.2.2.2.2
        have h2 := h.loc_nonneg p
        simp only [Nat.cast_zero, mul_zero] at hb
        omega
  | succ f ih =>
    by_cases hc : cell = start
    · subst hc
      exact ⟨[], ParChain.nil, by simp [walkParents]⟩
    · rcases hd with hd | hd
      · exact absurd hd hc
      · obtain ⟨p, hp⟩ := Option.ne_none_iff_exists'.mp hd
        obtain ⟨_, _, h3, _, _, h6⟩ := h.par_ok cell p hp
        have hpd := (h.vis_disc p h3).2
        have hpb : (infoAt st.grid_ p).local_cost_ ≤ H * (f : Int) := by
          push_cast at hb
          linarith
        obtain ⟨chain, hch, hw⟩ := ih p (path ++ [cell]) hpd hpb
        refine ⟨cell :: chain, ParChain.cons cell p chain hc hp hch, ?_⟩
        rw [walkParents]
        simp only [hc, if_false, hp]
        rw [hw]
        simp

theorem walkParents_undisc {grid : List GridCell} (f : Nat) (cell : Nat) (path : List Nat)
    (hd : ¬ Discovered grid start cell) :
    walkParents grid start (f + 1) cell path = some (false, []) := by
  have hc : cell ≠ start := fun e => hd (Or.inl e)
  have hp : (infoAt grid cell).parent_ = none := by
    by_contra hcon
    exact hd (Or.inr hcon)
  rw [walkParents]
  simp [hc, hp]

/-! ## What the loop has reached when it ends -/

theorem reach_along_route {st : SearchState} (h : HeadInv occ start target wrapped H st)
    (hH : 0 < H) (hH40 : H ≤ 40) (r : List Nat) (a : Nat) (K : Int)
    (hr : IsRoute wrapped occ a r target)
    (ha : ((infoAt st.grid_ a).visited_ = true ∧ (infoAt st.grid_ a).local_cost_ ≤ K) ∨
      ∃ b, Discovered st.grid_ start b ∧ (infoAt st.grid_ b).visited_ = false ∧
        (infoAt st.grid_ b).local_cost_ ≤ K) :
    ((infoAt st.grid_ target).visited_ = true ∧
        (infoAt st.grid_ target).local_cost_ ≤ K + H * (r.length : Int)) ∨
      ∃ b, Discovered st.grid_ start b ∧ (infoAt st.grid_ b).visited_ = false ∧
        (infoAt st.grid_ b).local_cost_ ≤ K + H * (r.length : Int) := by
  induction r generalizing a K with
  | nil =>
    simp only [IsRoute] at hr
    subst hr
    simpa using ha
  | cons c rest ih =>
    simp only [IsRoute] at hr
    obtain ⟨hadj, hocc, hrest⟩ := hr
    have hgoal : ∀ X : Int, K + H + H * (rest.length : Int) = K + H * ((c :: rest).length : Int) := by
      intro _; simp only [List.length_cons]; push_cast; ring
    rw [← hgoal 0]
    apply ih c (K + H) hrest
    rcases ha with ⟨hv, hk⟩ | ⟨b, hb1, hb2, hb3⟩
    · have hrel := h.relaxed a hv (c : Int) hadj hocc
      rw [Int.toNat_ofNat] at hrel
      have hcount0 : (visitedCount st.grid_ : Int) ≤ 432 := by
        have := visitedCount_le st.grid_
        rw [h.grid_ok.length] at this
        exact_mod_cast this
      have hab := h.loc_bound a (h.vis_disc a hv).2
      have hcd : Discovered st.grid_ start c := by
        by_contra hcd
        have := h.undisc c hcd
        have h2 : H * (visitedCount st.grid_ : Int) ≤ 40 * 432 := by nlinarith
        unfold INT_MAX at this
        omega
      by_cases hcv : (infoAt st.grid_ c).visited_ = true
      · left; exact ⟨hcv, by omega⟩
      · right; exact ⟨c, hcd, by simpa using hcv, by omega⟩
    · right; exact ⟨b, hb1, hb2, by omega⟩

theorem target_reached {st : SearchState} (h : HeadInv occ start target wrapped H st)
    (hH : 0 < H) (hH40 : H ≤ 40) (hexit : loopCond target st = false) (r : List Nat)
    (hr : IsRoute wrapped occ start r target) :
    Discovered st.grid_ start target ∧
      (infoAt st.grid_ target).local_cost_ ≤ H * (r.length : Int) := by
  have hstart : ((infoAt st.grid_ start).visited_ = true ∧
      (infoAt st.grid_ start).local_cost_ ≤ 0) ∨
      ∃ b, Discovered st.grid_ start b ∧ (infoAt st.grid_ b).visited_ = false ∧
        (infoAt st.grid_ b).local_cost_ ≤ 0 := by
    by_cases hv : (infoAt st.grid_ start).visited_ = true
    · left; exact ⟨hv, le_of_eq h.loc_start⟩
    · right; exact ⟨start, Or.inl rfl, by simpa using hv, le_of_eq h.loc_start⟩
  have := reach_along_route h hH hH40 r start 0 hr hstart
  rw [zero_add] at this
  rcases this with ⟨hv, hk⟩ | ⟨b, hb1, hb2, hb3⟩
  · exact ⟨(h.vis_disc target hv).2, hk⟩
  · have hbh := h.frontier b hb1 hb2
    unfold loopCond at hexit
    cases hh : st.min_heap with
    | nil => rw [hh] at hbh; simp at hbh
    | cons t rest =>
      rw [hh] at hexit
      simp only [ne_eq, decide_not, Bool.not_eq_eq_eq_not, Bool.not_false,
        decide_eq_true_eq] at hexit
      subst hexit
      have ht : t ∈ st.min_heap := by rw [hh]; exact List.mem_cons_self _ _
      have htd := (h.heap_disc t ht).2
      have hmin := h.top_min t rest hh b hbh
      unfold globalCost at hmin
      rw [h.glob t htd, h.glob b hb1] at hmin
      exact ⟨htd, by omega⟩

end Search

/-! ## `Game::FindAStarPath` as a whole -/

theorem boxAt_resetGrid (grid : List GridCell) (c : Nat) :
    boxAt (resetGrid grid) c = boxAt grid c := by
  unfold boxAt resetGrid
  rw [List.getD_eq_getElem?_getD, List.getD_eq_getElem?_getD, List.getElem?_map]
  cases grid[c]? <;> rfl

theorem boxAt_searchInit (tie : List Nat → Nat) (grid : List GridCell) (start target : Nat)
    (wrapped : Bool) (c : Nat) :
    boxAt (searchInit tie grid start target wrapped).grid_ c = boxAt grid c := by
  simp only [searchInit]
  rw [boxAt_setInfo, boxAt_resetGrid]

theorem snakeGridIndices_searchInit (tie : List Nat → Nat) (grid : List GridCell)
    (start target : Nat) (wrapped : Bool) (segs : List Nat) :
    SnakeGridIndices (searchInit tie grid start target wrapped).grid_ segs =
      SnakeGridIndices grid segs := by
  unfold SnakeGridIndices
  simp only [boxAt_searchInit]

theorem heapPush_nil (tie : List Nat → Nat) (grid : List GridCell) (x : Nat) :
    heapPush tie grid [] x = [x] := by
  unfold heapPush
  have := heapArrange_perm tie grid ([] ++ [x])
  simpa using this

theorem length_searchInit (tie : List Nat → Nat) (grid : List GridCell) (start target : Nat)
    (wrapped : Bool) : (searchInit tie grid start target wrapped).grid_.length = grid.length := by
  simp [searchInit, length_setInfo, resetGrid]

/-- With `start_cell == target_cell` the main loop is not entered and the walk
ends at once: the result is `true` with an empty path. -/
theorem findAStarPath_same (tie : List Nat → Nat) (g : Game) (start : Nat) (wrapped : Bool) :
    g.FindAStarPath tie start start wrapped =
      some (true, { g with
        grid_ := (searchInit tie g.grid_ start start wrapped).grid_,
        shortest_path_cells_ := [] }) := by
  have hheap : (searchInit tie g.grid_ start start wrapped).min_heap = [start] := by
    simp only [searchInit]
    exact heapPush_nil tie _ _
  have hcond : loopCond start (searchInit tie g.grid_ start start wrapped) = false := by
    unfold loopCond; rw [hheap]; simp
  unfold Game.FindAStarPath
  simp only
  rw [searchLoop]
  simp [hcond, walkParents]

theorem findAStarPath_spec (tie : List Nat → Nat) (g : Game) (hg : GridOK g.grid_)
    {start target : Nat} (hs : start < 432) (ht : target < 432) (hne : start ≠ target)
    (wrapped : Bool) :
    ∃ st, HeadInv (SnakeGridIndices g.grid_ g.snake_.snake_segments_) start target wrapped
        (cellHeuristic start target wrapped) st ∧
      loopCond target st = false ∧
      ((Discovered st.grid_ start target ∧ ∃ chain, ParChain st.grid_ start target chain ∧
          g.FindAStarPath tie start target wrapped =
            some (true, { g with grid_ := st.grid_, shortest_path_cells_ := chain })) ∨
        (¬ Discovered st.grid_ start target ∧
          g.FindAStarPath tie start target wrapped =
            some (false, { g with grid_ := st.grid_, shortest_path_cells_ := [] }))) := by
  have hH := cellHeuristic_pos hs ht hne wrapped
  have hH40 := cellHeuristic_le hs ht wrapped
  have h0 := headInv_searchInit tie (SnakeGridIndices g.grid_ g.snake_.snake_segments_) hg hs ht
    wrapped (le_of_lt hH)
  have hlen := hg.length
  obtain ⟨st, hst, hinv, hexit⟩ := searchLoop_spec tie hH hH40 (g.grid_.length + 1) _ h0
    (by rw [hlen]; omega)
  refine ⟨st, hinv, hexit, ?_⟩
  unfold Game.FindAStarPath
  simp only [snakeGridIndices_searchInit]
  rw [hst]
  simp only
  by_cases hd : Discovered st.grid_ start target
  · left
    have hb : (infoAt st.grid_ target).local_cost_ ≤
        cellHeuristic start target wrapped * ((g.grid_.length : Nat) : Int) := by
      have h1 := hinv.loc_bound target hd
      have h2 : (visitedCount st.grid_ : Int) ≤ (g.grid_.length : Int) := by
        have := visitedCount_le st.grid_
        rw [hinv.grid_ok.length] at this
        rw [hlen]
        exact_mod_cast this
      nlinarith
    obtain ⟨chain, hch, hw⟩ := walkParents_disc hinv.toCoreInv hH g.grid_.length target [] hd hb
    refine ⟨hd, chain, hch, ?_⟩
    rw [hw]
    simp
  · right
    refine ⟨hd, ?_⟩
    rw [walkParents_undisc _ _ _ hd]

/-! ## Claims on `Game::FindAStarPath` -/

theorem searchResult_same (tie : List Nat → Nat) (g : Game) (start : Nat) (wrapped : Bool) :
    g.searchResult tie start start wrapped = some (true, []) := by
  unfold Game.searchResult
  rw [findAStarPath_same]
  rfl

theorem searchResult_spec (tie : List Nat → Nat) (g : Game) (hg : GridOK g.grid_)
    {start target : Nat} (hs : start < 432) (ht : target < 432) (hne : start ≠ target)
    (wrapped : Bool) :
    ∃ st, HeadInv (SnakeGridIndices g.grid_ g.snake_.snake_segments_) start target wrapped
        (cellHeuristic start target wrapped) st ∧
      loopCond target st = false ∧
      ((Discovered st.grid_ start target ∧ ∃ chain, ParChain st.grid_ start target chain ∧
          g.searchResult tie start target wrapped = some (true, chain)) ∨
        (¬ Discovered st.grid_ start target ∧
          g.searchResult tie start target wrapped = some (false, []))) := by
  obtain ⟨st, h1, h2, h3⟩ := findAStarPath_spec tie g hg hs ht hne wrapped
  refine ⟨st, h1, h2, ?_⟩
  unfold Game.searchResult
  rcases h3 with ⟨hd, chain, hc, he⟩ | ⟨hd, he⟩
  · left; exact ⟨hd, chain, hc, by rw [he]; rfl⟩
  · right; exact ⟨hd, by rw [he]; rfl⟩

theorem not_mem_segments_of_index {grid : List GridCell} {segs : List Nat} {c : Nat}
    (h : ConvertCellToGridIndex (boxAt grid c) ∉ SnakeGridIndices grid segs) : c ∉ segs := by
  intro hc
  apply h
  unfold SnakeGridIndices
  exact List.mem_map.mpr ⟨c, hc, rfl⟩

theorem validPath_nil (wrapped : Bool) (grid : List GridCell) (segs : List Nat) (start : Nat) :
    ValidPath wrapped grid segs start start [] := by
  unfold ValidPath
  simp

/-- C1: whenever `Game::FindAStarPath` returns true on a grid with the
constructor's boxes, the cached path is a valid free route from target back to
start: no cell of it has its index among the snake's indices, its first cell is
the target (when start and target differ), consecutive cells are neighbours under
the requested topology, the start is not on it and its last cell is a neighbour of
the start. This holds for every start, target, segment list, flag `wrapped` and
every tie-break of the priority queue. -/
theorem C1_found_path_is_valid_free_route (tie : List Nat → Nat) (g : Game)
    (start_cell target_cell : Nat) (wrapped : Bool) (path : List Nat)
    (hg : GridOK g.grid_) (hs : start_cell < 432) (ht : target_cell < 432)
    (hfound : g.searchResult tie start_cell target_cell wrapped = some (true, path)) :
    ValidPath wrapped g.grid_ g.snake_.snake_segments_ start_cell target_cell path := by
  by_cases hne : start_cell = target_cell
  · subst hne
    rw [searchResult_same] at hfound
    simp only [Option.some.injEq, Prod.mk.injEq, true_and] at hfound
    subst hfound
    exact validPath_nil _ _ _ _
  · obtain ⟨st, hinv, _, h3⟩ := searchResult_spec tie g hg hs ht hne wrapped
    rcases h3 with ⟨_, chain, hc, he⟩ | ⟨_, he⟩
    · rw [he] at hfound
      simp only [Option.some.injEq, Prod.mk.injEq, true_and] at hfound
      subst hfound
      have hmem := parChain_mem hinv.toCoreInv hc
      have hidx : ∀ c ∈ chain,
          ConvertCellToGridIndex (boxAt g.grid_ c) ∉
            SnakeGridIndices g.grid_ g.snake_.snake_segments_ := by
        intro c hcm
        rw [hg.boxAt (hmem c hcm).1, (convert_cellBox c (hmem c hcm).1).1]
        exact (hmem c hcm).2.1
      refine ⟨fun c hcm => ⟨by rw [hg.length]; exact (hmem c hcm).1, hidx c hcm,
          not_mem_segments_of_index (hidx c hcm)⟩,
        fun _ => parChain_head hc (Ne.symm hne), ?_, fun hcon => (hmem _ hcon).2.2 rfl, ?_⟩
      · exact List.Chain'.imp (fun _ _ h => ⟨h.2, h.1⟩) (parChain_chain hinv.toCoreInv hc)
      · intro l hl
        have := parChain_last hinv.toCoreInv hs hc l hl
        exact ⟨this.2, this.1⟩
    · rw [he] at hfound
      simp at hfound

/-- When a free route exists the search returns true with a cached path that is
itself such a route, read backwards, and has the least number of cells. -/
theorem shortest_route_found (tie : List Nat → Nat) (g : Game)
    (start_cell target_cell : Nat) (wrapped : Bool) (route : List Nat)
    (hg : GridOK g.grid_) (hs : start_cell < 432) (ht : target_cell < 432)
    (hroute : IsRoute wrapped (SnakeGridIndices g.grid_ g.snake_.snake_segments_)
      start_cell route target_cell) :
    ∃ path, g.searchResult tie start_cell target_cell wrapped = some (true, path) ∧
      IsRoute wrapped (SnakeGridIndices g.grid_ g.snake_.snake_segments_)
        start_cell path.reverse target_cell ∧
      ∀ other, IsRoute wrapped (SnakeGridIndices g.grid_ g.snake_.snake_segments_)
        start_cell other target_cell → path.length ≤ other.length := by
  by_cases hne : start_cell = target_cell
  · subst hne
    exact ⟨[], searchResult_same _ _ _ _, by simp [IsRoute], fun _ _ => Nat.zero_le _⟩
  · have hH := cellHeuristic_pos hs ht hne wrapped
    have hH40 := cellHeuristic_le hs ht wrapped
    obtain ⟨st, hinv, hexit, h3⟩ := searchResult_spec tie g hg hs ht hne wrapped
    have hreach := target_reached hinv hH hH40 hexit route hroute
    rcases h3 with ⟨_, chain, hc, he⟩ | ⟨hd, _⟩
    · refine ⟨chain, he, parChain_route hinv.toCoreInv hc, ?_⟩
      intro other ho
      have h1 := (target_reached hinv hH hH40 hexit other ho).2
      have h2 := parChain_length_le hinv.toCoreInv hc
      have h3 : cellHeuristic start_cell target_cell wrapped * (chain.length : Int) ≤
          cellHeuristic start_cell target_cell wrapped * (other.length : Int) := le_trans h2 h1
      have h4 := le_of_mul_le_mul_left h3 hH
      exact_mod_cast h4
    · exact absurd hreach.1 hd

/-- C2: `Game::FindAStarPath` is a shortest-path search. If some route leads from
start to target whose cells after the start are unoccupied and whose consecutive
cells are neighbours under the requested topology, the call returns true, the
cached path read backwards is such a route, and no such route has fewer steps than
the cached path has cells. -/
theorem C2_search_finds_shortest_route (tie : List Nat → Nat) (g : Game)
    (start_cell target_cell : Nat) (wrapped : Bool) (route : List Nat)
    (hg : GridOK g.grid_) (hs : start_cell < 432) (ht : target_cell < 432)
    (hroute : IsRoute wrapped (SnakeGridIndices g.grid_ g.snake_.snake_segments_)
      start_cell route target_cell) :
    ∃ path, g.searchResult tie start_cell target_cell wrapped = some (true, path) ∧
      IsRoute wrapped (SnakeGridIndices g.grid_ g.snake_.snake_segments_)
        start_cell path.reverse target_cell ∧
      ∀ other, IsRoute wrapped (SnakeGridIndices g.grid_ g.snake_.snake_segments_)
        start_cell other target_cell → path.length ≤ other.length := by
  obtain ⟨path, hres, hpath, hmin⟩ :=
    shortest_route_found tie g start_cell target_cell wrapped route hg hs ht hroute
  exact ⟨path, hres, hpath, fun other ho => hmin other ho⟩

/-- C4: for start and target that differ, if no route of unoccupied neighbouring
cells leads from start to target under the requested topology,
`Game::FindAStarPath` returns false and leaves `shortest_path_cells_` empty. -/
theorem C4_unreachable_target_fails (tie : List Nat → Nat) (g : Game)
    (start_cell target_cell : Nat) (wrapped : Bool)
    (hg : GridOK g.grid_) (hs : start_cell < 432) (ht : target_cell < 432)
    (hne : start_cell ≠ target_cell)
    (hnone : ∀ route, ¬ IsRoute wrapped (SnakeGridIndices g.grid_ g.snake_.snake_segments_)
      start_cell route target_cell) :
    g.searchResult tie start_cell target_cell wrapped = some (false, []) := by
  obtain ⟨st, hinv, _, h3⟩ := searchResult_spec tie g hg hs ht hne wrapped
  rcases h3 with ⟨_, chain, hc, _⟩ | ⟨_, he⟩
  · exact absurd (parChain_route hinv.toCoreInv hc) (hnone _)
  · exact he

theorem resetGrid_eq_of_boxes {grid1 grid2 : List GridCell}
    (h : grid1.map (fun cell => cell.box_) = grid2.map (fun cell => cell.box_)) :
    resetGrid grid1 = resetGrid grid2 := by
  have e : ∀ grid : List GridCell, resetGrid grid =
      (grid.map (fun cell => cell.box_)).map
        (fun b => ({ box_ := b, graph_info_ := GraphInfo.fresh } : GridCell)) := by
    intro grid
    simp [resetGrid, Function.comp_def]
  rw [e, e, h]

/-- C9: `Game::FindAStarPath` does not depend on search metadata left over from
earlier calls. Two games whose grids have the same cell boxes (the `graph_info_`
values and the old cached paths are arbitrary) and the same snake segments give,
for the same start, target and flag `wrapped`, the same boolean and the same
cached path. -/
theorem C9_search_ignores_stale_metadata (tie : List Nat → Nat) (g1 g2 : Game)
    (start_cell target_cell : Nat) (wrapped : Bool)
    (hboxes : g1.grid_.map (fun cell => cell.box_) = g2.grid_.map (fun cell => cell.box_))
    (hsnake : g1.snake_.snake_segments_ = g2.snake_.snake_segments_) :
    g1.searchResult tie start_cell target_cell wrapped =
      g2.searchResult tie start_cell target_cell wrapped := by
  have hlen : g1.grid_.length = g2.grid_.length := by
    have := congrArg List.length hboxes
    simpa using this
  have hinit : searchInit tie g1.grid_ start_cell target_cell wrapped =
      searchInit tie g2.grid_ start_cell target_cell wrapped := by
    simp only [searchInit, resetGrid_eq_of_boxes hboxes]
  unfold Game.searchResult Game.FindAStarPath
  simp only [hinit, hsnake, hlen]
  cases searchLoop tie
      (SnakeGridIndices (searchInit tie g2.grid_ start_cell target_cell wrapped).grid_
        g2.snake_.snake_segments_) start_cell target_cell wrapped (g2.grid_.length + 1)
      (searchInit tie g2.grid_ start_cell target_cell wrapped) with
  | none => rfl
  | some st =>
    simp only
    cases walkParents st.grid_ start_cell (g2.grid_.length + 1) target_cell [] with
    | none => rfl
    | some r => rfl

/-! ## Routes on the bounded grid -/

theorem adj_bounded_cases {a b : Nat} (ha : a < 432) (h : Adj false a b) :
    (b + 1 = a ∧ a % 24 ≠ 0) ∨ (b = a + 1 ∧ a % 24 ≠ 23) ∨ (b + 24 = a ∧ a / 24 ≠ 0) ∨
      (b = a + 24 ∧ a / 24 ≠ 17) := by
  unfold Adj at h
  rw [neighbours_bounded a ha] at h
  simp only [List.mem_append] at h
  rcases h with ((h | h) | h) | h <;> split_ifs at h <;> simp at h <;> omega

theorem adj_bounded_of_cases {a b : Nat} (ha : a < 432)
    (h : (b + 1 = a ∧ a % 24 ≠ 0) ∨ (b = a + 1 ∧ a % 24 ≠ 23) ∨ (b + 24 = a ∧ a / 24 ≠ 0) ∨
      (b = a + 24 ∧ a / 24 ≠ 17)) : Adj false a b := by
  unfold Adj
  rw [neighbours_bounded a ha]
  simp only [List.mem_append]
  rcases h with h | h | h | h
  · left; left; left; rw [if_neg h.2]; simp; omega
  · left; left; right; rw [if_neg h.2]; simp; omega
  · left; right; rw [if_neg h.2]; simp; omega
  · right; rw [if_neg h.2]; simp; omega

theorem manhattan_step {a b t : Nat} (ha : a < 432) (h : Adj false a b) :
    GetXYDistance (cellBox a) (cellBox t) ≤ GetXYDistance (cellBox b) (cellBox t) + 1 := by
  rw [getXYDistance_cell, getXYDistance_cell]
  have hc := adj_bounded_cases ha h
  rcases std_abs_cases (((t % 24 : Nat) : Int) - ((a % 24 : Nat) : Int)) with k1 | k1 <;>
  rcases std_abs_cases (((t / 24 : Nat) : Int) - ((a / 24 : Nat) : Int)) with k2 | k2 <;>
  rcases std_abs_cases (((t % 24 : Nat) : Int) - ((b % 24 : Nat) : Int)) with k3 | k3 <;>
  rcases std_abs_cases (((t / 24 : Nat) : Int) - ((b / 24 : Nat) : Int)) with k4 | k4 <;>
  omega

theorem route_length_ge_manhattan {occ : List Int} {a t : Nat} {r : List Nat} (ha : a < 432)
    (h : IsRoute false occ a r t) :
    GetXYDistance (cellBox a) (cellBox t) ≤ (r.length : Int) := by
  induction r generalizing a with
  | nil =>
    simp only [IsRoute] at h
    subst h
    rw [getXYDistance_cell]
    simp [std_abs]
  | cons c rest ih =>
    simp only [IsRoute] at h
    have h1 := manhattan_step (t := t) ha h.1
    have h2 := ih (adj_lt ha h.1) h.2.2
    simp only [List.length_cons]
    push_cast
    omega

theorem route_in_free_rectangle {occ : List Int} {t : Nat} (ht : t < 432) (n : Nat) :
    ∀ a, a < 432 → GetXYDistance (cellBox a) (cellBox t) = (n : Int) →
      (∀ c, c < 432 → inRect a t c → c ≠ a → (c : Int) ∉ occ) →
      ∃ r, IsRoute false occ a r t ∧ r.length = n := by
  induction n with
  | zero =>
    intro a ha hd _
    have : a = t := by
      by_contra hne
      have := getXYDistance_cell_pos (i := a) (j := t) hne
      rw [hd] at this
      simp at this
    exact ⟨[], by simp [IsRoute, this], rfl⟩
  | succ n ih =>
    intro a ha hd hfree
    rw [getXYDistance_cell] at hd
    have key : ∃ b, b < 432 ∧ Adj false a b ∧ inRect a t b ∧ b ≠ a ∧
        GetXYDistance (cellBox b) (cellBox t) = (n : Int) ∧
        ∀ c, inRect b t c → inRect a t c ∧ c ≠ a := by
      by_cases h1 : a % 24 < t % 24
      · refine ⟨a + 1, by omega, adj_bounded_of_cases ha (by omega), ?_, by omega, ?_, ?_⟩
        · unfold inRect; omega
        · rw [getXYDistance_cell]
          rcases std_abs_cases (((t % 24 : Nat) : Int) - ((a % 24 : Nat) : Int)) with k1 | k1 <;>
          rcases std_abs_cases (((t / 24 : Nat) : Int) - ((a / 24 : Nat) : Int)) with k2 | k2 <;>
          rcases std_abs_cases (((t % 24 : Nat) : Int) - (((a + 1) % 24 : Nat) : Int)) with k3 | k3 <;>
          rcases std_abs_cases (((t / 24 : Nat) : Int) - (((a + 1) / 24 : Nat) : Int)) with k4 | k4 <;>
          omega
        · intro c; unfold inRect; omega
      · by_cases h2 : t % 24 < a % 24
        · refine ⟨a - 1, by omega, adj_bounded_of_cases ha (by omega), ?_, by omega, ?_, ?_⟩
          · unfold inRect; omega
          · rw [getXYDistance_cell]
            rcases std_abs_cases (((t % 24 : Nat) : Int) - ((a % 24 : Nat) : Int)) with k1 | k1 <;>
            rcases std_abs_cases (((t / 24 : Nat) : Int) - ((a / 24 : Nat) : Int)) with k2 | k2 <;>
            rcases std_abs_cases (((t % 24 : Nat) : Int) - (((a - 1) % 24 : Nat) : Int)) with k3 | k3 <;>
            rcases std_abs_cases (((t / 24 : Nat) : Int) - (((a - 1) / 24 : Nat) : Int)) with k4 | k4 <;>
            omega
          · intro c; unfold inRect; omega
        · by_cases h3 : a / 24 < t / 24
          · refine ⟨a + 24, by omega, adj_bounded_of_cases ha (by omega), ?_, by omega, ?_, ?_⟩
            · unfold inRect; omega
            · rw [getXYDistance_cell]
              rcases std_abs_cases (((t % 24 : Nat) : Int) - ((a % 24 : Nat) : Int)) with k1 | k1 <;>
              rcases std_abs_cases (((t / 24 : Nat) : Int) - ((a / 24 : Nat) : Int)) with k2 | k2 <;>
              rcases std_abs_cases (((t % 24 : Nat) : Int) - (((a + 24) % 24 : Nat) : Int)) with k3 | k3 <;>
              rcases std_abs_cases (((t / 24 : Nat) : Int) - (((a + 24) / 24 : Nat) : Int)) with k4 | k4 <;>
              omega
            · intro c; unfold inRect; omega
          · have h4 : t / 24 < a / 24 := by
              rcases std_abs_cases (((t % 24 : Nat) : Int) - ((a % 24 : Nat) : Int)) with k1 | k1 <;>
              rcases std_abs_cases (((t / 24 : Nat) : Int) - ((a / 24 : Nat) : Int)) with k2 | k2 <;>
              omega
            refine ⟨a - 24, by omega, adj_bounded_of_cases ha (by omega), ?_, by omega, ?_, ?_⟩
            · unfold inRect; omega
            · rw [getXYDistance_cell]
              rcases std_abs_cases (((t % 24 : Nat) : Int) - ((a % 24 : Nat) : Int)) with k1 | k1 <;>
              rcases std_abs_cases (((t / 24 : Nat) : Int) - ((a / 24 : Nat) : Int)) with k2 | k2 <;>
              rcases std_abs_cases (((t % 24 : Nat) : Int) - (((a - 24) % 24 : Nat) : Int)) with k3 | k3 <;>
              rcases std_abs_cases (((t / 24 : Nat) : Int) - (((a - 24) / 24 : Nat) : Int)) with k4 | k4 <;>
              omega
            · intro c; unfold inRect; omega
    obtain ⟨b, hb, hadj, hrect, hba, hdist, hsub⟩ := key
    obtain ⟨r, hr, hlen⟩ := ih b hb hdist (fun c hc hin hcb => hfree c hc (hsub c hin).1 (hsub c hin).2)
    exact ⟨b :: r, ⟨hadj, hfree b hb hrect hba, hr⟩, by simp [hlen]⟩

theorem isRoute_last_step {wrapped : Bool} {occ : List Int} {a b : Nat} {r : List Nat}
    (ha : a < 432) (h : IsRoute wrapped occ a r b) (hne : a ≠ b) :
    ∃ c, c < 432 ∧ Adj wrapped c b ∧ (b : Int) ∉ occ := by
  induction r generalizing a with
  | nil => simp only [IsRoute] at h; exact absurd h hne
  | cons x xs ih =>
    simp only [IsRoute] at h
    by_cases hx : x = b
    · subst hx; exact ⟨a, ha, h.1, h.2.1⟩
    · exact ih (adj_lt ha h.1) h.2.2 hx

/-- C1 on the initial snake (cells 228, 227, 226, 225), start 228, target 230,
bounded mode: the call returns true with the cached path `[230, 229]`, which is a
valid free route. -/
theorem C1_found_path_is_valid_free_route_witness :
    ValidPath false initGrid [228, 227, 226, 225] 228 230 [230, 229] :=
  C1_found_path_is_valid_free_route tieFirst (Game.sample [228, 227, 226, 225] 0 []) 228 230
    false [230, 229] gridOK_initGrid (by decide) (by decide)
    (by set_option maxRecDepth 1000000 in decide)

set_option maxRecDepth 1000000 in
/-- C2 on the initial snake, start 228, target 230, bounded mode, with the route
`[229, 230]` as evidence that the target can be reached. -/
theorem C2_search_finds_shortest_route_witness :
    ∃ path, (Game.sample [228, 227, 226, 225] 0 []).searchResult tieFirst 228 230 false =
        some (true, path) ∧
      IsRoute false (SnakeGridIndices initGrid [228, 227, 226, 225]) 228 path.reverse 230 ∧
      ∀ other, IsRoute false (SnakeGridIndices initGrid [228, 227, 226, 225]) 228 other 230 →
        path.length ≤ other.length :=
  C2_search_finds_shortest_route tieFirst (Game.sample [228, 227, 226, 225] 0 []) 228 230
    false [229, 230] gridOK_initGrid (by decide) (by decide)
    ⟨by decide, by decide, by decide, by decide, rfl⟩

theorem snakeGridIndices_valid {grid : List GridCell} (hg : GridOK grid) {segs : List Nat}
    (h : ∀ s ∈ segs, s < 432) : SnakeGridIndices grid segs = List.map (fun s : Nat => Int.ofNat s) segs := by
  unfold SnakeGridIndices
  apply List.map_congr_left
  intro s hs
  rw [hg.boxAt (h s hs), (convert_cellBox s (h s hs)).1]
  rfl

/-- C4 in bounded mode with target 0 (the top left corner) whose two neighbours 1
and 24 are snake cells: no route exists and the call returns false with an empty
path. -/
theorem C4_unreachable_target_fails_witness :
    (Game.sample [228, 227, 226, 225, 1, 24] 0 []).searchResult tieFirst 228 0 false =
      some (false, []) := by
  refine C4_unreachable_target_fails tieFirst (Game.sample [228, 227, 226, 225, 1, 24] 0 [])
    228 0 false gridOK_initGrid (by decide) (by decide) (by decide) ?_
  intro route hr
  obtain ⟨c, hc, hadj, _⟩ := isRoute_last_step (by decide) hr (by decide)
  have h0 := adj_symm hc hadj
  have hc' : c = 1 ∨ c = 24 := by
    unfold Adj at h0
    rw [neighbours_bounded 0 (by decide)] at h0
    simp at h0
    omega
  -- the cell before the target on the route is 1 or 24: it is not the start, so it
  -- is a route cell and must be unoccupied
  have hocc : ∀ {a : Nat} {r : List Nat}, a < 432 →
      IsRoute false (SnakeGridIndices initGrid [228, 227, 226, 225, 1, 24]) a r 0 →
      a ≠ 0 → a ≠ 1 → a ≠ 24 → False := by
    intro a r
    induction r generalizing a with
    | nil => intro _ h hne _ _; simp only [IsRoute] at h; exact hne h
    | cons x xs ih =>
      intro ha h _ _ _
      simp only [IsRoute] at h
      have hx := adj_lt ha h.1
      have hidx : SnakeGridIndices initGrid [228, 227, 226, 225, 1, 24] =
          [228, 227, 226, 225, 1, 24] := by
        rw [snakeGridIndices_valid gridOK_initGrid (by decide)]; rfl
      rw [hidx] at h
      have hx1 : x ≠ 1 := by
        intro e; subst e; exact h.2.1 (by decide)
      have hx24 : x ≠ 24 := by
        intro e; subst e; exact h.2.1 (by decide)
      by_cases hx0 : x = 0
      · subst hx0
        have := adj_symm ha h.1
        unfold Adj at this
        rw [neighbours_bounded 0 (by decide)] at this
        simp at this
        omega
      · rw [← hidx] at h
        exact ih hx h.2.2 hx0 hx1 hx24
  exact hocc (by decide) hr (by decide) (by decide) (by decide)

/-- C9 on two games with the same boxes and snake: one straight from the
constructor, the other with stale metadata on cell 229 and a stale cached path. -/
theorem C9_search_ignores_stale_metadata_witness :
    (Game.sample [228, 227, 226, 225] 0 []).searchResult tieFirst 228 230 false =
      ({ Game.sample [228, 227, 226, 225] 0 [] with
          grid_ := setInfo initGrid 229
            { parent_ := some 5, visited_ := true, in_queue_ := true,
              global_cost_ := 3, local_cost_ := 1 },
          shortest_path_cells_ := [7, 8] } : Game).searchResult tieFirst 228 230 false :=
  by
  have hb : GridOK (setInfo initGrid 229
      { parent_ := some 5, visited_ := true, in_queue_ := true,
        global_cost_ := 3, local_cost_ := 1 }) := gridOK_setInfo gridOK_initGrid _ _
  unfold GridOK at hb
  apply C9_search_ignores_stale_metadata
  · dsimp only
    exact hb.symm
  · rfl

/-- C3: in bounded mode, when no cell of the rectangle spanned by head and target
other than the head has its index among the snake's indices,
`Game::FindAStarPath` returns true and the cached path has exactly
`GetXYDistance(head, target)` cells. -/
theorem C3_unobstructed_path_has_manhattan_length (tie : List Nat → Nat) (g : Game)
    (head target_cell : Nat) (hg : GridOK g.grid_) (hs : head < 432) (ht : target_cell < 432)
    (hfree : ∀ c, c < 432 → inRect head target_cell c → c ≠ head →
      ConvertCellToGridIndex (boxAt g.grid_ c) ∉
        SnakeGridIndices g.grid_ g.snake_.snake_segments_) :
    ∃ path, g.searchResult tie head target_cell false = some (true, path) ∧
      (path.length : Int) = GetXYDistance (boxAt g.grid_ head) (boxAt g.grid_ target_cell) := by
  rw [hg.boxAt hs, hg.boxAt ht]
  have hd0 := getXYDistance_cell head target_cell
  have hnn : 0 ≤ GetXYDistance (cellBox head) (cellBox target_cell) := by
    rw [hd0]
    exact add_nonneg (std_abs_nonneg _) (std_abs_nonneg _)
  obtain ⟨n, hn⟩ := Int.eq_ofNat_of_zero_le hnn
  have hfree' : ∀ c, c < 432 → inRect head target_cell c → c ≠ head →
      (c : Int) ∉ SnakeGridIndices g.grid_ g.snake_.snake_segments_ := by
    intro c hc hin hne
    have := hfree c hc hin hne
    rwa [hg.boxAt hc, (convert_cellBox c hc).1] at this
  obtain ⟨r, hr, hlen⟩ := route_in_free_rectangle ht n head hs hn hfree'
  obtain ⟨path, hp1, hp2, hp3⟩ :=
    shortest_route_found tie g head target_cell false r hg hs ht hr
  refine ⟨path, hp1, ?_⟩
  have hle := hp3 r hr
  have hge := route_length_ge_manhattan hs hp2
  rw [List.length_reverse] at hge
  rw [hn] at hge ⊢
  have : path.length ≤ n := by rw [← hlen]; exact hle
  have h2 : n ≤ path.length := by exact_mod_cast hge
  exact_mod_cast le_antisymm this h2

/-- C3 on the initial snake with head 228 and target 300 (three rows below the
head): the rectangle is free and the cached path has three cells. -/
theorem C3_unobstructed_path_has_manhattan_length_witness :
    ∃ path, (Game.sample [228, 227, 226, 225] 0 []).searchResult tieFirst 228 300 false =
        some (true, path) ∧
      (path.length : Int) = GetXYDistance (boxAt initGrid 228) (boxAt initGrid 300) := by
  refine C3_unobstructed_path_has_manhattan_length tieFirst
    (Game.sample [228, 227, 226, 225] 0 []) 228 300 gridOK_initGrid (by decide) (by decide) ?_
  intro c hc hin hne
  dsimp only
  rw [snakeGridIndices_valid gridOK_initGrid (by decide), gridOK_initGrid.boxAt hc,
    (convert_cellBox c hc).1]
  unfold inRect at hin
  simp only [List.map_cons, List.map_nil, List.mem_cons, List.mem_singleton, List.not_mem_nil,
    or_false, Int.ofNat_eq_coe, Nat.cast_inj, not_or]
  refine ⟨?_, ?_, ?_, ?_⟩ <;> norm_cast <;> omega

/-! ## `Snake::MoveSnake` -/

theorem shiftStep_inv (l segs : List Nat) (i : Nat) (h1 : segs.length = l.length)
    (h2 : ∀ x ∈ segs, x ∈ l) :
    (segs.set i (segs.getD (i - 1) 0)).length = l.length ∧
      ∀ x ∈ segs.set i (segs.getD (i - 1) 0), x ∈ l := by
  refine ⟨by rw [List.length_set]; exact h1, ?_⟩
  intro x hx
  by_cases hi : i < segs.length
  · rcases List.mem_or_eq_of_mem_set hx with hx | hx
    · exact h2 x hx
    · have hlt : i - 1 < segs.length := by omega
      rw [hx, List.getD_eq_getElem?_getD, List.getElem?_eq_getElem hlt]
      exact h2 _ (List.getElem_mem _)
  · rw [List.set_eq_of_length_le (by omega)] at hx
    exact h2 x hx

theorem shiftSegments_inv (l : List Nat) :
    (shiftSegments l).length = l.length ∧ ∀ x ∈ shiftSegments l, x ∈ l := by
  unfold shiftSegments
  generalize ((List.range (l.length - 1)).reverse).map (fun k => k + 1) = idxs
  suffices h : ∀ segs : List Nat, segs.length = l.length → (∀ x ∈ segs, x ∈ l) →
      (idxs.foldl (fun segs i => segs.set i (segs.getD (i - 1) 0)) segs).length = l.length ∧
      ∀ x ∈ idxs.foldl (fun segs i => segs.set i (segs.getD (i - 1) 0)) segs, x ∈ l from
    h l rfl (fun _ hx => hx)
  induction idxs with
  | nil => intro segs h1 h2; exact ⟨h1, h2⟩
  | cons i rest ih =>
    intro segs h1 h2
    obtain ⟨h3, h4⟩ := shiftStep_inv l segs i h1 h2
    exact ih _ h3 h4

theorem ite_some_eq_some {α : Type} {c : Prop} [Decidable c] {a b : α}
    (h : (if c then some a else none) = some b) : c ∧ a = b := by
  split_ifs at h with hc
  exact ⟨hc, by simpa using h⟩

theorem moveSnake_spec {g g0 : Game} {next_cell : Option Nat}
    (h : g.MoveSnake next_cell = some g0) :
    g.snake_.snake_segments_ ≠ [] ∧
      ∃ dir new_head, new_head < g.grid_.length ∧
        g0 = { g with snake_ :=
          { g.snake_ with
            direction_ := dir,
            snake_segments_ := (shiftSegments g.snake_.snake_segments_).set 0 new_head } } := by
  unfold Game.MoveSnake at h
  cases hs : g.snake_.snake_segments_ with
  | nil => rw [hs] at h; simp at h
  | cons s0 rest =>
    rw [hs] at h
    refine ⟨by simp, ?_⟩
    cases next_cell with
    | some next =>
      simp only at h
      obtain ⟨hc, he⟩ := ite_some_eq_some h
      exact ⟨_, _, hc.2, he.symm⟩
    | none =>
      simp only at h
      obtain ⟨hc, he⟩ := ite_some_eq_some h
      exact ⟨g.snake_.direction_, _, hc.2.2, he.symm⟩

/-! ## `SDL_HasIntersection` on grid cells -/

theorem hasIntersection_self (b : SDL_Rect) (hw : 0 < b.w) (hh : 0 < b.h) :
    SDL_HasIntersection b b = true := by
  unfold SDL_HasIntersection SDL_RectEmpty
  have h1 : ¬ b.w ≤ 0 := by omega
  have h2 : ¬ b.h ≤ 0 := by omega
  simp only [h1, h2, decide_False, Bool.or_self, Bool.false_eq_true, if_false, gt_iff_lt,
    lt_self_iff_false]
  have h3 : ¬ b.x + b.w ≤ b.x := by omega
  have h4 : ¬ b.y + b.h ≤ b.y := by omega
  simp [h3, h4]

/-! ## `Game::SpawnFood` -/

theorem snapCoordinate_spec (hi : Int) {v : Int} (h0 : 0 ≤ v) (h1 : v ≤ 50 * hi) :
    ∃ k : Int, 0 ≤ k ∧ k ≤ hi ∧ snapCoordinate v = 50 * k := by
  unfold snapCoordinate grid_cell_side
  rw [Int.tmod_eq_emod h0 (by norm_num)]
  have e : Int.tdiv 50 2 = 25 := by decide
  rw [e]
  simp only
  split_ifs with h
  · exact ⟨v / 50 + 1, by omega, by omega, by omega⟩
  · exact ⟨v / 50, by omega, by omega, by omega⟩

theorem drawCell_spec {d : Int × Int} (h : DrawInRange d) :
    drawCell d < 432 ∧ (ConvertXYToGridIndex (snapCoordinate d.1) (snapCoordinate d.2)) =
        (drawCell d : Int) ∧
      (cellBox (drawCell d)).x = snapCoordinate d.1 ∧
      (cellBox (drawCell d)).y = snapCoordinate d.2 := by
  unfold DrawInRange constants.screen_width constants.screen_height grid_cell_side at h
  obtain ⟨c, hc0, hc1, hc⟩ := snapCoordinate_spec 23 h.1 (by omega)
  obtain ⟨r, hr0, hr1, hr⟩ := snapCoordinate_spec 17 h.2.2.1 (by omega)
  have hidx : ConvertXYToGridIndex (snapCoordinate d.1) (snapCoordinate d.2) = r * 24 + c := by
    simp only [ConvertXYToGridIndex, grid_cell_side, constants.screen_width]
    rw [hc, hr]
    have e : Int.tdiv 1200 50 = 24 := by decide
    rw [e, Int.tdiv_eq_ediv (by omega) (by norm_num), Int.tdiv_eq_ediv (by omega) (by norm_num)]
    omega
  have hcell : (drawCell d : Int) = r * 24 + c := by
    unfold drawCell
    rw [hidx]
    exact Int.toNat_of_nonneg (by omega)
  refine ⟨by omega, by rw [hidx, hcell], ?_, ?_⟩
  · simp only [cellBox]; rw [hc]; omega
  · simp only [cellBox]; rw [hr]; omega

theorem cellBox_injective {a b : Nat} (h1 : (cellBox a).x = (cellBox b).x)
    (h2 : (cellBox a).y = (cellBox b).y) : a = b := by
  simp only [cellBox] at h1 h2
  omega

theorem spawnLoop_spec (g : Game) (hg : GridOK g.grid_)
    (hsegs : ∀ s ∈ g.snake_.snake_segments_, s < 432) (draws : List (Int × Int))
    (hrange : ∀ d ∈ draws, DrawInRange d)
    (hfree : ∃ d ∈ draws, drawCell d ∉ g.snake_.snake_segments_) :
    ∃ d rest, g.spawnLoop draws = some { g with food_ := drawCell d, mt_ := rest } ∧
      drawCell d < 432 ∧ drawCell d ∉ g.snake_.snake_segments_ := by
  induction draws with
  | nil => obtain ⟨d, hd, _⟩ := hfree; simp at hd
  | cons d rest ih =>
    obtain ⟨h1, h2, h3, h4⟩ := drawCell_spec (hrange d (List.mem_cons_self _ _))
    have hcoll : (g.snake_.snake_segments_.any (fun snake_segment =>
        decide ((boxAt g.grid_ snake_segment).x = snapCoordinate d.1 ∧
          (boxAt g.grid_ snake_segment).y = snapCoordinate d.2))) = true ↔
        drawCell d ∈ g.snake_.snake_segments_ := by
      rw [List.any_eq_true]
      constructor
      · rintro ⟨s, hs, hdec⟩
        rw [decide_eq_true_eq, hg.boxAt (hsegs s hs), ← h3, ← h4] at hdec
        rw [← cellBox_injective hdec.1 hdec.2]
        exact hs
      · intro hmem
        refine ⟨drawCell d, hmem, ?_⟩
        rw [decide_eq_true_eq, hg.boxAt h1]
        exact ⟨h3, h4⟩
    obtain ⟨x, y⟩ := d
    unfold Game.spawnLoop
    simp only at hcoll h2 ⊢
    by_cases hmem : drawCell (x, y) ∈ g.snake_.snake_segments_
    · rw [if_pos (hcoll.mpr hmem)]
      apply ih (fun d' hd' => hrange d' (List.mem_cons_of_mem _ hd'))
      obtain ⟨d', hd', hfd⟩ := hfree
      rcases List.mem_cons.mp hd' with rfl | hd'
      · exact absurd hmem hfd
      · exact ⟨d', hd', hfd⟩
    · rw [if_neg (fun hc => hmem (hcoll.mp hc))]
      have hidx : 0 ≤ ConvertXYToGridIndex (snapCoordinate x) (snapCoordinate y) ∧
          (ConvertXYToGridIndex (snapCoordinate x) (snapCoordinate y)).toNat <
            g.grid_.length := by
        rw [h2, hg.length]
        exact ⟨by omega, by simpa using h1⟩
      rw [if_pos hidx]
      exact ⟨(x, y), rest, rfl, h1, hmem⟩

/-- `Game::FindAStarPath` returns for every start and target on the grid, and
changes only the search metadata and the cached path. -/
theorem findAStarPath_total (tie : List Nat → Nat) (g : Game) (hg : GridOK g.grid_)
    {start target : Nat} (hs : start < 432) (ht : target < 432) (wrapped : Bool) :
    ∃ found grid path, g.FindAStarPath tie start target wrapped =
      some (found, { g with grid_ := grid, shortest_path_cells_ := path }) := by
  by_cases hne : start = target
  · subst hne
    exact ⟨true, _, [], findAStarPath_same tie g start wrapped⟩
  · obtain ⟨st, _, _, h3⟩ := findAStarPath_spec tie g hg hs ht hne wrapped
    rcases h3 with ⟨_, chain, _, he⟩ | ⟨_, he⟩
    · exact ⟨true, st.grid_, chain, he⟩
    · exact ⟨false, st.grid_, [], he⟩

theorem getD_last_eq_getLast? (l : List Nat) (hne : l ≠ []) :
    l.getLast? = some (l.getD (l.length - 1) 0) := by
  rw [List.getLast?_eq_getElem?, List.getD_eq_getElem?_getD]
  have hlt : l.length - 1 < l.length := by
    have := List.length_pos.mpr hne
    omega
  rw [List.getElem?_eq_getElem hlt]
  rfl

/-- C10 (consumption): if after `Snake::MoveSnake` the head cell is the food cell,
`Snake::Tick` returns (given that the generator delivers, among pairs in the
ranges of its distributions, one whose cell is free) with the score increased by
10, one more segment, the new last segment equal to the previous last one, the
tick interval reduced by 1 when it was above 50 and unchanged otherwise (so not
below 50 when it was not before), the food on a grid cell that is no segment, and
`game_over_` unchanged. -/
theorem C10_consumption (tie : List Nat → Nat) (g : Game) (next_cell : Option Nat)
    (moved_segments : List Nat) (hg : GridOK g.grid_)
    (hsegs : ∀ s ∈ g.snake_.snake_segments_, s < 432)
    (hrange : ∀ d ∈ g.mt_, DrawInRange d)
    (hmove : (g.MoveSnake next_cell).map
      (fun g0 => (g0.GetHead, g0.snake_.snake_segments_)) = some (g.food_, moved_segments))
    (hfree : ∃ d ∈ g.mt_, drawCell d ∉ moved_segments) :
    ∃ g' last, g.SnakeTick tie next_cell = some g' ∧
      g'.score_ = g.score_ + 10 ∧
      moved_segments.getLast? = some last ∧
      g'.snake_.snake_segments_ = moved_segments ++ [last] ∧
      g'.snake_.snake_segments_.length = g.snake_.snake_segments_.length + 1 ∧
      g'.tick_ms_ = (if g.tick_ms_ > 50 then g.tick_ms_ - 1 else g.tick_ms_) ∧
      (50 ≤ g.tick_ms_ → 50 ≤ g'.tick_ms_) ∧
      g'.food_ < 432 ∧ g'.food_ ∉ g'.snake_.snake_segments_ ∧ g'.food_ ≠ g.food_ ∧
      g'.game_over_ = g.game_over_ := by
  cases hm : g.MoveSnake next_cell with
  | none => rw [hm] at hmove; simp at hmove
  | some g0 =>
    rw [hm] at hmove
    simp only [Option.map_some', Option.some.injEq, Prod.mk.injEq] at hmove
    obtain ⟨hhead, hms⟩ := hmove
    obtain ⟨hne, dir, new_head, hnh, hg0⟩ := moveSnake_spec hm
    obtain ⟨hshl, hshm⟩ := shiftSegments_inv g.snake_.snake_segments_
    have hlen0 : 0 < (shiftSegments g.snake_.snake_segments_).length := by
      rw [hshl]; exact List.length_pos.mpr hne
    have hms' : moved_segments = (shiftSegments g.snake_.snake_segments_).set 0 new_head := by
      rw [← hms, hg0]
    have hmlen : moved_segments.length = g.snake_.snake_segments_.length := by
      rw [hms', List.length_set, hshl]
    have hmne : moved_segments ≠ [] := by
      intro e; rw [e] at hmlen; simp at hmlen; exact hne (List.length_eq_zero.mp hmlen.symm)
    have hheadval : g0.GetHead = new_head := by
      unfold Game.GetHead
      rw [hms, hms', List.getD_eq_getElem?_getD, List.getElem?_set]
      simp [hlen0]
    have hfood_lt : g.food_ < 432 := by
      rw [← hhead, hheadval, ← hg.length]; exact hnh
    have hmvalid : ∀ s ∈ moved_segments, s < 432 := by
      intro s hs
      rw [hms'] at hs
      rcases List.mem_or_eq_of_mem_set hs with hs | hs
      · exact hsegs s (hshm s hs)
      · rw [hs, ← hg.length]; exact hnh
    have hfood_mem : g.food_ ∈ moved_segments := by
      rw [← hhead, hheadval, hms']
      rw [List.mem_iff_getElem?]
      exact ⟨0, by rw [List.getElem?_set]; simp [hlen0]⟩
    -- the state in which the intersection test is made
    set g1 : Game := { g0 with snake_ := { g0.snake_ with moved_snake_ := false } } with hg1
    have hg1grid : g1.grid_ = g.grid_ := by rw [hg1, hg0]
    have hg1segs : g1.snake_.snake_segments_ = moved_segments := by rw [hg1]; exact hms
    have hg1food : g1.food_ = g.food_ := by rw [hg1, hg0]
    have hg1head : g1.GetHead = g.food_ := by
      rw [← hhead]; unfold Game.GetHead; rw [hg1]
    have hg1mt : g1.mt_ = g.mt_ := by rw [hg1, hg0]
    have hinter : SDL_HasIntersection (boxAt g1.grid_ g1.GetHead) (boxAt g1.grid_ g1.food_) =
        true := by
      rw [hg1head, hg1food, hg1grid, hg.boxAt hfood_lt]
      exact hasIntersection_self _ (by simp [cellBox]) (by simp [cellBox])
    obtain ⟨d, rest, hspawn, hdlt, hdfree⟩ := spawnLoop_spec g1 (hg1grid ▸ hg)
      (hg1segs ▸ hmvalid) g1.mt_ (hg1mt ▸ hrange) (by rw [hg1mt, hg1segs]; exact hfree)
    rw [hg1segs] at hdfree
    set g2 : Game := { g1 with food_ := drawCell d, mt_ := rest } with hg2
    set g3 : Game := (g2.IncrementScore.AddSegment).SpeedUp with hg3
    have hlast := getD_last_eq_getLast? moved_segments hmne
    have hg3segs : g3.snake_.snake_segments_ =
        moved_segments ++ [moved_segments.getD (moved_segments.length - 1) 0] := by
      rw [hg3]
      unfold Game.SpeedUp Game.AddSegment Game.IncrementScore
      simp only
      split_ifs <;> simp only [hg2, hg1, hms]
    have hg3score : g3.score_ = g.score_ + 10 := by
      rw [hg3]
      unfold Game.SpeedUp Game.AddSegment Game.IncrementScore
      simp only
      split_ifs <;> simp only [hg2, hg1, hg0]
    have hg3tick : g3.tick_ms_ = (if g.tick_ms_ > 50 then g.tick_ms_ - 1 else g.tick_ms_) := by
      rw [hg3]
      unfold Game.SpeedUp Game.AddSegment Game.IncrementScore
      simp only [hg2, hg1, hg0]
      split_ifs <;> rfl
    have hg3food : g3.food_ = drawCell d := by
      rw [hg3]
      unfold Game.SpeedUp Game.AddSegment Game.IncrementScore
      simp only
      split_ifs <;> simp only [hg2]
    have hg3over : g3.game_over_ = g.game_over_ := by
      rw [hg3]
      unfold Game.SpeedUp Game.AddSegment Game.IncrementScore
      simp only
      split_ifs <;> simp only [hg2, hg1, hg0]
    have hg3grid : g3.grid_ = g.grid_ := by
      rw [hg3]
      unfold Game.SpeedUp Game.AddSegment Game.IncrementScore
      simp only
      split_ifs <;> simp only [hg2, hg1, hg0]
    have hfinal : ∀ g' : Game, g'.score_ = g3.score_ →
        g'.snake_.snake_segments_ = g3.snake_.snake_segments_ → g'.tick_ms_ = g3.tick_ms_ →
        g'.food_ = g3.food_ → g'.game_over_ = g3.game_over_ →
        g'.score_ = g.score_ + 10 ∧
        moved_segments.getLast? = some (moved_segments.getD (moved_segments.length - 1) 0) ∧
        g'.snake_.snake_segments_ =
          moved_segments ++ [moved_segments.getD (moved_segments.length - 1) 0] ∧
        g'.snake_.snake_segments_.length = g.snake_.snake_segments_.length + 1 ∧
        g'.tick_ms_ = (if g.tick_ms_ > 50 then g.tick_ms_ - 1 else g.tick_ms_) ∧
        (50 ≤ g.tick_ms_ → 50 ≤ g'.tick_ms_) ∧
        g'.food_ < 432 ∧ g'.food_ ∉ g'.snake_.snake_segments_ ∧ g'.food_ ≠ g.food_ ∧
        g'.game_over_ = g.game_over_ := by
      intro g' e1 e2 e3 e4 e5
      have hmemlast : moved_segments.getD (moved_segments.length - 1) 0 ∈ moved_segments := by
        have hlt : moved_segments.length - 1 < moved_segments.length := by
          have := List.length_pos.mpr hmne
          omega
        rw [List.getD_eq_getElem?_getD, List.getElem?_eq_getElem hlt]
        exact List.getElem_mem _
      refine ⟨by rw [e1, hg3score], hlast, by rw [e2, hg3segs], ?_, by rw [e3, hg3tick], ?_,
        by rw [e4, hg3food]; exact hdlt, ?_, ?_, by rw [e5, hg3over]⟩
      · rw [e2, hg3segs, List.length_append, hmlen]; rfl
      · intro h50; rw [e3, hg3tick]; split_ifs <;> omega
      · rw [e2, hg3segs, e4, hg3food]
        intro hcon
        rcases List.mem_append.mp hcon with hcon | hcon
        · exact hdfree hcon
        · rw [List.mem_singleton] at hcon
          exact hdfree (hcon ▸ hmemlast)
      · rw [e4, hg3food]
        intro hcon
        exact hdfree (hcon ▸ hfood_mem)
    unfold Game.SnakeTick
    rw [hm]
    simp only
    rw [← hg1, if_pos hinter]
    unfold Game.SpawnFood
    rw [hspawn]
    simp only
    rw [← hg3]
    by_cases hauto : g3.autopilot_toggle_ = true
    · rw [if_pos hauto]
      have hidx : ConvertCellToGridIndex (boxAt g3.grid_ g3.food_) = (drawCell d : Int) := by
        rw [hg3grid, hg3food, hg.boxAt hdlt, (convert_cellBox _ hdlt).1]
      have hcond : 0 ≤ ConvertCellToGridIndex (boxAt g3.grid_ g3.food_) ∧
          (ConvertCellToGridIndex (boxAt g3.grid_ g3.food_)).toNat < g3.grid_.length := by
        rw [hidx, hg3grid, hg.length]
        exact ⟨by omega, by simpa using hdlt⟩
      rw [if_pos hcond]
      have hhead3 : g3.GetHead < 432 := by
        unfold Game.GetHead
        rw [hg3segs, List.getD_eq_getElem?_getD]
        have h0lt : 0 < moved_segments.length := List.length_pos.mpr hmne
        rw [List.getElem?_append_left h0lt, List.getElem?_eq_getElem h0lt]
        exact hmvalid _ (List.getElem_mem _)
      have htgt : (ConvertCellToGridIndex (boxAt g3.grid_ g3.food_)).toNat < 432 := by
        rw [hidx]; simpa using hdlt
      obtain ⟨found, grid, path, hfind⟩ := findAStarPath_total tie g3 (hg3grid ▸ hg) hhead3 htgt
        g3.wrapped_shortest_path_toggle_
      rw [hfind]
      exact ⟨_, _, rfl, hfinal _ rfl rfl rfl rfl rfl⟩
    · rw [if_neg hauto]
      exact ⟨_, _, rfl, hfinal _ rfl rfl rfl rfl rfl⟩

set_option maxRecDepth 1000000 in
/-- C10 on the initial snake heading right with the food on cell 229, right in
front of the head, and the generator delivering `(3, 4)` (rounded to cell 0). -/
theorem C10_consumption_witness :
    ∃ g' last, (Game.sample [228, 227, 226, 225] 229 [(3, 4)]).SnakeTick tieFirst none =
        some g' ∧
      g'.score_ = 0 + 10 ∧
      [229, 228, 227, 226].getLast? = some last ∧
      g'.snake_.snake_segments_ = [229, 228, 227, 226] ++ [last] ∧
      g'.snake_.snake_segments_.length = 4 + 1 ∧
      g'.tick_ms_ = 99 ∧
      (50 ≤ (100 : Int) → 50 ≤ g'.tick_ms_) ∧
      g'.food_ < 432 ∧ g'.food_ ∉ g'.snake_.snake_segments_ ∧ g'.food_ ≠ 229 ∧
      g'.game_over_ = false :=
  C10_consumption tieFirst (Game.sample [228, 227, 226, 225] 229 [(3, 4)]) none
    [229, 228, 227, 226] gridOK_initGrid (by decide) (by decide) (by decide)
    ⟨(3, 4), by decide, by decide⟩

/-! ## The shift loop of `Snake::MoveSnake` in closed form -/

theorem shiftSegments_eq_foldr (l : List Nat) :
    shiftSegments l =
      (List.range (l.length - 1)).foldr (fun k segs => segs.set (k + 1) (segs.getD k 0)) l := by
  unfold shiftSegments
  rw [List.foldl_map, List.foldl_reverse]
  rfl

theorem shift_foldr_getD (l : List Nat) (c : Nat) :
    ∀ k, k + c = l.length - 1 →
      ((List.range' k c).foldr (fun k segs => segs.set (k + 1) (segs.getD k 0)) l).length =
          l.length ∧
        ∀ j, ((List.range' k c).foldr (fun k segs => segs.set (k + 1) (segs.getD k 0)) l)[j]? =
          if k < j ∧ j < l.length then l[j - 1]? else l[j]? := by
  induction c with
  | zero =>
    intro k hk
    refine ⟨rfl, fun j => ?_⟩
    simp only [List.range'_zero, List.foldr_nil]
    rw [if_neg]
    omega
  | succ c ih =>
    intro k hk
    obtain ⟨hlen, hget⟩ := ih (k + 1) (by omega)
    rw [List.range'_succ, List.foldr_cons]
    refine ⟨by rw [List.length_set]; exact hlen, fun j => ?_⟩
    rw [List.getElem?_set, hlen]
    by_cases hj : k + 1 = j
    · subst hj
      have hlt : k + 1 < l.length := by omega
      rw [if_pos rfl, if_pos hlt, if_pos ⟨by omega, hlt⟩, List.getD_eq_getElem?_getD, hget k,
        if_neg (by omega)]
      have hk' : k < l.length := by omega
      simp [List.getElem?_eq_getElem hk']
    · rw [if_neg hj, hget j]
      by_cases h1 : k + 1 < j ∧ j < l.length
      · rw [if_pos h1, if_pos ⟨by omega, h1.2⟩]
      · rw [if_neg h1, if_neg]
        omega

theorem shiftSegments_getElem? (l : List Nat) (j : Nat) :
    (shiftSegments l)[j]? = if 0 < j ∧ j < l.length then l[j - 1]? else l[j]? := by
  rw [shiftSegments_eq_foldr, List.range_eq_range']
  by_cases hl : l.length = 0
  · have : l = [] := List.length_eq_zero.mp hl
    subst this
    simp
  · exact (shift_foldr_getD l (l.length - 1) 0 (by omega)).2 j

/-- The shift loop keeps the first entry and moves every other entry one slot
toward the tail, dropping the last one. -/
theorem shiftSegments_cons (x : Nat) (xs : List Nat) :
    shiftSegments (x :: xs) = x :: (x :: xs).dropLast := by
  apply List.ext_getElem?
  intro j
  rw [shiftSegments_getElem?]
  cases j with
  | zero => simp
  | succ j =>
    simp only [Nat.zero_lt_succ, true_and, Nat.add_sub_cancel, List.getElem?_cons_succ]
    by_cases hj : j + 1 < (x :: xs).length
    · rw [if_pos hj, List.getElem?_dropLast, if_pos (by omega)]
    · rw [if_neg hj]
      simp only [List.length_cons] at hj
      rw [List.getElem?_eq_none (by omega),
        List.getElem?_eq_none (by rw [List.length_dropLast, List.length_cons]; omega)]

theorem set_zero_shiftSegments (x : Nat) (xs : List Nat) (v : Nat) :
    (shiftSegments (x :: xs)).set 0 v = v :: (x :: xs).dropLast := by
  rw [shiftSegments_cons]
  rfl

/-! ## `SDL_HasIntersection` on grid cells -/

theorem hasIntersection_cell (a b : Nat) :
    SDL_HasIntersection (cellBox a) (cellBox b) = decide (a = b) := by
  by_cases h : a = b
  · subst h
    rw [hasIntersection_self _ (by simp [cellBox]) (by simp [cellBox])]
    simp
  · have hd : decide (a = b) = false := by simp [h]
    rw [hd]
    unfold SDL_HasIntersection SDL_RectEmpty
    simp only [cellBox]
    have h1 : ¬ ((50 : Int) ≤ 0) := by norm_num
    simp only [h1, decide_False, Bool.or_self, Bool.false_eq_true, if_false]
    by_cases hc : a % 24 = b % 24
    · have hr : a / 24 ≠ b / 24 := by omega
      split_ifs <;> first | rfl | omega
    · split_ifs <;> first | rfl | omega

/-! ## `Snake::MoveSnake` in closed form -/

theorem x_offset_eq : constants.screen_width.tdiv grid_cell_side = 24 := by decide

theorem y_offset_eq : constants.screen_height.tdiv grid_cell_side = 18 := by decide

theorem wrapNeighbour_lt {h : Nat} (hh : h < 432) (d : Direction) : wrapNeighbour d h < 432 := by
  cases d <;> simp only [wrapNeighbour, nbLeft, nbRight, nbTop, nbBottom] <;> split_ifs <;> omega

theorem manual_index_left {h : Nat} :
    (if (cellBox h).x = 0 then (h : Int) + 24 else (h : Int)) - 1 = (nbLeft h : Int) := by
  simp only [nbLeft, cellBox]
  split_ifs <;> omega

theorem manual_index_right {h : Nat} :
    (if (cellBox h).x = constants.screen_width - grid_cell_side then (h : Int) - 24
      else (h : Int)) + 1 = (nbRight h : Int) := by
  simp only [nbRight, cellBox, constants.screen_width, grid_cell_side]
  split_ifs <;> omega

theorem manual_index_up {h : Nat} :
    (if (cellBox h).y = 0 then (h : Int) + 24 * 18 else (h : Int)) - 24 = (nbTop h : Int) := by
  simp only [nbTop, cellBox]
  split_ifs <;> omega

theorem manual_index_down {h : Nat} (hh : h < 432) :
    (if (cellBox h).y = constants.screen_height - grid_cell_side then (h : Int) - 24 * 18
      else (h : Int)) + 24 = (nbBottom h : Int) := by
  simp only [nbBottom, cellBox, constants.screen_height, grid_cell_side]
  split_ifs <;> omega

theorem moveSnake_manual (g : Game) (hg : GridOK g.grid_) {h : Nat} {rest : List Nat}
    (hs : g.snake_.snake_segments_ = h :: rest) (hh : h < 432) :
    g.MoveSnake none = some { g with snake_ := { g.snake_ with
      snake_segments_ := wrapNeighbour g.snake_.direction_ h :: (h :: rest).dropLast } } := by
  have hhead : (shiftSegments (h :: rest)).getD 0 0 = h := by rw [shiftSegments_cons]; rfl
  have hlt := wrapNeighbour_lt hh g.snake_.direction_
  have hlen := hg.length
  unfold Game.MoveSnake
  rw [hs]
  simp only [hhead, hg.boxAt hh, (convert_cellBox h hh).2, x_offset_eq, y_offset_eq,
    set_zero_shiftSegments]
  cases hd : g.snake_.direction_ <;> rw [hd] at hlt <;> simp only [wrapNeighbour] at hlt ⊢
  · rw [manual_index_left, if_pos ⟨by omega, by omega, by rw [hlen]; simpa using hlt⟩]
    simp
  · rw [manual_index_right, if_pos ⟨by omega, by omega, by rw [hlen]; simpa using hlt⟩]
    simp
  · rw [manual_index_up, if_pos ⟨by omega, by omega, by rw [hlen]; simpa using hlt⟩]
    simp
  · rw [manual_index_down hh, if_pos ⟨by omega, by omega, by rw [hlen]; simpa using hlt⟩]
    simp

/-- The path-step branch of `Snake::MoveSnake` for a head `h` and a grid cell
`next`: the new head is one step from `h`, decided by the sign of the column
difference first and of the row difference second. -/
theorem moveSnake_next (g : Game) (hg : GridOK g.grid_) {h : Nat} {rest : List Nat}
    (hs : g.snake_.snake_segments_ = h :: rest) (hh : h < 432) {next : Nat} (hn : next < 432) :
    ∃ dir new_head, new_head < 432 ∧
      g.MoveSnake (some next) = some { g with snake_ := { g.snake_ with
        direction_ := dir, snake_segments_ := new_head :: (h :: rest).dropLast } } ∧
      ((next % 24 < h % 24 ∧ dir = Direction.LEFT ∧ new_head + 1 = h) ∨
        (h % 24 < next % 24 ∧ dir = Direction.RIGHT ∧ new_head = h + 1) ∨
        (next % 24 = h % 24 ∧ h / 24 < next / 24 ∧ dir = Direction.DOWN ∧ new_head = h + 24) ∨
        (next % 24 = h % 24 ∧ next / 24 < h / 24 ∧ dir = Direction.UP ∧ new_head + 24 = h) ∨
        (next = h ∧ dir = g.snake_.direction_ ∧ new_head = h)) := by
  have hhead : (shiftSegments (h :: rest)).getD 0 0 = h := by rw [shiftSegments_cons]; rfl
  have hlen := hg.length
  have hr1 : h / 24 < 18 := by omega
  have hr2 : next / 24 < 18 := by omega
  unfold Game.MoveSnake
  rw [hs]
  simp only [hhead, hg.boxAt hh, hg.boxAt hn, (convert_cellBox h hh).2, x_offset_eq,
    set_zero_shiftSegments]
  simp only [cellBox]
  by_cases h1 : next % 24 < h % 24
  · refine ⟨Direction.LEFT, h - 1, by omega, ?_, Or.inl ⟨h1, rfl, by omega⟩⟩
    have c1 : ((next % 24 : Nat) : Int) * 50 - ((h % 24 : Nat) : Int) * 50 < 0 := by omega
    simp only [c1, if_true]
    rw [if_pos ⟨by omega, by rw [hlen]; omega⟩]
    have : ((h : Int) - 1).toNat = h - 1 := by omega
    rw [this]
  · by_cases h2 : h % 24 < next % 24
    · refine ⟨Direction.RIGHT, h + 1, by omega, ?_, Or.inr (Or.inl ⟨h2, rfl, rfl⟩)⟩
      have c1 : ¬ ((next % 24 : Nat) : Int) * 50 - ((h % 24 : Nat) : Int) * 50 < 0 := by omega
      have c2 : ((next % 24 : Nat) : Int) * 50 - ((h % 24 : Nat) : Int) * 50 > 0 := by omega
      simp only [c1, c2, if_true, if_false]
      rw [if_pos ⟨by omega, by rw [hlen]; omega⟩]
      have : ((h : Int) + 1).toNat = h + 1 := by omega
      rw [this]
    · have c1 : ¬ ((next % 24 : Nat) : Int) * 50 - ((h % 24 : Nat) : Int) * 50 < 0 := by omega
      have c2 : ¬ ((next % 24 : Nat) : Int) * 50 - ((h % 24 : Nat) : Int) * 50 > 0 := by omega
      by_cases h3 : h / 24 < next / 24
      · refine ⟨Direction.DOWN, h + 24, by omega, ?_,
          Or.inr (Or.inr (Or.inl ⟨by omega, h3, rfl, rfl⟩))⟩
        have c3 : ((next / 24 : Nat) : Int) * 50 - ((h / 24 : Nat) : Int) * 50 > 0 := by omega
        simp only [c1, c2, c3, if_true, if_false]
        rw [if_pos ⟨by omega, by rw [hlen]; omega⟩]
        have : ((h : Int) + 24).toNat = h + 24 := by omega
        rw [this]
      · have c3 : ¬ ((next / 24 : Nat) : Int) * 50 - ((h / 24 : Nat) : Int) * 50 > 0 := by omega
        by_cases h4 : next / 24 < h / 24
        · refine ⟨Direction.UP, h - 24, by omega, ?_,
            Or.inr (Or.inr (Or.inr (Or.inl ⟨by omega, h4, rfl, by omega⟩)))⟩
          have c4 : ((next / 24 : Nat) : Int) * 50 - ((h / 24 : Nat) : Int) * 50 < 0 := by omega
          simp only [c1, c2, c3, c4, if_true, if_false]
          rw [if_pos ⟨by omega, by rw [hlen]; omega⟩]
          have : ((h : Int) - 24).toNat = h - 24 := by omega
          rw [this]
        · refine ⟨g.snake_.direction_, h, hh, ?_,
            Or.inr (Or.inr (Or.inr (Or.inr ⟨by omega, rfl, rfl⟩)))⟩
          have c4 : ¬ ((next / 24 : Nat) : Int) * 50 - ((h / 24 : Nat) : Int) * 50 < 0 := by omega
          simp only [c1, c2, c3, c4, if_false]
          rw [if_pos ⟨by omega, by rw [hlen]; omega⟩]
          have : ((h : Int)).toNat = h := by omega
          rw [this]

/-- For a direct (bounded) neighbour `next` of the head the path step lands on
`next`. -/
theorem moveSnake_next_adj (g : Game) (hg : GridOK g.grid_) {h : Nat} {rest : List Nat}
    (hs : g.snake_.snake_segments_ = h :: rest) (hh : h < 432) {next : Nat}
    (hadj : Adj false h next) :
    ∃ dir, g.MoveSnake (some next) = some { g with snake_ := { g.snake_ with
        direction_ := dir, snake_segments_ := next :: (h :: rest).dropLast } } := by
  have hn := adj_lt hh hadj
  obtain ⟨dir, nh, _, hmove, hcase⟩ := moveSnake_next g hg hs hh hn
  have hc := adj_bounded_cases hh hadj
  have : nh = next := by omega
  subst this
  exact ⟨dir, hmove⟩

/-! ## What `Game::FindAStarPath` and `Game::SpawnFood` leave unchanged -/

theorem findAStarPath_fields {tie : List Nat → Nat} {g : Game} {start target : Nat}
    {wrapped : Bool} {r : Bool × Game}
    (h : g.FindAStarPath tie start target wrapped = some r) :
    ∃ grid path, r.2 = { g with grid_ := grid, shortest_path_cells_ := path } := by
  unfold Game.FindAStarPath at h
  simp only at h
  split at h
  · simp at h
  · split at h
    · simp at h
    · simp only [Option.some.injEq] at h
      exact ⟨_, _, by rw [← h]⟩

theorem findAStarPath_frame (tie : List Nat → Nat) (g : Game) (hg : GridOK g.grid_)
    {start target : Nat} (hs : start < 432) (ht : target < 432) (wrapped : Bool) :
    ∃ found grid path, GridOK grid ∧ g.FindAStarPath tie start target wrapped =
      some (found, { g with grid_ := grid, shortest_path_cells_ := path }) := by
  by_cases hne : start = target
  · subst hne
    exact ⟨true, _, [], gridOK_searchInit tie hg start start wrapped,
      findAStarPath_same tie g start wrapped⟩
  · obtain ⟨st, hinv, _, h3⟩ := findAStarPath_spec tie g hg hs ht hne wrapped
    rcases h3 with ⟨_, chain, _, he⟩ | ⟨_, he⟩
    · exact ⟨true, st.grid_, chain, hinv.grid_ok, he⟩
    · exact ⟨false, st.grid_, [], hinv.grid_ok, he⟩

theorem food_collision_iff (g : Game) (hg : GridOK g.grid_)
    (hsegs : ∀ s ∈ g.snake_.snake_segments_, s < 432) {d : Int × Int} (hd : DrawInRange d) :
    (g.snake_.snake_segments_.any (fun snake_segment =>
        decide ((boxAt g.grid_ snake_segment).x = snapCoordinate d.1 ∧
          (boxAt g.grid_ snake_segment).y = snapCoordinate d.2))) = true ↔
      drawCell d ∈ g.snake_.snake_segments_ := by
  obtain ⟨h1, _, h3, h4⟩ := drawCell_spec hd
  rw [List.any_eq_true]
  constructor
  · rintro ⟨s, hs, hdec⟩
    rw [decide_eq_true_eq, hg.boxAt (hsegs s hs), ← h3, ← h4] at hdec
    rw [← cellBox_injective hdec.1 hdec.2]
    exact hs
  · intro hmem
    refine ⟨drawCell d, hmem, ?_⟩
    rw [decide_eq_true_eq, hg.boxAt h1]
    exact ⟨h3, h4⟩

theorem spawnLoop_sound (g : Game) (hg : GridOK g.grid_)
    (hsegs : ∀ s ∈ g.snake_.snake_segments_, s < 432) (draws : List (Int × Int))
    (hrange : ∀ d ∈ draws, DrawInRange d) {g2 : Game} (h : g.spawnLoop draws = some g2) :
    ∃ d rest, d ∈ draws ∧ (∀ x ∈ rest, x ∈ draws) ∧ drawCell d < 432 ∧
      drawCell d ∉ g.snake_.snake_segments_ ∧
      g2 = { g with food_ := drawCell d, mt_ := rest } := by
  induction draws with
  | nil => simp [Game.spawnLoop] at h
  | cons d rest ih =>
    have hd := hrange d (List.mem_cons_self _ _)
    have hcoll := food_collision_iff g hg hsegs hd
    have hlt := (drawCell_spec hd).1
    obtain ⟨x, y⟩ := d
    unfold Game.spawnLoop at h
    simp only at h hcoll
    by_cases hmem : drawCell (x, y) ∈ g.snake_.snake_segments_
    · rw [if_pos (hcoll.mpr hmem)] at h
      obtain ⟨d', rest', h1, h2, h3, h4, h5⟩ :=
        ih (fun x hx => hrange x (List.mem_cons_of_mem _ hx)) h
      exact ⟨d', rest', List.mem_cons_of_mem _ h1, fun x hx => List.mem_cons_of_mem _ (h2 x hx),
        h3, h4, h5⟩
    · rw [if_neg (fun hc => hmem (hcoll.mp hc))] at h
      obtain ⟨_, he⟩ := ite_some_eq_some h
      exact ⟨(x, y), rest, List.mem_cons_self _ _, fun x hx => List.mem_cons_of_mem _ hx, hlt,
        hmem, he.symm⟩

/-! ## `Snake::Tick` branch by branch -/

theorem getHead_mem {g : Game} (hne : g.snake_.snake_segments_ ≠ []) :
    g.GetHead ∈ g.snake_.snake_segments_ := by
  unfold Game.GetHead
  cases hs : g.snake_.snake_segments_ with
  | nil => exact absurd hs hne
  | cons x xs => simp

theorem headHitsBody_iff (g : Game) (hg : GridOK g.grid_)
    (hsegs : ∀ s ∈ g.snake_.snake_segments_, s < 432) (hne : g.snake_.snake_segments_ ≠ []) :
    g.headHitsBody = true ↔ g.GetHead ∈ g.snake_.snake_segments_.drop 1 := by
  have hh : g.GetHead < 432 := hsegs _ (getHead_mem hne)
  unfold Game.headHitsBody
  rw [List.any_eq_true]
  constructor
  · rintro ⟨s, hs, hi⟩
    rw [hg.boxAt hh, hg.boxAt (hsegs s (List.mem_of_mem_drop hs)), hasIntersection_cell] at hi
    rw [decide_eq_true_eq] at hi
    rw [hi]; exact hs
  · intro hmem
    refine ⟨g.GetHead, hmem, ?_⟩
    rw [hg.boxAt hh, hasIntersection_cell]
    simp

/-- The state after the move in which `Snake::Tick` makes its tests. -/
theorem snakeTick_unfold (tie : List Nat → Nat) (g : Game) (next_cell : Option Nat) (g0 : Game)
    (hm : g.MoveSnake next_cell = some g0) :
    g.SnakeTick tie next_cell =
      (let g1 : Game := { g0 with snake_ := { g0.snake_ with moved_snake_ := false } }
       if SDL_HasIntersection (boxAt g1.grid_ g1.GetHead) (boxAt g1.grid_ g1.food_) then
         match g1.SpawnFood with
         | none => none
         | some g2 =>
           let g3 := (g2.IncrementScore.AddSegment).SpeedUp
           if g3.autopilot_toggle_ then
             let index := ConvertCellToGridIndex (boxAt g3.grid_ g3.food_)
             if 0 ≤ index ∧ index.toNat < g3.grid_.length then
               (g3.FindAStarPath tie g3.GetHead index.toNat g3.wrapped_shortest_path_toggle_).map
                 (fun r => r.2)
             else none
           else some g3
       else if g1.headHitsBody then some g1.GameOver
       else some g1) := by
  unfold Game.SnakeTick
  rw [hm]

theorem snakeTick_no_food (tie : List Nat → Nat) (g : Game) (next_cell : Option Nat)
    (g0 : Game) (hg : GridOK g.grid_) (hm : g.MoveSnake next_cell = some g0)
    (hvalid : ∀ s ∈ g0.snake_.snake_segments_, s < 432) (hfood : g.food_ < 432)
    (hne : g0.GetHead ≠ g.food_) :
    g.SnakeTick tie next_cell =
      some (if g0.GetHead ∈ g0.snake_.snake_segments_.drop 1 then
        Game.GameOver { g0 with snake_ := { g0.snake_ with moved_snake_ := false } }
      else { g0 with snake_ := { g0.snake_ with moved_snake_ := false } }) := by
  obtain ⟨hsne, dir, new_head, hnh, hg0⟩ := moveSnake_spec hm
  have hgrid : g0.grid_ = g.grid_ := by rw [hg0]
  have hfd : g0.food_ = g.food_ := by rw [hg0]
  have hne0 : g0.snake_.snake_segments_ ≠ [] := by
    rw [hg0]; simp only
    intro e
    have := congrArg List.length e
    rw [List.length_set, (shiftSegments_inv _).1] at this
    exact hsne (List.length_eq_zero.mp this)
  have hh : g0.GetHead < 432 := hvalid _ (getHead_mem hne0)
  rw [snakeTick_unfold tie g next_cell g0 hm]
  set g1 : Game := { g0 with snake_ := { g0.snake_ with moved_snake_ := false } } with hg1
  have hhead1 : g1.GetHead = g0.GetHead := rfl
  have hinter : SDL_HasIntersection (boxAt g1.grid_ g1.GetHead) (boxAt g1.grid_ g1.food_) =
      false := by
    show SDL_HasIntersection (boxAt g0.grid_ g0.GetHead) (boxAt g0.grid_ g0.food_) = false
    rw [hgrid, hfd, hg.boxAt hh, hg.boxAt hfood, hasIntersection_cell]
    simp [hne]
  simp only [hinter, Bool.false_eq_true, if_false]
  have hhit := headHitsBody_iff g1 (by show GridOK g0.grid_; rw [hgrid]; exact hg) hvalid hne0
  by_cases hc : g0.GetHead ∈ g0.snake_.snake_segments_.drop 1
  · rw [if_pos (hhit.mpr hc), if_pos hc]
  · rw [if_neg (fun h => hc (hhit.mp h)), if_neg hc]

theorem snakeTick_food_sound (tie : List Nat → Nat) (g : Game) (next_cell : Option Nat)
    (g0 g' : Game) (hg : GridOK g.grid_) (hm : g.MoveSnake next_cell = some g0)
    (hvalid : ∀ s ∈ g0.snake_.snake_segments_, s < 432)
    (hrange : ∀ d ∈ g.mt_, DrawInRange d) (hhead : g0.GetHead = g.food_)
    (ht : g.SnakeTick tie next_cell = some g') :
    ∃ d rest grid path, d ∈ g.mt_ ∧ (∀ x ∈ rest, x ∈ g.mt_) ∧ drawCell d < 432 ∧
      drawCell d ∉ g0.snake_.snake_segments_ ∧ GridOK grid ∧
      g' = { (Game.SpeedUp (Game.AddSegment (Game.IncrementScore
              { g0 with snake_ := { g0.snake_ with moved_snake_ := false },
                        food_ := drawCell d, mt_ := rest }))) with
              grid_ := grid, shortest_path_cells_ := path } := by
  obtain ⟨hsne, dir, new_head, hnh, hg0⟩ := moveSnake_spec hm
  have hgrid : g0.grid_ = g.grid_ := by rw [hg0]
  have hfd : g0.food_ = g.food_ := by rw [hg0]
  have hmt : g0.mt_ = g.mt_ := by rw [hg0]
  have hne0 : g0.snake_.snake_segments_ ≠ [] := by
    rw [hg0]; simp only
    intro e
    have := congrArg List.length e
    rw [List.length_set, (shiftSegments_inv _).1] at this
    exact hsne (List.length_eq_zero.mp this)
  have hh : g0.GetHead < 432 := hvalid _ (getHead_mem hne0)
  rw [snakeTick_unfold tie g next_cell g0 hm] at ht
  set g1 : Game := { g0 with snake_ := { g0.snake_ with moved_snake_ := false } } with hg1
  have hinter : SDL_HasIntersection (boxAt g1.grid_ g1.GetHead) (boxAt g1.grid_ g1.food_) =
      true := by
    show SDL_HasIntersection (boxAt g0.grid_ g0.GetHead) (boxAt g0.grid_ g0.food_) = true
    rw [hgrid, hfd, hhead, hg.boxAt (hhead ▸ hh), hasIntersection_cell]
    simp
  simp only [hinter, if_true] at ht
  cases hsp : g1.SpawnFood with
  | none => rw [hsp] at ht; simp at ht
  | some g2 =>
    rw [hsp] at ht
    simp only at ht
    unfold Game.SpawnFood at hsp
    obtain ⟨d, rest, hd1, hd2, hd3, hd4, hd5⟩ := spawnLoop_sound g1
      (by show GridOK g0.grid_; rw [hgrid]; exact hg) hvalid g1.mt_
      (by show ∀ d ∈ g0.mt_, DrawInRange d; rw [hmt]; exact hrange) hsp
    have hd1' : d ∈ g.mt_ := by rw [← hmt]; exact hd1
    have hd2' : ∀ x ∈ rest, x ∈ g.mt_ := by rw [← hmt]; exact hd2
    subst hd5
    set g3 : Game := (Game.SpeedUp (Game.AddSegment (Game.IncrementScore
      { g1 with food_ := drawCell d, mt_ := rest }))) with hg3
    have hg3grid : g3.grid_ = g.grid_ := by
      rw [hg3]; unfold Game.SpeedUp Game.AddSegment Game.IncrementScore
      simp only; split_ifs <;> exact hgrid
    have hg3food : g3.food_ = drawCell d := by
      rw [hg3]; unfold Game.SpeedUp Game.AddSegment Game.IncrementScore
      simp only; split_ifs <;> rfl
    have hg3segs : g3.snake_.snake_segments_ = g0.snake_.snake_segments_ ++
        [g0.snake_.snake_segments_.getD (g0.snake_.snake_segments_.length - 1) 0] := by
      rw [hg3]; unfold Game.SpeedUp Game.AddSegment Game.IncrementScore
      simp only; split_ifs <;> rfl
    by_cases hauto : g3.autopilot_toggle_ = true
    · rw [if_pos hauto] at ht
      have hidx : ConvertCellToGridIndex (boxAt g3.grid_ g3.food_) = (drawCell d : Int) := by
        rw [hg3grid, hg3food, hg.boxAt hd3, (convert_cellBox _ hd3).1]
      have hcond : 0 ≤ ConvertCellToGridIndex (boxAt g3.grid_ g3.food_) ∧
          (ConvertCellToGridIndex (boxAt g3.grid_ g3.food_)).toNat < g3.grid_.length := by
        rw [hidx, hg3grid, hg.length]
        exact ⟨by omega, by simpa using hd3⟩
      rw [if_pos hcond] at ht
      have hhead3 : g3.GetHead < 432 := by
        apply hvalid
        unfold Game.GetHead
        rw [hg3segs, List.getD_eq_getElem?_getD]
        have h0lt : 0 < g0.snake_.snake_segments_.length := List.length_pos.mpr hne0
        rw [List.getElem?_append_left h0lt, List.getElem?_eq_getElem h0lt]
        exact List.getElem_mem _
      have htgt : (ConvertCellToGridIndex (boxAt g3.grid_ g3.food_)).toNat < 432 := by
        rw [hidx]; simpa using hd3
      obtain ⟨found, grid, path, hgok, hfind⟩ := findAStarPath_frame tie g3 (hg3grid ▸ hg)
        hhead3 htgt g3.wrapped_shortest_path_toggle_
      rw [hfind] at ht
      simp only [Option.map_some', Option.some.injEq] at ht
      exact ⟨d, rest, grid, path, hd1', hd2', hd3, hd4, hgok, ht.symm⟩
    · rw [if_neg hauto] at ht
      simp only [Option.some.injEq] at ht
      exact ⟨d, rest, g3.grid_, g3.shortest_path_cells_, hd1', hd2', hd3, hd4,
        hg3grid ▸ hg, ht.symm⟩

/-! ## The invariant of the reachable states -/

theorem segmentsDistinct_dropLast {l : List Nat} (h : SegmentsDistinct l) :
    l.dropLast.Nodup := by
  rcases h with h | ⟨front, t, rfl, h⟩
  · exact h.sublist (List.dropLast_sublist l)
  · have : (front ++ [t, t]).dropLast = front ++ [t] := by
      rw [show front ++ [t, t] = (front ++ [t]) ++ [t] by simp, List.dropLast_concat]
    rw [this]; exact h

theorem segmentsDistinct_append_last {l : List Nat} (hne : l ≠ []) (h : l.Nodup) :
    SegmentsDistinct (l ++ [l.getD (l.length - 1) 0]) := by
  right
  obtain ⟨front, t, rfl⟩ : ∃ front t, l = front ++ [t] :=
    ⟨l.dropLast, l.getLast hne, (List.dropLast_append_getLast hne).symm⟩
  refine ⟨front, t, ?_, h⟩
  have : (front ++ [t]).getD ((front ++ [t]).length - 1) 0 = t := by
    rw [List.getD_eq_getElem?_getD]
    simp
  rw [this]
  simp

theorem mem_dropLast_of_mem {l : List Nat} {x : Nat} (h : x ∈ l.dropLast) : x ∈ l :=
  (List.dropLast_sublist l).subset h

theorem snake_handleEvent_segments (s : Snake) (e : SDL_Event) :
    (s.HandleEvent e).snake_segments_ = s.snake_segments_ := by
  unfold Snake.HandleEvent
  split_ifs <;> rfl

/-- A state that agrees with an invariant state on the grid boxes, the segments,
the food, the pending draws and `game_over_`, and whose mode flags are exclusive,
satisfies the invariant. -/
theorem GameInv.of_frame {g g' : Game} (h : GameInv g) (hgrid : GridOK g'.grid_)
    (hsegs : g'.snake_.snake_segments_ = g.snake_.snake_segments_)
    (hfood : g'.food_ = g.food_) (hmt : g'.mt_ = g.mt_)
    (hover : g'.game_over_ = g.game_over_) (hmodes : ModesExclusive g') : GameInv g' :=
  { grid_ok := hgrid
    segs_valid := by rw [hsegs]; exact h.segs_valid
    segs_ne := by rw [hsegs]; exact h.segs_ne
    food_lt := by rw [hfood]; exact h.food_lt
    food_free := by rw [hfood, hsegs]; exact h.food_free
    draws_ok := by rw [hmt]; exact h.draws_ok
    modes := hmodes
    distinct := by rw [hover, hsegs]; exact h.distinct }

theorem snake_ctor_segments : (Snake.ctor 4).snake_segments_ = [228, 227, 226, 225] := by
  decide

/-- A freshly placed snake and food: the state `SpawnFood` returns from a state
with the constructor's grid boxes and a new snake satisfies the invariant. -/
theorem gameInv_fresh {g g' : Game} (hgrid : GridOK g.grid_)
    (hsnake : g.snake_.snake_segments_ = [228, 227, 226, 225])
    (hdraws : ∀ d ∈ g.mt_, DrawInRange d) (hmodes : ModesExclusive g)
    (h : g.SpawnFood = some g') :
    GameInv g' ∧ ∃ d rest, g' = { g with food_ := drawCell d, mt_ := rest } := by
  have hvalid : ∀ s ∈ g.snake_.snake_segments_, s < 432 := by
    rw [hsnake]; decide
  unfold Game.SpawnFood at h
  obtain ⟨d, rest, _, h2, h3, h4, h5⟩ := spawnLoop_sound g hgrid hvalid g.mt_ hdraws h
  refine ⟨?_, d, rest, h5⟩
  subst h5
  exact
    { grid_ok := hgrid
      segs_valid := hvalid
      segs_ne := by show g.snake_.snake_segments_ ≠ []; rw [hsnake]; simp
      food_lt := h3
      food_free := h4
      draws_ok := fun x hx => hdraws x (h2 x hx)
      modes := hmodes
      distinct := fun _ => by
        show SegmentsDistinct g.snake_.snake_segments_
        rw [hsnake]; left; decide }

theorem gameInv_ctor {draws : List (Int × Int)} {g : Game}
    (hdraws : ∀ d ∈ draws, DrawInRange d) (h : Game.ctor draws = some g) : GameInv g := by
  unfold Game.ctor at h
  refine (gameInv_fresh ?_ ?_ ?_ ?_ h).1
  · dsimp only; exact gridOK_initGrid
  · dsimp only; exact snake_ctor_segments
  · dsimp only; exact hdraws
  · unfold ModesExclusive; simp

theorem gameInv_reset {g g' : Game} (hg : GameInv g) (hmodes : ModesExclusive g)
    (h : g.Reset = some g') : GameInv g' := by
  unfold Game.Reset at h
  refine (gameInv_fresh ?_ ?_ ?_ ?_ h).1
  · dsimp only; exact hg.grid_ok
  · dsimp only; exact snake_ctor_segments
  · dsimp only; exact hg.draws_ok
  · exact hmodes

theorem gameInv_handleEvent {g g' : Game} (e : SDL_Event) (hg : GameInv g)
    (h : g.HandleEvent e = some g') : GameInv g' := by
  unfold Game.HandleEvent at h
  simp only [Option.map_eq_some'] at h
  obtain ⟨g1, h1, h2⟩ := h
  have hm := hg.modes
  unfold ModesExclusive at hm
  suffices hsuff : GameInv g1 by
    subst h2
    exact hsuff.of_frame hsuff.grid_ok (snake_handleEvent_segments _ _) rfl rfl rfl hsuff.modes
  split_ifs at h1 with c1 c2 c3 c4 c5 c6 c7 c8
  · simp only [Option.some.injEq] at h1; subst h1
    exact hg.of_frame hg.grid_ok rfl rfl rfl rfl hg.modes
  · refine gameInv_reset (g := { g with autopilot_toggle_ := false })
      (hg.of_frame hg.grid_ok rfl rfl rfl rfl ?_) ?_ h1
    · unfold ModesExclusive; simp only; simpa using hm.2.2
    · unfold ModesExclusive; simp only; simpa using hm.2.2
  · simp only [Option.some.injEq] at h1; subst h1
    exact hg.of_frame hg.grid_ok rfl rfl rfl rfl hg.modes
  · simp only [Option.some.injEq] at h1; subst h1
    exact hg.of_frame hg.grid_ok rfl rfl rfl rfl (by unfold ModesExclusive; simp)
  · simp only [Option.some.injEq] at h1; subst h1
    exact hg.of_frame hg.grid_ok rfl rfl rfl rfl (by unfold ModesExclusive; simp)
  · simp only [Option.some.injEq] at h1; subst h1
    exact hg.of_frame hg.grid_ok rfl rfl rfl rfl (by unfold ModesExclusive; simp)
  · simp only [Option.some.injEq] at h1; subst h1
    exact hg.of_frame hg.grid_ok rfl rfl rfl rfl hg.modes
  · simp only [Option.some.injEq] at h1; subst h1
    exact hg
  · simp only [Option.some.injEq] at h1; subst h1
    exact hg

/-- The segments after `Snake::MoveSnake`: a new head on the grid in front of the
old segments without the last one. -/
theorem moveSnake_segments {g g0 : Game} {next_cell : Option Nat}
    (h : g.MoveSnake next_cell = some g0) :
    ∃ new_head, new_head < g.grid_.length ∧
      g0.snake_.snake_segments_ = new_head :: g.snake_.snake_segments_.dropLast ∧
      g0.GetHead = new_head ∧ g0.grid_ = g.grid_ ∧ g0.food_ = g.food_ ∧ g0.mt_ = g.mt_ ∧
      g0.game_over_ = g.game_over_ ∧ g0.score_ = g.score_ ∧ g0.tick_ms_ = g.tick_ms_ ∧
      g0.autopilot_toggle_ = g.autopilot_toggle_ ∧
      g0.shortest_path_toggle_ = g.shortest_path_toggle_ ∧
      g0.wrapped_shortest_path_toggle_ = g.wrapped_shortest_path_toggle_ ∧
      g0.shortest_path_cells_ = g.shortest_path_cells_ ∧ g0.paused_ = g.paused_ := by
  obtain ⟨hne, dir, new_head, hnh, hg0⟩ := moveSnake_spec h
  cases hs : g.snake_.snake_segments_ with
  | nil => exact absurd hs hne
  | cons x xs =>
    have hsegs : g0.snake_.snake_segments_ = new_head :: (x :: xs).dropLast := by
      rw [hg0]; simp only; rw [hs, set_zero_shiftSegments]
    refine ⟨new_head, hnh, hsegs, ?_, ?_, ?_, ?_, ?_, ?_, ?_, ?_, ?_, ?_, ?_, ?_⟩
    · unfold Game.GetHead; rw [hsegs]; rfl
    all_goals rw [hg0]

theorem gameInv_snakeTick {tie : List Nat → Nat} {g g' : Game} {next_cell : Option Nat}
    (hg : GameInv g) (h : g.SnakeTick tie next_cell = some g') :
    GameInv g' ∧ g'.autopilot_toggle_ = g.autopilot_toggle_ ∧
      g'.shortest_path_toggle_ = g.shortest_path_toggle_ ∧
      g'.wrapped_shortest_path_toggle_ = g.wrapped_shortest_path_toggle_ := by
  cases hm : g.MoveSnake next_cell with
  | none => unfold Game.SnakeTick at h; rw [hm] at h; simp at h
  | some g0 =>
    obtain ⟨nh, hnh, hsegs0, hhead0, hgrid0, hfood0, hmt0, hover0, _, _, ha, hs, hw, _, _⟩ :=
      moveSnake_segments hm
    rw [hg.grid_ok.length] at hnh
    have hvalid0 : ∀ s ∈ g0.snake_.snake_segments_, s < 432 := by
      intro s hs
      rw [hsegs0] at hs
      rcases List.mem_cons.mp hs with rfl | hs
      · exact hnh
      · exact hg.segs_valid s (mem_dropLast_of_mem hs)
    have hfood_tail : g.food_ ∉ g.snake_.snake_segments_.dropLast :=
      fun hc => hg.food_free (mem_dropLast_of_mem hc)
    have hmodes : ∀ g'' : Game, g''.autopilot_toggle_ = g.autopilot_toggle_ →
        g''.shortest_path_toggle_ = g.shortest_path_toggle_ →
        g''.wrapped_shortest_path_toggle_ = g.wrapped_shortest_path_toggle_ →
        ModesExclusive g'' := by
      intro g'' e1 e2 e3
      have := hg.modes
      unfold ModesExclusive at this ⊢
      rw [e1, e2, e3]; exact this
    by_cases hhf : g0.GetHead = g.food_
    · -- consumption
      obtain ⟨d, rest, grid, path, hd1, hd2, hd3, hd4, hgok, hshape⟩ :=
        snakeTick_food_sound tie g next_cell g0 g' hg.grid_ok hm hvalid0 hg.draws_ok hhf h
      have hne0 : g0.snake_.snake_segments_ ≠ [] := by rw [hsegs0]; simp
      have hsegs' : g'.snake_.snake_segments_ = g0.snake_.snake_segments_ ++
          [g0.snake_.snake_segments_.getD (g0.snake_.snake_segments_.length - 1) 0] := by
        rw [hshape]; unfold Game.SpeedUp Game.AddSegment Game.IncrementScore
        simp only; split_ifs <;> rfl
      have hfood' : g'.food_ = drawCell d := by
        rw [hshape]; unfold Game.SpeedUp Game.AddSegment Game.IncrementScore
        simp only; split_ifs <;> rfl
      have hmt' : g'.mt_ = rest := by
        rw [hshape]; unfold Game.SpeedUp Game.AddSegment Game.IncrementScore
        simp only; split_ifs <;> rfl
      have hover' : g'.game_over_ = g.game_over_ := by
        rw [hshape]; unfold Game.SpeedUp Game.AddSegment Game.IncrementScore
        simp only; split_ifs <;> exact hover0
      have hgrid' : g'.grid_ = grid := by rw [hshape]
      have ha' : g'.autopilot_toggle_ = g.autopilot_toggle_ := by
        rw [hshape]; unfold Game.SpeedUp Game.AddSegment Game.IncrementScore
        simp only; split_ifs <;> exact ha
      have hs' : g'.shortest_path_toggle_ = g.shortest_path_toggle_ := by
        rw [hshape]; unfold Game.SpeedUp Game.AddSegment Game.IncrementScore
        simp only; split_ifs <;> exact hs
      have hw' : g'.wrapped_shortest_path_toggle_ = g.wrapped_shortest_path_toggle_ := by
        rw [hshape]; unfold Game.SpeedUp Game.AddSegment Game.IncrementScore
        simp only; split_ifs <;> exact hw
      have hlastmem : g0.snake_.snake_segments_.getD (g0.snake_.snake_segments_.length - 1) 0 ∈
          g0.snake_.snake_segments_ := by
        have hlt : g0.snake_.snake_segments_.length - 1 < g0.snake_.snake_segments_.length := by
          have := List.length_pos.mpr hne0
          omega
        rw [List.getD_eq_getElem?_getD, List.getElem?_eq_getElem hlt]
        exact List.getElem_mem _
      refine ⟨?_, ha', hs', hw'⟩
      exact
        { grid_ok := by rw [hgrid']; exact hgok
          segs_valid := by
            rw [hsegs']
            intro s hs
            rcases List.mem_append.mp hs with hs | hs
            · exact hvalid0 s hs
            · rw [List.mem_singleton] at hs; rw [hs]; exact hvalid0 _ hlastmem
          segs_ne := by rw [hsegs']; simp
          food_lt := by rw [hfood']; exact hd3
          food_free := by
            rw [hfood', hsegs']
            intro hc
            rcases List.mem_append.mp hc with hc | hc
            · exact hd4 hc
            · rw [List.mem_singleton] at hc; exact hd4 (hc ▸ hlastmem)
          draws_ok := by rw [hmt']; exact fun x hx => hg.draws_ok x (hd2 x hx)
          modes := hmodes g' ha' hs' hw'
          distinct := by
            rw [hover', hsegs']
            intro hov
            apply segmentsDistinct_append_last hne0
            rw [hsegs0, List.nodup_cons]
            refine ⟨?_, segmentsDistinct_dropLast (hg.distinct hov)⟩
            rw [← hhead0, hhf]; exact hfood_tail }
    · -- no consumption
      have hres := snakeTick_no_food tie g next_cell g0 hg.grid_ok hm hvalid0 hg.food_lt hhf
      rw [hres] at h
      simp only [Option.some.injEq] at h
      have hfree0 : g.food_ ∉ g0.snake_.snake_segments_ := by
        rw [hsegs0]
        intro hc
        rcases List.mem_cons.mp hc with hc | hc
        · exact hhf (by rw [hhead0, hc])
        · exact hfood_tail hc
      by_cases hc : g0.GetHead ∈ g0.snake_.snake_segments_.drop 1
      · rw [if_pos hc] at h
        subst h
        refine ⟨?_, ha, hs, hw⟩
        exact
          { grid_ok := by show GridOK g0.grid_; rw [hgrid0]; exact hg.grid_ok
            segs_valid := hvalid0
            segs_ne := by show g0.snake_.snake_segments_ ≠ []; rw [hsegs0]; simp
            food_lt := by show g0.food_ < 432; rw [hfood0]; exact hg.food_lt
            food_free := by
              show g0.food_ ∉ g0.snake_.snake_segments_; rw [hfood0]; exact hfree0
            draws_ok := by show ∀ d ∈ g0.mt_, DrawInRange d; rw [hmt0]; exact hg.draws_ok
            modes := hmodes _ ha hs hw
            distinct := fun hov => by simp [Game.GameOver] at hov }
      · rw [if_neg hc] at h
        subst h
        refine ⟨?_, ha, hs, hw⟩
        exact
          { grid_ok := by show GridOK g0.grid_; rw [hgrid0]; exact hg.grid_ok
            segs_valid := hvalid0
            segs_ne := by show g0.snake_.snake_segments_ ≠ []; rw [hsegs0]; simp
            food_lt := by show g0.food_ < 432; rw [hfood0]; exact hg.food_lt
            food_free := by
              show g0.food_ ∉ g0.snake_.snake_segments_; rw [hfood0]; exact hfree0
            draws_ok := by show ∀ d ∈ g0.mt_, DrawInRange d; rw [hmt0]; exact hg.draws_ok
            modes := hmodes _ ha hs hw
            distinct := fun hov => by
              change g0.game_over_ = false at hov
              show SegmentsDistinct g0.snake_.snake_segments_
              rw [hover0] at hov
              left
              rw [hsegs0, List.nodup_cons]
              refine ⟨?_, segmentsDistinct_dropLast (hg.distinct hov)⟩
              rw [hsegs0, hhead0] at hc
              simpa using hc }

theorem gameInv_tick {tie : List Nat → Nat} {g g' : Game} {current_ms : Int}
    (hg : GameInv g) (h : g.Tick tie current_ms = some g') : GameInv g' := by
  unfold Game.Tick at h
  split_ifs at h with hguard
  · simp only at h
    -- the state handed to `Snake::Tick`
    have hpop : ∀ (p : Option Nat × Game),
        p = (if g.autopilot_toggle_ = true ∧ g.shortest_path_cells_ ≠ [] then
          (g.shortest_path_cells_.getLast?,
            { g with last_ms_ := current_ms,
                     shortest_path_cells_ := g.shortest_path_cells_.dropLast })
          else (none, { g with last_ms_ := current_ms })) →
        GameInv p.2 := by
      intro p hp
      split_ifs at hp <;> subst hp <;>
        exact hg.of_frame hg.grid_ok rfl rfl rfl rfl hg.modes
    have hinv1 := hpop _ rfl
    split at h
    · simp at h
    · rename_i g2 hst
      obtain ⟨hinv2, _, _, _⟩ := gameInv_snakeTick hinv1 hst
      split_ifs at h with hsearch hidx
      · have hhead : g2.GetHead < 432 := hinv2.segs_valid _ (getHead_mem hinv2.segs_ne)
        have htgt : (ConvertCellToGridIndex (boxAt g2.grid_ g2.food_)).toNat < 432 := by
          rw [hinv2.grid_ok.boxAt hinv2.food_lt, (convert_cellBox _ hinv2.food_lt).1]
          simpa using hinv2.food_lt
        obtain ⟨found, grid, path, hgok, hfind⟩ := findAStarPath_frame tie g2 hinv2.grid_ok
          hhead htgt g2.wrapped_shortest_path_toggle_
        rw [hfind] at h
        simp only [Option.map_some', Option.some.injEq] at h
        subst h
        exact hinv2.of_frame hgok rfl rfl rfl rfl hinv2.modes
      · simp only [Option.some.injEq] at h
        subst h
        exact hinv2
  · simp only [Option.some.injEq] at h
    subst h
    exact hg

/-- Every reachable state satisfies the invariant. -/
theorem reachable_inv {g : Game} (h : Reachable g) : GameInv g := by
  induction h with
  | ctor draws g hd hc => exact gameInv_ctor hd hc
  | event g e g' _ he ih => exact gameInv_handleEvent e ih he
  | tick tie g ms g' _ ht ih => exact gameInv_tick ih ht

/-! ## Sessions stay within the reachable states -/

theorem reachable_play {tie : List Nat → Nat} (steps : List LoopStep) :
    ∀ {g g' : Game}, Reachable g → g.play tie steps = some g' → Reachable g' := by
  induction steps with
  | nil =>
    intro g g' h hp
    unfold Game.play at hp
    simp only [Option.some.injEq] at hp
    subst hp; exact h
  | cons step steps ih =>
    intro g g' h hp
    unfold Game.play at hp
    cases hs : g.loopStep tie step with
    | none => rw [hs] at hp; simp at hp
    | some g1 =>
      rw [hs] at hp
      have h1 : Reachable g1 := by
        cases step with
        | event e => exact Reachable.event g e g1 h hs
        | tick ms => exact Reachable.tick tie g ms g1 h hs
      exact ih h1 hp

theorem reachable_session {draws : List (Int × Int)} {steps : List LoopStep} {g : Game}
    (hd : ∀ d ∈ draws, DrawInRange d) (h : Game.session draws steps = some g) :
    Reachable g := by
  unfold Game.session at h
  cases hc : Game.ctor draws with
  | none => rw [hc] at h; simp at h
  | some g0 =>
    rw [hc] at h
    exact reachable_play steps (Reachable.ctor draws g0 hd hc) h

/-! ## `Snake::HandleEvent` -/

theorem snake_handleEvent_latched (s : Snake) (e : SDL_Event) (h : s.moved_snake_ = true) :
    s.HandleEvent e = s := by
  unfold Snake.HandleEvent
  rw [if_neg]
  rintro ⟨h1, _⟩
  rw [h] at h1
  exact Bool.noConfusion h1

theorem snake_handleEvent_ignored (s : Snake) (e : SDL_Event)
    (h : e.type_ ≠ SDL_EventType.SDL_KEYDOWN ∨ e.repeat_ ≠ 0) : s.HandleEvent e = s := by
  unfold Snake.HandleEvent
  rw [if_neg]
  rintro ⟨_, h2, h3⟩
  rcases h with h | h
  · exact h h2
  · exact h h3

theorem snake_handleEvent_latch (s : Snake) (e : SDL_Event)
    (h1 : e.type_ = SDL_EventType.SDL_KEYDOWN) (h2 : e.repeat_ = 0) :
    (s.HandleEvent e).moved_snake_ = true := by
  unfold Snake.HandleEvent
  by_cases hm : s.moved_snake_ = false
  · rw [if_pos ⟨hm, h1, h2⟩]
  · rw [if_neg (fun h => hm h.1)]
    simpa using hm

theorem snake_handleEvent_cases (s : Snake) (e : SDL_Event) :
    s.HandleEvent e = s ∨ (s.HandleEvent e).moved_snake_ = true := by
  by_cases h : s.moved_snake_ = false ∧ e.type_ = SDL_EventType.SDL_KEYDOWN ∧ e.repeat_ = 0
  · exact Or.inr (snake_handleEvent_latch s e h.2.1 h.2.2)
  · left
    unfold Snake.HandleEvent
    rw [if_neg h]

theorem snake_handleEvent_no_reverse (s : Snake) (e : SDL_Event) :
    (s.HandleEvent e).direction_ ≠ s.direction_.opposite := by
  obtain ⟨d, segs, m⟩ := s
  obtain ⟨t, k, r⟩ := e
  unfold Snake.HandleEvent
  by_cases hc : m = false ∧ t = SDL_EventType.SDL_KEYDOWN ∧ r = 0
  · rw [if_pos hc]
    cases k <;> cases d <;> simp [Direction.opposite]
  · rw [if_neg hc]
    cases d <;> simp [Direction.opposite]

theorem snake_handleEvent_arrow (s : Snake) (e : SDL_Event) (d : Direction)
    (hm : s.moved_snake_ = false) (h1 : e.type_ = SDL_EventType.SDL_KEYDOWN)
    (h2 : e.repeat_ = 0) (hk : keyDirection e.sym = some d) (ho : d ≠ s.direction_.opposite) :
    (s.HandleEvent e).direction_ = d := by
  obtain ⟨d0, segs, m⟩ := s
  obtain ⟨t, k, r⟩ := e
  unfold Snake.HandleEvent
  rw [if_pos ⟨hm, h1, h2⟩]
  cases k <;> simp only [keyDirection, Option.some.injEq] at hk <;>
    first
    | exact absurd hk (by simp)
    | (subst hk; cases d0 <;> simp [Direction.opposite] at ho ⊢)

theorem snake_handleEvent_keeps (s : Snake) (e : SDL_Event)
    (h : s.moved_snake_ = true ∨ e.type_ ≠ SDL_EventType.SDL_KEYDOWN ∨ e.repeat_ ≠ 0 ∨
      keyDirection e.sym = none ∨ keyDirection e.sym = some s.direction_.opposite) :
    (s.HandleEvent e).direction_ = s.direction_ := by
  rcases h with h | h | h | h | h
  · rw [snake_handleEvent_latched s e h]
  · rw [snake_handleEvent_ignored s e (Or.inl h)]
  · rw [snake_handleEvent_ignored s e (Or.inr h)]
  · obtain ⟨d0, segs, m⟩ := s
    obtain ⟨t, k, r⟩ := e
    unfold Snake.HandleEvent
    by_cases hc : m = false ∧ t = SDL_EventType.SDL_KEYDOWN ∧ r = 0
    · rw [if_pos hc]
      cases k <;> simp [keyDirection] at h <;> rfl
    · rw [if_neg hc]
  · obtain ⟨d0, segs, m⟩ := s
    obtain ⟨t, k, r⟩ := e
    unfold Snake.HandleEvent
    by_cases hc : m = false ∧ t = SDL_EventType.SDL_KEYDOWN ∧ r = 0
    · rw [if_pos hc]
      cases k <;> cases d0 <;> simp [keyDirection, Direction.opposite] at h ⊢
    · rw [if_neg hc]

theorem snake_events_latched (events : List SDL_Event) (s : Snake)
    (h : s.moved_snake_ = true) : events.foldl Snake.HandleEvent s = s := by
  induction events with
  | nil => rfl
  | cons e rest ih => rw [List.foldl_cons, snake_handleEvent_latched s e h, ih]

/-- A list of events has the effect of none or of one of its events. -/
theorem snake_events_cases (events : List SDL_Event) (s : Snake) :
    events.foldl Snake.HandleEvent s = s ∨
      ∃ e, e ∈ events ∧ events.foldl Snake.HandleEvent s = s.HandleEvent e ∧
        (s.HandleEvent e).moved_snake_ = true := by
  induction events with
  | nil => left; rfl
  | cons e rest ih =>
    rw [List.foldl_cons]
    rcases snake_handleEvent_cases s e with h | h
    · rw [h]
      rcases ih with ih | ⟨e1, he1, ih, hl⟩
      · exact Or.inl ih
      · exact Or.inr ⟨e1, List.mem_cons_of_mem _ he1, ih, hl⟩
    · right
      exact ⟨e, List.mem_cons_self _ _, snake_events_latched rest _ h, h⟩

theorem snake_events_no_reverse (events : List SDL_Event) (s : Snake) :
    (events.foldl Snake.HandleEvent s).direction_ ≠ s.direction_.opposite := by
  rcases snake_events_cases events s with h | ⟨e, _, h, _⟩
  · rw [h]; cases s.direction_ <;> simp [Direction.opposite]
  · rw [h]; exact snake_handleEvent_no_reverse s e

theorem snake_events_once (pre post : List SDL_Event) (s : Snake)
    (h : (pre.foldl Snake.HandleEvent s).direction_ ≠ s.direction_) :
    (pre ++ post).foldl Snake.HandleEvent s = pre.foldl Snake.HandleEvent s := by
  rw [List.foldl_append]
  rcases snake_events_cases pre s with h1 | ⟨e, _, h1, hl⟩
  · rw [h1] at h; exact absurd rfl h
  · rw [h1]; exact snake_events_latched post _ hl

theorem snake_events_segments (events : List SDL_Event) (s : Snake) :
    (events.foldl Snake.HandleEvent s).snake_segments_ = s.snake_segments_ := by
  rcases snake_events_cases events s with h | ⟨e, _, h, _⟩
  · rw [h]
  · rw [h]; exact snake_handleEvent_segments s e

/-! ## What `Snake::Tick` does to the snake object -/

theorem spawnLoop_fields (g : Game) : ∀ (draws : List (Int × Int)) {g2 : Game},
    g.spawnLoop draws = some g2 → ∃ f m, g2 = { g with food_ := f, mt_ := m } := by
  intro draws
  induction draws with
  | nil => intro g2 h; unfold Game.spawnLoop at h; simp at h
  | cons d rest ih =>
    intro g2 h
    obtain ⟨x, y⟩ := d
    unfold Game.spawnLoop at h
    simp only at h
    split_ifs at h with c1 c2
    · exact ih h
    · simp only [Option.some.injEq] at h
      exact ⟨_, _, h.symm⟩

/-- The part of `Snake::Tick` after the move keeps the heading and the latch; the
segments stay, or get a copy of the last one appended when the food was eaten. -/
theorem snakeTick_tail (tie : List Nat → Nat) (g1 g' : Game)
    (ht : (if SDL_HasIntersection (boxAt g1.grid_ g1.GetHead) (boxAt g1.grid_ g1.food_) then
         match g1.SpawnFood with
         | none => none
         | some g2 =>
           let g3 := (g2.IncrementScore.AddSegment).SpeedUp
           if g3.autopilot_toggle_ then
             let index := ConvertCellToGridIndex (boxAt g3.grid_ g3.food_)
             if 0 ≤ index ∧ index.toNat < g3.grid_.length then
               (g3.FindAStarPath tie g3.GetHead index.toNat g3.wrapped_shortest_path_toggle_).map
                 (fun r => r.2)
             else none
           else some g3
       else if g1.headHitsBody then some g1.GameOver
       else some g1) = some g') :
    g'.snake_.moved_snake_ = g1.snake_.moved_snake_ ∧
      g'.snake_.direction_ = g1.snake_.direction_ ∧
      (g'.snake_.snake_segments_ = g1.snake_.snake_segments_ ∨
        g'.snake_.snake_segments_ = g1.snake_.snake_segments_ ++
          [g1.snake_.snake_segments_.getD (g1.snake_.snake_segments_.length - 1) 0]) := by
  by_cases c1 : SDL_HasIntersection (boxAt g1.grid_ g1.GetHead) (boxAt g1.grid_ g1.food_) = true
  · rw [if_pos c1] at ht
    cases hsp : g1.SpawnFood with
    | none => rw [hsp] at ht; simp at ht
    | some g2 =>
      rw [hsp] at ht
      simp only at ht
      unfold Game.SpawnFood at hsp
      obtain ⟨f, m, hg2⟩ := spawnLoop_fields _ _ hsp
      have hshape : ∀ g3 : Game, g3 = (g2.IncrementScore.AddSegment).SpeedUp →
          g3.snake_.moved_snake_ = g1.snake_.moved_snake_ ∧
          g3.snake_.direction_ = g1.snake_.direction_ ∧
          g3.snake_.snake_segments_ = g1.snake_.snake_segments_ ++
            [g1.snake_.snake_segments_.getD (g1.snake_.snake_segments_.length - 1) 0] := by
        intro g3 h3
        rw [h3, hg2]
        unfold Game.SpeedUp Game.AddSegment Game.IncrementScore
        simp only
        split_ifs <;> exact ⟨rfl, rfl, rfl⟩
      obtain ⟨e1, e2, e3⟩ := hshape _ rfl
      by_cases c3 : ((g2.IncrementScore.AddSegment).SpeedUp).autopilot_toggle_ = true
      · rw [if_pos c3] at ht
        by_cases c4 : 0 ≤ ConvertCellToGridIndex
              (boxAt ((g2.IncrementScore.AddSegment).SpeedUp).grid_
                ((g2.IncrementScore.AddSegment).SpeedUp).food_) ∧
            (ConvertCellToGridIndex
              (boxAt ((g2.IncrementScore.AddSegment).SpeedUp).grid_
                ((g2.IncrementScore.AddSegment).SpeedUp).food_)).toNat <
              ((g2.IncrementScore.AddSegment).SpeedUp).grid_.length
        · rw [if_pos c4] at ht
          simp only [Option.map_eq_some'] at ht
          obtain ⟨r, hr, hr2⟩ := ht
          obtain ⟨grid, path, hf⟩ := findAStarPath_fields hr
          rw [← hr2, hf]
          exact ⟨e1, e2, Or.inr e3⟩
        · rw [if_neg c4] at ht
          simp at ht
      · rw [if_neg c3] at ht
        simp only [Option.some.injEq] at ht
        rw [← ht]
        exact ⟨e1, e2, Or.inr e3⟩
  · rw [if_neg c1] at ht
    by_cases c2 : g1.headHitsBody = true
    · rw [if_pos c2] at ht
      simp only [Option.some.injEq] at ht
      rw [← ht]
      exact ⟨rfl, rfl, Or.inl rfl⟩
    · rw [if_neg c2] at ht
      simp only [Option.some.injEq] at ht
      rw [← ht]
      exact ⟨rfl, rfl, Or.inl rfl⟩

/-- After `Snake::Tick` the latch is clear; the heading is the one the move left,
and the segments are those the move left, with a copy of the last one appended
when the food was eaten. -/
theorem snakeTick_snake {tie : List Nat → Nat} {g g0 g' : Game} {next_cell : Option Nat}
    (hm : g.MoveSnake next_cell = some g0) (ht : g.SnakeTick tie next_cell = some g') :
    g'.snake_.moved_snake_ = false ∧ g'.snake_.direction_ = g0.snake_.direction_ ∧
      (g'.snake_.snake_segments_ = g0.snake_.snake_segments_ ∨
        g'.snake_.snake_segments_ = g0.snake_.snake_segments_ ++
          [g0.snake_.snake_segments_.getD (g0.snake_.snake_segments_.length - 1) 0]) := by
  rw [snakeTick_unfold tie g next_cell g0 hm] at ht
  exact snakeTick_tail tie
    { g0 with snake_ := { g0.snake_ with moved_snake_ := false } } g' ht

theorem snakeTick_latch {tie : List Nat → Nat} {g g' : Game} {next_cell : Option Nat}
    (ht : g.SnakeTick tie next_cell = some g') : g'.snake_.moved_snake_ = false := by
  cases hm : g.MoveSnake next_cell with
  | none => unfold Game.SnakeTick at ht; rw [hm] at ht; simp at ht
  | some g0 => exact (snakeTick_snake hm ht).1

/-! ## Geometry of two consecutive moves -/

theorem wrapNeighbour_back {h : Nat} (hh : h < 432) (d d' : Direction)
    (hback : wrapNeighbour d' (wrapNeighbour d h) = h) : d' = d.opposite := by
  cases d <;> cases d' <;> simp only [wrapNeighbour, Direction.opposite] at hback ⊢ <;>
    first
    | rfl
    | (exfalso
       simp only [nbLeft, nbRight, nbTop, nbBottom] at hback
       split_ifs at hback <;> omega)

theorem wrapNeighbour_formula {h : Nat} (hh : h < 432) (d : Direction) :
    (d = Direction.LEFT → wrapNeighbour d h % 24 = (h % 24 + 23) % 24 ∧
        wrapNeighbour d h / 24 = h / 24) ∧
      (d = Direction.RIGHT → wrapNeighbour d h % 24 = (h % 24 + 1) % 24 ∧
        wrapNeighbour d h / 24 = h / 24) ∧
      (d = Direction.UP → wrapNeighbour d h % 24 = h % 24 ∧
        wrapNeighbour d h / 24 = (h / 24 + 17) % 18) ∧
      (d = Direction.DOWN → wrapNeighbour d h % 24 = h % 24 ∧
        wrapNeighbour d h / 24 = (h / 24 + 1) % 18) := by
  refine ⟨?_, ?_, ?_, ?_⟩ <;> intro hd <;> subst hd <;> simp only [wrapNeighbour]
  · unfold nbLeft; split_ifs <;> omega
  · unfold nbRight; split_ifs <;> omega
  · unfold nbTop; split_ifs <;> omega
  · unfold nbBottom; split_ifs <;> omega

theorem wrapNeighbour_slot {h : Nat} (hh : h < 432) (d : Direction) :
    (GetNeighboursIndices (cellBox h) true)[neighbourSlot d]? =
      some (wrapNeighbour d h : Int) := by
  rw [neighbours_wrapped h hh]
  cases d <;> rfl

/-- The body after a move: entry `i ≥ 1` is the former entry `i - 1`. -/
theorem moved_getElem? (new_head : Nat) (l : List Nat) (i : Nat) (h1 : 1 ≤ i)
    (h2 : i < l.length) : (new_head :: l.dropLast)[i]? = l[i - 1]? := by
  obtain ⟨j, rfl⟩ : ∃ j, i = j + 1 := ⟨i - 1, by omega⟩
  rw [List.getElem?_cons_succ, List.getElem?_dropLast, if_pos (by omega)]
  rfl

theorem mem_drop_one_iff (l : List Nat) (x : Nat) :
    x ∈ l.drop 1 ↔ ∃ i, 1 ≤ i ∧ l[i]? = some x := by
  cases l with
  | nil => simp
  | cons a t =>
    rw [List.drop_succ_cons, List.drop_zero, List.mem_iff_getElem?]
    constructor
    · rintro ⟨i, hi⟩
      exact ⟨i + 1, by omega, by rw [List.getElem?_cons_succ]; exact hi⟩
    · rintro ⟨i, h1, hi⟩
      obtain ⟨j, rfl⟩ : ∃ j, i = j + 1 := ⟨i - 1, by omega⟩
      rw [List.getElem?_cons_succ] at hi
      exact ⟨j, hi⟩

/-! ## C11: self-collision detection -/

/-- C11 (self-collision detection): let `new_head` and `moved_segments` be the head
cell and the segment list after `Snake::MoveSnake`. If the head is not on the food
cell, `Snake::Tick` returns, and whenever it returns: if the head is not on the
food cell and is the same cell as some `moved_segments[i]` with `i ≥ 1`, then
`game_over_` is true afterwards; in every other case `game_over_` keeps its
value. -/
theorem C11_self_collision_detection (tie : List Nat → Nat) (g : Game)
    (next_cell : Option Nat) (new_head : Nat) (moved_segments : List Nat)
    (hg : GridOK g.grid_) (hsegs : ∀ s ∈ g.snake_.snake_segments_, s < 432)
    (hfood : g.food_ < 432) (hrange : ∀ d ∈ g.mt_, DrawInRange d)
    (hmove : (g.MoveSnake next_cell).map
      (fun g0 => (g0.GetHead, g0.snake_.snake_segments_)) = some (new_head, moved_segments)) :
    (new_head ≠ g.food_ → ∃ g', g.SnakeTick tie next_cell = some g') ∧
      ∀ g', g.SnakeTick tie next_cell = some g' →
        ((new_head ≠ g.food_ ∧ ∃ i, 1 ≤ i ∧ moved_segments[i]? = some new_head) →
          g'.game_over_ = true) ∧
        (¬ (new_head ≠ g.food_ ∧ ∃ i, 1 ≤ i ∧ moved_segments[i]? = some new_head) →
          g'.game_over_ = g.game_over_) := by
  cases hm : g.MoveSnake next_cell with
  | none => rw [hm] at hmove; simp at hmove
  | some g0 =>
    rw [hm] at hmove
    simp only [Option.map_some', Option.some.injEq, Prod.mk.injEq] at hmove
    obtain ⟨hhead, hms⟩ := hmove
    obtain ⟨nh, hnh, hsegs0, _, _, _, _, hover0, _⟩ := moveSnake_segments hm
    rw [hg.length] at hnh
    have hvalid0 : ∀ s ∈ g0.snake_.snake_segments_, s < 432 := by
      intro s hs
      rw [hsegs0] at hs
      rcases List.mem_cons.mp hs with rfl | hs
      · exact hnh
      · exact hsegs s (mem_dropLast_of_mem hs)
    have hcoll : (∃ i, 1 ≤ i ∧ moved_segments[i]? = some new_head) ↔
        g0.GetHead ∈ g0.snake_.snake_segments_.drop 1 := by
      rw [mem_drop_one_iff, hhead, hms]
    by_cases hhf : new_head = g.food_
    · refine ⟨fun hne => absurd hhf hne, ?_⟩
      intro g' ht
      refine ⟨fun hc => absurd hhf hc.1, fun _ => ?_⟩
      obtain ⟨d, rest, grid, path, _, _, _, _, _, hshape⟩ :=
        snakeTick_food_sound tie g next_cell g0 g' hg hm hvalid0 hrange (hhead.trans hhf) ht
      rw [hshape]
      unfold Game.SpeedUp Game.AddSegment Game.IncrementScore
      simp only
      split_ifs <;> exact hover0
    · have hres := snakeTick_no_food tie g next_cell g0 hg hm hvalid0 hfood
        (by rw [hhead]; exact hhf)
      refine ⟨fun _ => ⟨_, hres⟩, ?_⟩
      intro g' ht
      rw [hres] at ht
      simp only [Option.some.injEq] at ht
      constructor
      · rintro ⟨_, hc⟩
        rw [if_pos (hcoll.mp hc)] at ht
        rw [← ht]; rfl
      · intro hn
        have hnc : ¬ g0.GetHead ∈ g0.snake_.snake_segments_.drop 1 :=
          fun hc => hn ⟨hhf, hcoll.mpr hc⟩
        rw [if_neg hnc] at ht
        rw [← ht]; exact hover0

set_option maxRecDepth 1000000 in
/-- C11 on a snake of five segments whose head at cell 205 moves right onto cell
206, which is also its fourth segment after the move: the tick returns with
`game_over_` set. -/
theorem C11_self_collision_detection_witness :
    ∃ g', (Game.sample [205, 229, 230, 206, 207] 0 []).SnakeTick tieFirst none = some g' ∧
      g'.game_over_ = true := by
  have h := C11_self_collision_detection tieFirst (Game.sample [205, 229, 230, 206, 207] 0 [])
    none 206 [206, 205, 229, 230, 206] gridOK_initGrid (by decide) (by decide) (by decide)
    (by decide)
  obtain ⟨g', hg'⟩ := h.1 (by decide)
  exact ⟨g', hg', ((h.2 g' hg').1 ⟨by decide, 4, by decide, by decide⟩)⟩

/-! ## C13: the manual advance -/

/-- C13 (manual advance): for every snake whose segments are grid cells, with head
`h` and heading `d`, `Snake::MoveSnake(nullptr)` returns (so its assertion
`0 <= new_head_index < 432` holds), keeps the segment count and the heading, sets
`segments'[i] = segments[i-1]` for every `i ≥ 1`, and sets the new head to the
wrap-around neighbour of `h` in direction `d`: column `-1/+1` modulo 24 in the
same row for LEFT/RIGHT, row `-1/+1` modulo 18 in the same column for UP/DOWN,
which is the entry for `d` of `GetNeighboursIndices(true)` of the old head. -/
theorem C13_manual_advance (g : Game) (h : Nat) (rest : List Nat) (hg : GridOK g.grid_)
    (hs : g.snake_.snake_segments_ = h :: rest)
    (hvalid : ∀ s ∈ g.snake_.snake_segments_, s < 432) :
    ∃ g' new_head, g.MoveSnake none = some g' ∧
      g'.snake_.snake_segments_.length = g.snake_.snake_segments_.length ∧
      (∀ i, 1 ≤ i → i < g.snake_.snake_segments_.length →
        g'.snake_.snake_segments_[i]? = g.snake_.snake_segments_[i - 1]?) ∧
      g'.snake_.snake_segments_[0]? = some new_head ∧
      g'.snake_.direction_ = g.snake_.direction_ ∧
      new_head = wrapNeighbour g.snake_.direction_ h ∧
      (g.snake_.direction_ = Direction.LEFT →
        new_head % 24 = (h % 24 + 23) % 24 ∧ new_head / 24 = h / 24) ∧
      (g.snake_.direction_ = Direction.RIGHT →
        new_head % 24 = (h % 24 + 1) % 24 ∧ new_head / 24 = h / 24) ∧
      (g.snake_.direction_ = Direction.UP →
        new_head % 24 = h % 24 ∧ new_head / 24 = (h / 24 + 17) % 18) ∧
      (g.snake_.direction_ = Direction.DOWN →
        new_head % 24 = h % 24 ∧ new_head / 24 = (h / 24 + 1) % 18) ∧
      (GetNeighboursIndices (boxAt g.grid_ h) true)[neighbourSlot g.snake_.direction_]? =
        some (new_head : Int) ∧
      0 ≤ (new_head : Int) ∧ new_head < 432 := by
  have hh : h < 432 := hvalid h (by rw [hs]; exact List.mem_cons_self _ _)
  obtain ⟨f1, f2, f3, f4⟩ := wrapNeighbour_formula hh g.snake_.direction_
  refine ⟨_, wrapNeighbour g.snake_.direction_ h, moveSnake_manual g hg hs hh, ?_, ?_, ?_, rfl,
    rfl, f1, f2, f3, f4, ?_, Int.natCast_nonneg _, wrapNeighbour_lt hh _⟩
  · show (wrapNeighbour g.snake_.direction_ h :: (h :: rest).dropLast).length = _
    rw [hs, List.length_cons, List.length_dropLast, List.length_cons]
    rfl
  · intro i h1 h2
    show (wrapNeighbour g.snake_.direction_ h :: (h :: rest).dropLast)[i]? = _
    rw [hs] at h2 ⊢
    exact moved_getElem? _ _ i h1 h2
  · show (wrapNeighbour g.snake_.direction_ h :: (h :: rest).dropLast)[0]? = _
    exact List.getElem?_cons_zero
  · rw [hg.boxAt hh]
    exact wrapNeighbour_slot hh _

set_option maxRecDepth 1000000 in
/-- C13 on a snake with its head on cell 23 (first row, last column) heading
right: the new head is cell 0 and the body follows. -/
theorem C13_manual_advance_witness :
    ∃ (g' : Game) (new_head : Nat),
      (Game.sample [23, 22, 21, 20] 100 []).MoveSnake none = some g' ∧
      g'.snake_.snake_segments_.length = 4 ∧
      g'.snake_.snake_segments_ = [0, 23, 22, 21] ∧
      new_head = 0 ∧
      (GetNeighboursIndices (boxAt initGrid 23) true)[1]? = some (new_head : Int) := by
  obtain ⟨g', new_head, h1, h2, h3, h4, _, h6, _, _, _, _, h11, _, _⟩ :=
      C13_manual_advance (Game.sample [23, 22, 21, 20] 100 []) 23 [22, 21, 20]
        gridOK_initGrid rfl (by decide)
  have e : (Game.sample [23, 22, 21, 20] 100 []).MoveSnake none =
      some (Game.sample [0, 23, 22, 21] 100 []) := by decide
  have hnh : new_head = 0 := by rw [h6]; decide
  refine ⟨g', new_head, h1, h2, ?_, hnh, ?_⟩
  · rw [e] at h1
    simp only [Option.some.injEq] at h1
    rw [← h1]
  · exact h11

/-! ## C14: the path step -/

set_option maxRecDepth 1000000 in
/-- C14, counterexample: cell 47 is the wrap-around left neighbour of cell 24
(an entry of `GetNeighboursIndices(true)` of cell 24), but
`Snake::MoveSnake(&grid[47])` on a snake with its head on cell 24 makes cell 25
the new head, not cell 47. -/
theorem C14_counterexample :
    Adj true 24 47 ∧
      ((Game.sample [24, 25, 26, 27] 100 []).MoveSnake (some 47)).map
        (fun g => g.snake_.snake_segments_) = some [25, 24, 25, 26] := by
  decide

/-- C14, amended: for every head cell `h` and every `next_cell` among the entries
of `GetNeighboursIndices(true)` of the head, `Snake::MoveSnake(next_cell)` returns
and shifts the body one slot toward the tail, and `next_cell` is the new head if
and only if it is a direct neighbour of the head (an entry of
`GetNeighboursIndices(false)`); for a neighbour across a grid edge the new head
is another cell. -/
theorem C14_path_step_direct_neighbour (g : Game) (h : Nat) (rest : List Nat) (next : Nat)
    (hg : GridOK g.grid_) (hs : g.snake_.snake_segments_ = h :: rest) (hh : h < 432)
    (hadj : Adj true h next) :
    ∃ g', g.MoveSnake (some next) = some g' ∧
      g'.snake_.snake_segments_.length = g.snake_.snake_segments_.length ∧
      (∀ i, 1 ≤ i → i < g.snake_.snake_segments_.length →
        g'.snake_.snake_segments_[i]? = g.snake_.snake_segments_[i - 1]?) ∧
      (g'.GetHead = next ↔ Adj false h next) := by
  have hn : next < 432 := adj_lt hh hadj
  obtain ⟨dir, nh, hnh, hmove, hcase⟩ := moveSnake_next g hg hs hh hn
  refine ⟨_, hmove, ?_, ?_, ?_⟩
  · show (nh :: (h :: rest).dropLast).length = _
    rw [hs, List.length_cons, List.length_dropLast, List.length_cons]
    rfl
  · intro i h1 h2
    show (nh :: (h :: rest).dropLast)[i]? = _
    rw [hs] at h2 ⊢
    exact moved_getElem? _ _ i h1 h2
  · show nh = next ↔ _
    have hw : next = nbLeft h ∨ next = nbRight h ∨ next = nbTop h ∨ next = nbBottom h := by
      unfold Adj at hadj
      rw [neighbours_wrapped h hh] at hadj
      simp only [List.mem_cons, List.mem_singleton, Nat.cast_inj, List.not_mem_nil,
        or_false] at hadj
      exact hadj
    constructor
    · intro e
      subst e
      apply adj_bounded_of_cases hh
      unfold nbLeft nbRight nbTop nbBottom at hw
      rcases hw with hw | hw | hw | hw <;> split_ifs at hw <;> omega
    · intro hb
      have hc := adj_bounded_cases hh hb
      omega

set_option maxRecDepth 1000000 in
/-- C14 (amended) on a snake with its head on cell 24 and the direct neighbour
cell 0 above it: the new head is cell 0. -/
theorem C14_path_step_direct_neighbour_witness :
    ∃ g', (Game.sample [24, 25, 26, 27] 100 []).MoveSnake (some 0) = some g' ∧
      g'.snake_.snake_segments_.length = 4 ∧ g'.GetHead = 0 := by
  obtain ⟨g', h1, h2, _, h4⟩ := C14_path_step_direct_neighbour
    (Game.sample [24, 25, 26, 27] 100 []) 24 [25, 26, 27] 0 gridOK_initGrid rfl (by decide)
    (by decide)
  exact ⟨g', h1, h2, h4.mpr (by decide)⟩

/-! ## Two evaluated sessions -/

set_option maxRecDepth 1000000 in
theorem session_grown : Game.session sessionDraws [LoopStep.tick 1000] = some grownGame := by
  decide

set_option maxRecDepth 1000000 in
theorem session_collided : Game.session sessionDraws collisionSteps = some collidedGame := by
  decide

theorem sessionDraws_inRange : ∀ d ∈ sessionDraws, DrawInRange d := by decide

theorem reachable_grown : Reachable grownGame :=
  reachable_session sessionDraws_inRange session_grown

theorem reachable_collided : Reachable collidedGame :=
  reachable_session sessionDraws_inRange session_collided

/-! ## Events in the game-over state -/

/-- In the game-over state an event other than a Space key-down reaches at most
`Stop` or the info toggle before it is handed to the snake. -/
theorem handleEvent_game_over (g : Game) (e : SDL_Event) (hover : g.game_over_ = true)
    (hkey : ¬ (e.type_ = SDL_EventType.SDL_KEYDOWN ∧ e.sym = SDL_Keycode.SDLK_SPACE)) :
    ∃ g1, g.HandleEvent e = some { g1 with snake_ := g1.snake_.HandleEvent e } ∧
      (g1 = g.Stop ∨ g1 = { g with info_toggle_ := !g.info_toggle_ } ∨ g1 = g) := by
  unfold Game.HandleEvent
  simp only
  by_cases h1 : e.type_ = SDL_EventType.SDL_QUIT
  · rw [if_pos h1]
    exact ⟨g.Stop, rfl, Or.inl rfl⟩
  · rw [if_neg h1, if_neg (fun h => hkey h.2)]
    by_cases h3 : e.type_ = SDL_EventType.SDL_KEYUP ∧ e.sym = SDL_Keycode.SDLK_i
    · rw [if_pos h3]
      exact ⟨_, rfl, Or.inr (Or.inl rfl)⟩
    · rw [if_neg h3, if_neg (by rw [hover]; simp)]
      exact ⟨g, rfl, Or.inr (Or.inr rfl)⟩

theorem tick_game_over (tie : List Nat → Nat) (g : Game) (current_ms : Int)
    (hover : g.game_over_ = true) : g.Tick tie current_ms = some g := by
  unfold Game.Tick
  rw [if_neg]
  rintro ⟨_, h, _⟩
  rw [hover] at h
  exact Bool.noConfusion h

/-! ## C12: the game-over state -/

/-- C12, counterexample: in the reachable game-over state `collidedGame` (heading
DOWN) a key-down of the left arrow changes the heading to LEFT. -/
theorem C12_counterexample :
    Reachable collidedGame ∧ collidedGame.game_over_ = true ∧
      collidedGame.snake_.direction_ = Direction.DOWN ∧
      (collidedGame.HandleEvent (keyDown SDL_Keycode.SDLK_LEFT)).map
        (fun g => g.snake_.direction_) = some Direction.LEFT :=
  ⟨reachable_collided, rfl, rfl, by decide⟩

/-- C12, amended: in every state with `game_over_` true, `Game::Tick` changes
nothing, and every event other than a Space key-down leaves the segments, the
score, the food, the tick interval, the pause flag, the three mode flags, the
cached path and `game_over_` unchanged. The heading is not frozen: the event is
still handed to `Snake::HandleEvent`, so the heading stays when the latch is set,
the event is no non-repeat key-down, or its key is no arrow or the opposite of the
heading, and it becomes the arrow's direction otherwise. -/
theorem C12_game_over_freeze (tie : List Nat → Nat) (g : Game) (e : SDL_Event)
    (current_ms : Int) (hover : g.game_over_ = true)
    (hkey : ¬ (e.type_ = SDL_EventType.SDL_KEYDOWN ∧ e.sym = SDL_Keycode.SDLK_SPACE)) :
    g.Tick tie current_ms = some g ∧
      ∃ g', g.HandleEvent e = some g' ∧
        g'.snake_.snake_segments_ = g.snake_.snake_segments_ ∧
        g'.score_ = g.score_ ∧ g'.food_ = g.food_ ∧ g'.tick_ms_ = g.tick_ms_ ∧
        g'.paused_ = g.paused_ ∧ g'.autopilot_toggle_ = g.autopilot_toggle_ ∧
        g'.shortest_path_toggle_ = g.shortest_path_toggle_ ∧
        g'.wrapped_shortest_path_toggle_ = g.wrapped_shortest_path_toggle_ ∧
        g'.shortest_path_cells_ = g.shortest_path_cells_ ∧
        g'.game_over_ = true ∧
        g'.snake_ = g.snake_.HandleEvent e ∧
        ((g.snake_.moved_snake_ = true ∨ e.type_ ≠ SDL_EventType.SDL_KEYDOWN ∨ e.repeat_ ≠ 0 ∨
            keyDirection e.sym = none ∨
            keyDirection e.sym = some g.snake_.direction_.opposite) →
          g'.snake_.direction_ = g.snake_.direction_) ∧
        (∀ d, g.snake_.moved_snake_ = false → e.type_ = SDL_EventType.SDL_KEYDOWN →
          e.repeat_ = 0 → keyDirection e.sym = some d → d ≠ g.snake_.direction_.opposite →
          g'.snake_.direction_ = d) := by
  refine ⟨tick_game_over tie g current_ms hover, ?_⟩
  obtain ⟨g1, hev, hg1⟩ := handleEvent_game_over g e hover hkey
  have hframe : g1.snake_ = g.snake_ ∧ g1.score_ = g.score_ ∧ g1.food_ = g.food_ ∧
      g1.tick_ms_ = g.tick_ms_ ∧ g1.paused_ = g.paused_ ∧
      g1.autopilot_toggle_ = g.autopilot_toggle_ ∧
      g1.shortest_path_toggle_ = g.shortest_path_toggle_ ∧
      g1.wrapped_shortest_path_toggle_ = g.wrapped_shortest_path_toggle_ ∧
      g1.shortest_path_cells_ = g.shortest_path_cells_ ∧ g1.game_over_ = g.game_over_ := by
    rcases hg1 with h | h | h <;> rw [h] <;>
      exact ⟨rfl, rfl, rfl, rfl, rfl, rfl, rfl, rfl, rfl, rfl⟩
  obtain ⟨f1, f2, f3, f4, f5, f6, f7, f8, f9, f10⟩ := hframe
  have hsnake : ({ g1 with snake_ := g1.snake_.HandleEvent e } : Game).snake_ =
      g.snake_.HandleEvent e := by
    show g1.snake_.HandleEvent e = _
    rw [f1]
  refine ⟨_, hev, ?_, f2, f3, f4, f5, f6, f7, f8, f9, f10.trans hover, hsnake, ?_, ?_⟩
  · rw [hsnake]; exact snake_handleEvent_segments _ _
  · intro h
    rw [hsnake]; exact snake_handleEvent_keeps _ _ h
  · intro d h1 h2 h3 h4 h5
    rw [hsnake]; exact snake_handleEvent_arrow _ _ d h1 h2 h3 h4 h5

/-- C12 (amended) on the game-over state `collidedGame` and a key-up of `a`:
nothing of the listed state changes, the heading included. -/
theorem C12_game_over_freeze_witness :
    collidedGame.Tick tieFirst 6000 = some collidedGame ∧
      ∃ g', collidedGame.HandleEvent (keyUp SDL_Keycode.SDLK_a) = some g' ∧
        g'.snake_.snake_segments_ = [229, 205, 206, 230, 229] ∧
        g'.autopilot_toggle_ = false ∧ g'.shortest_path_cells_ = [] ∧
        g'.game_over_ = true ∧ g'.snake_.direction_ = Direction.DOWN := by
  obtain ⟨h0, g', h1, h2, _, _, _, _, h7, _, _, h10, h11, _, h13, _⟩ :=
    C12_game_over_freeze tieFirst collidedGame (keyUp SDL_Keycode.SDLK_a) 6000 rfl (by decide)
  exact ⟨h0, g', h1, h2, h7, h10, h11, h13 (Or.inr (Or.inl (by decide)))⟩

/-! ## C15: no reversal -/

theorem wrapNeighbour_ne_self {h : Nat} (hh : h < 432) (d : Direction) :
    wrapNeighbour d h ≠ h := by
  cases d <;> simp only [wrapNeighbour, nbLeft, nbRight, nbTop, nbBottom] <;>
    split_ifs <;> omega

/-- After `Snake::MoveSnake` on a snake with head `h` and a `next_cell` that is
null or a grid cell, the new head is `h` itself (only when `next_cell` is the
head's own cell) or the wrap-around neighbour of `h` in the heading the move
left. -/
theorem moveSnake_head (g g0 : Game) (hg : GridOK g.grid_) {h : Nat} {rest : List Nat}
    (hs : g.snake_.snake_segments_ = h :: rest) (hh : h < 432) (next_cell : Option Nat)
    (hnext : ∀ n, next_cell = some n → n < 432)
    (hm : g.MoveSnake next_cell = some g0) :
    ∃ nh tail, g0.snake_.snake_segments_ = nh :: tail ∧ nh < 432 ∧
      (nh = h ∨ nh = wrapNeighbour g0.snake_.direction_ h) := by
  cases next_cell with
  | none =>
    rw [moveSnake_manual g hg hs hh] at hm
    simp only [Option.some.injEq] at hm
    subst hm
    exact ⟨_, _, rfl, wrapNeighbour_lt hh _, Or.inr rfl⟩
  | some n =>
    obtain ⟨dir, nh, hnh, hmove, hcase⟩ := moveSnake_next g hg hs hh (hnext n rfl)
    rw [hmove] at hm
    simp only [Option.some.injEq] at hm
    subst hm
    refine ⟨nh, _, rfl, hnh, ?_⟩
    show nh = h ∨ nh = wrapNeighbour dir h
    have hn := hnext n rfl
    rcases hcase with ⟨c, rfl, e⟩ | ⟨c, rfl, e⟩ | ⟨_, c, rfl, e⟩ | ⟨_, c, rfl, e⟩ | ⟨_, _, e⟩
    · right; simp only [wrapNeighbour, nbLeft]; split_ifs <;> omega
    · right; simp only [wrapNeighbour, nbRight]; split_ifs <;> omega
    · right; simp only [wrapNeighbour, nbBottom]; split_ifs <;> omega
    · right; simp only [wrapNeighbour, nbTop]; split_ifs <;> omega
    · left; exact e

/-- C15 (no 180-degree reversal): let `g1` be the state after a `Snake::Tick`
(from a state with the invariant of the reachable states, with a null or grid-cell
path step). The latch is clear in `g1`; a single event never sets the heading to
the opposite of the current heading; after any list of events delivered to
`Snake::HandleEvent` the heading is not the opposite of the heading in `g1`; once
the heading differs from the one in `g1`, later events of the list leave it as it
is (it changes at most once); and the heading-driven move that follows does not
take the head back to the cell it had before the earlier tick. -/
theorem C15_no_reversal (tie : List Nat → Nat) (g g1 : Game) (next_cell : Option Nat)
    (events : List SDL_Event) (hinv : GameInv g)
    (hnext : ∀ n, next_cell = some n → n < 432)
    (ht : g.SnakeTick tie next_cell = some g1) :
    g1.snake_.moved_snake_ = false ∧
      (∀ (s : Snake) (e : SDL_Event), (s.HandleEvent e).direction_ ≠ s.direction_.opposite) ∧
      (events.foldl Snake.HandleEvent g1.snake_).direction_ ≠ g1.snake_.direction_.opposite ∧
      (∀ pre post, events = pre ++ post →
        (pre.foldl Snake.HandleEvent g1.snake_).direction_ ≠ g1.snake_.direction_ →
        (events.foldl Snake.HandleEvent g1.snake_).direction_ =
          (pre.foldl Snake.HandleEvent g1.snake_).direction_) ∧
      ∃ g2, ({ g1 with snake_ := events.foldl Snake.HandleEvent g1.snake_ } : Game).MoveSnake
          none = some g2 ∧ g2.GetHead ≠ g.GetHead := by
  refine ⟨snakeTick_latch ht, snake_handleEvent_no_reverse,
    snake_events_no_reverse events g1.snake_, ?_, ?_⟩
  · intro pre post he hd
    rw [he, snake_events_once pre post g1.snake_ hd]
  · cases hm : g.MoveSnake next_cell with
    | none => unfold Game.SnakeTick at ht; rw [hm] at ht; simp at ht
    | some g0 =>
      obtain ⟨_, hdir, hsegs1⟩ := snakeTick_snake hm ht
      obtain ⟨hinv1, _⟩ := gameInv_snakeTick hinv ht
      cases hs : g.snake_.snake_segments_ with
      | nil => exact absurd hs hinv.segs_ne
      | cons h rest =>
        have hh : h < 432 := hinv.segs_valid h (by rw [hs]; exact List.mem_cons_self _ _)
        have hhead : g.GetHead = h := by unfold Game.GetHead; rw [hs]; rfl
        obtain ⟨nh, tail, hs0, hnh, hcase⟩ :=
          moveSnake_head g g0 hinv.grid_ok hs hh next_cell hnext hm
        obtain ⟨tail1, hs1⟩ : ∃ tail1, g1.snake_.snake_segments_ = nh :: tail1 := by
          rcases hsegs1 with e | e
          · exact ⟨tail, by rw [e, hs0]⟩
          · exact ⟨_, by rw [e, hs0]; rfl⟩
        have hs2 : ({ g1 with snake_ := events.foldl Snake.HandleEvent g1.snake_ } :
            Game).snake_.snake_segments_ = nh :: tail1 := by
          show (events.foldl Snake.HandleEvent g1.snake_).snake_segments_ = _
          rw [snake_events_segments, hs1]
        refine ⟨_, moveSnake_manual
          ({ g1 with snake_ := events.foldl Snake.HandleEvent g1.snake_ } : Game)
          hinv1.grid_ok hs2 hnh, ?_⟩
        rw [hhead]
        show wrapNeighbour (events.foldl Snake.HandleEvent g1.snake_).direction_ nh ≠ h
        rcases hcase with e | e
        · rw [e]; exact wrapNeighbour_ne_self hh _
        · intro hback
          rw [e] at hback
          have := wrapNeighbour_back hh _ _ hback
          rw [← hdir] at this
          exact snake_events_no_reverse events g1.snake_ this

set_option maxRecDepth 1000000 in
/-- C15 on the state `grownGame` (heading RIGHT, head on cell 229): after the tick
the latch is clear, and after a left-arrow key-down (rejected) followed by an
up-arrow key-down the heading is not LEFT and the next move does not return to
cell 229. -/
theorem C15_no_reversal_witness :
    ∃ g1, grownGame.SnakeTick tieFirst none = some g1 ∧
      g1.snake_.moved_snake_ = false ∧
      ([keyDown SDL_Keycode.SDLK_LEFT, keyDown SDL_Keycode.SDLK_UP].foldl Snake.HandleEvent
        g1.snake_).direction_ ≠ g1.snake_.direction_.opposite ∧
      ∃ g2, ({ g1 with snake_ := [keyDown SDL_Keycode.SDLK_LEFT,
          keyDown SDL_Keycode.SDLK_UP].foldl Snake.HandleEvent g1.snake_ } : Game).MoveSnake
          none = some g2 ∧ g2.GetHead ≠ 229 := by
  have hsome : (grownGame.SnakeTick tieFirst none).isSome = true := by decide
  obtain ⟨g1, hg1⟩ := Option.isSome_iff_exists.mp hsome
  obtain ⟨h1, _, h3, _, h5⟩ := C15_no_reversal tieFirst grownGame g1 none
    [keyDown SDL_Keycode.SDLK_LEFT, keyDown SDL_Keycode.SDLK_UP]
    (reachable_inv reachable_grown) (fun n hn => Option.noConfusion hn) hg1
  exact ⟨g1, hg1, h1, h3, h5⟩

/-! ## C16: arrow keys and the latch -/

/-- C16, counterexample: the new snake heads RIGHT with the latch clear. A
left-arrow key-down is a rejected reversal request (the heading stays RIGHT, no
arrow key has set the heading), yet the up-arrow key-down that follows, which does
not reverse the heading, leaves the heading RIGHT. -/
theorem C16_counterexample :
    (Snake.ctor 4).moved_snake_ = false ∧ (Snake.ctor 4).direction_ = Direction.RIGHT ∧
      ((Snake.ctor 4).HandleEvent (keyDown SDL_Keycode.SDLK_LEFT)).direction_ =
        Direction.RIGHT ∧
      keyDirection SDL_Keycode.SDLK_UP ≠ some Direction.RIGHT.opposite ∧
      (((Snake.ctor 4).HandleEvent (keyDown SDL_Keycode.SDLK_LEFT)).HandleEvent
        (keyDown SDL_Keycode.SDLK_UP)).direction_ = Direction.RIGHT := by
  decide

/-- C16, amended: for every non-repeat arrow key-down whose direction is not the
opposite of the current heading, `Snake::HandleEvent` sets the heading to that
direction (and sets the latch) if the latch `moved_snake_` is clear, and changes
nothing if the latch is set. Key-up events and repeat events change nothing, so
they do not prevent it; but every non-repeat key-down, also a rejected reversal
request or a key that is no arrow, sets the latch, and so does prevent it until
the next tick. -/
theorem C16_arrow_key_sets_heading (s : Snake) (e : SDL_Event) (d : Direction)
    (hdown : e.type_ = SDL_EventType.SDL_KEYDOWN) (hrep : e.repeat_ = 0)
    (hkey : keyDirection e.sym = some d) (hopp : d ≠ s.direction_.opposite) :
    (s.moved_snake_ = false →
        (s.HandleEvent e).direction_ = d ∧ (s.HandleEvent e).moved_snake_ = true) ∧
      (s.moved_snake_ = true → s.HandleEvent e = s) ∧
      (∀ e0 : SDL_Event, e0.type_ ≠ SDL_EventType.SDL_KEYDOWN ∨ e0.repeat_ ≠ 0 →
        (s.HandleEvent e0 = s ∧
          (s.moved_snake_ = false → ((s.HandleEvent e0).HandleEvent e).direction_ = d))) ∧
      (∀ e0 : SDL_Event, e0.type_ = SDL_EventType.SDL_KEYDOWN → e0.repeat_ = 0 →
        ((s.HandleEvent e0).moved_snake_ = true ∧
          (s.HandleEvent e0).HandleEvent e = s.HandleEvent e0)) := by
  refine ⟨fun hm => ⟨snake_handleEvent_arrow s e d hm hdown hrep hkey hopp,
      snake_handleEvent_latch s e hdown hrep⟩,
    snake_handleEvent_latched s e, ?_, ?_⟩
  · intro e0 h0
    refine ⟨snake_handleEvent_ignored s e0 h0, fun hm => ?_⟩
    rw [snake_handleEvent_ignored s e0 h0]
    exact snake_handleEvent_arrow s e d hm hdown hrep hkey hopp
  · intro e0 h1 h2
    exact ⟨snake_handleEvent_latch s e0 h1 h2,
      snake_handleEvent_latched _ e (snake_handleEvent_latch s e0 h1 h2)⟩

/-- C16 (amended) on the new snake and an up-arrow key-down: the heading becomes
UP. -/
theorem C16_arrow_key_sets_heading_witness :
    ((Snake.ctor 4).HandleEvent (keyDown SDL_Keycode.SDLK_UP)).direction_ = Direction.UP ∧
      ((Snake.ctor 4).HandleEvent (keyDown SDL_Keycode.SDLK_UP)).moved_snake_ = true :=
  (C16_arrow_key_sets_heading (Snake.ctor 4) (keyDown SDL_Keycode.SDLK_UP) Direction.UP
    rfl rfl rfl (by decide)).1 rfl

/-! ## The mode keys -/

/-- The state the constructor returns has the start values in every field but
the food and the pending draws. -/
theorem ctor_fields {draws : List (Int × Int)} {g : Game} (h : Game.ctor draws = some g) :
    g.game_over_ = false ∧ g.autopilot_toggle_ = false ∧ g.shortest_path_toggle_ = false ∧
      g.wrapped_shortest_path_toggle_ = false ∧ g.shortest_path_cells_ = [] ∧
      g.snake_ = Snake.ctor 4 ∧ g.score_ = 0 ∧ g.tick_ms_ = 100 := by
  unfold Game.ctor Game.SpawnFood at h
  obtain ⟨f, m, hg⟩ := spawnLoop_fields _ _ h
  rw [hg]
  exact ⟨rfl, rfl, rfl, rfl, rfl, rfl, rfl, rfl⟩

theorem handleEvent_key_a (g : Game) (r : Nat) (hover : g.game_over_ = false) :
    g.HandleEvent { type_ := SDL_EventType.SDL_KEYUP, sym := SDL_Keycode.SDLK_a, repeat_ := r } =
      some { g with shortest_path_toggle_ := false, wrapped_shortest_path_toggle_ := false,
                    autopilot_toggle_ := !g.autopilot_toggle_, shortest_path_cells_ := [] } := by
  have hs : g.snake_.HandleEvent
      { type_ := SDL_EventType.SDL_KEYUP, sym := SDL_Keycode.SDLK_a, repeat_ := r } =
      g.snake_ := snake_handleEvent_ignored _ _ (Or.inl (by simp))
  unfold Game.HandleEvent
  simp [hover, hs]

theorem handleEvent_key_s (g : Game) (r : Nat) (hover : g.game_over_ = false) :
    g.HandleEvent { type_ := SDL_EventType.SDL_KEYUP, sym := SDL_Keycode.SDLK_s, repeat_ := r } =
      some { g with autopilot_toggle_ := false, wrapped_shortest_path_toggle_ := false,
                    shortest_path_toggle_ := !g.shortest_path_toggle_,
                    shortest_path_cells_ := [] } := by
  have hs : g.snake_.HandleEvent
      { type_ := SDL_EventType.SDL_KEYUP, sym := SDL_Keycode.SDLK_s, repeat_ := r } =
      g.snake_ := snake_handleEvent_ignored _ _ (Or.inl (by simp))
  unfold Game.HandleEvent
  simp [hover, hs]

theorem handleEvent_key_w (g : Game) (r : Nat) (hover : g.game_over_ = false) :
    g.HandleEvent { type_ := SDL_EventType.SDL_KEYUP, sym := SDL_Keycode.SDLK_w, repeat_ := r } =
      some { g with autopilot_toggle_ := false, shortest_path_toggle_ := false,
                    wrapped_shortest_path_toggle_ := !g.wrapped_shortest_path_toggle_,
                    shortest_path_cells_ := [] } := by
  have hs : g.snake_.HandleEvent
      { type_ := SDL_EventType.SDL_KEYUP, sym := SDL_Keycode.SDLK_w, repeat_ := r } =
      g.snake_ := snake_handleEvent_ignored _ _ (Or.inl (by simp))
  unfold Game.HandleEvent
  simp [hover, hs]

theorem handleEvents_cons {g g1 : Game} {e : SDL_Event} (es : List SDL_Event)
    (h : g.HandleEvent e = some g1) : g.HandleEvents (e :: es) = g1.HandleEvents es := by
  unfold Game.HandleEvents
  rw [List.foldlM_cons, h]
  rfl

/-! ## C17: the mode flags -/

/-- C17 (mode flags are mutually exclusive): in every state reachable from the
constructor through events (resets included) and ticks, at most one of
`autopilot_toggle_`, `shortest_path_toggle_`, `wrapped_shortest_path_toggle_` is
true; while not game over, a key-up of `a`, `s` or `w` flips its own flag, sets the
other two to false and empties the cached path; and the key sequence a, s, a from
the state the constructor returns ends with only autopilot true and an empty
cache. -/
theorem C17_modes_exclusive (g : Game) (hreach : Reachable g) :
    ModesExclusive g ∧
      (g.game_over_ = false → ∀ r : Nat,
        g.HandleEvent
            { type_ := SDL_EventType.SDL_KEYUP, sym := SDL_Keycode.SDLK_a, repeat_ := r } =
          some { g with shortest_path_toggle_ := false, wrapped_shortest_path_toggle_ := false,
                        autopilot_toggle_ := !g.autopilot_toggle_,
                        shortest_path_cells_ := [] } ∧
        g.HandleEvent
            { type_ := SDL_EventType.SDL_KEYUP, sym := SDL_Keycode.SDLK_s, repeat_ := r } =
          some { g with autopilot_toggle_ := false, wrapped_shortest_path_toggle_ := false,
                        shortest_path_toggle_ := !g.shortest_path_toggle_,
                        shortest_path_cells_ := [] } ∧
        g.HandleEvent
            { type_ := SDL_EventType.SDL_KEYUP, sym := SDL_Keycode.SDLK_w, repeat_ := r } =
          some { g with autopilot_toggle_ := false, shortest_path_toggle_ := false,
                        wrapped_shortest_path_toggle_ := !g.wrapped_shortest_path_toggle_,
                        shortest_path_cells_ := [] }) ∧
      (∀ draws g0, Game.ctor draws = some g0 →
        ∃ g3, g0.HandleEvents [keyUp SDL_Keycode.SDLK_a, keyUp SDL_Keycode.SDLK_s,
            keyUp SDL_Keycode.SDLK_a] = some g3 ∧
          g3.autopilot_toggle_ = true ∧ g3.shortest_path_toggle_ = false ∧
          g3.wrapped_shortest_path_toggle_ = false ∧ g3.shortest_path_cells_ = []) := by
  refine ⟨(reachable_inv hreach).modes, fun hover r =>
    ⟨handleEvent_key_a g r hover, handleEvent_key_s g r hover, handleEvent_key_w g r hover⟩, ?_⟩
  intro draws g0 hc
  obtain ⟨h1, h2, _, _, _⟩ := ctor_fields hc
  have e1 := handleEvent_key_a g0 0 h1
  have e2 := handleEvent_key_s
    ({ g0 with shortest_path_toggle_ := false, wrapped_shortest_path_toggle_ := false,
               autopilot_toggle_ := !g0.autopilot_toggle_, shortest_path_cells_ := [] } : Game)
    0 h1
  have e3 := handleEvent_key_a
    ({ g0 with autopilot_toggle_ := false, wrapped_shortest_path_toggle_ := false,
               shortest_path_toggle_ := !false, shortest_path_cells_ := [] } : Game) 0 h1
  unfold keyUp
  rw [handleEvents_cons _ e1, handleEvents_cons _ e2, handleEvents_cons _ e3]
  exact ⟨_, rfl, rfl, rfl, rfl, rfl⟩

/-- C17 on the reachable state in which the key `a` switched the autopilot on
after the first food was eaten. -/
theorem C17_modes_exclusive_witness :
    ModesExclusive ({ grownGame with autopilot_toggle_ := true } : Game) :=
  (C17_modes_exclusive ({ grownGame with autopilot_toggle_ := true } : Game)
    (Reachable.event grownGame (keyUp SDL_Keycode.SDLK_a) _ reachable_grown
      (handleEvent_key_a grownGame 0 rfl))).1

/-! ## C18: the food is never on the snake -/

/-- C18 (the food never lies on the snake): in every reachable state (after
construction, after any event or reset or `Game::Tick` that returned) the food
cell is different from every segment's cell and their boxes do not intersect; and
the same holds for the state any `Snake::Tick` or `Game::Reset` returns from
there. -/
theorem C18_food_not_on_snake (g : Game) (hreach : Reachable g) :
    (∀ s ∈ g.snake_.snake_segments_, s ≠ g.food_ ∧
        SDL_HasIntersection (boxAt g.grid_ s) (boxAt g.grid_ g.food_) = false) ∧
      (∀ tie next_cell g', g.SnakeTick tie next_cell = some g' →
        ∀ s ∈ g'.snake_.snake_segments_, s ≠ g'.food_) ∧
      (∀ g', g.Reset = some g' → ∀ s ∈ g'.snake_.snake_segments_, s ≠ g'.food_) := by
  have hinv := reachable_inv hreach
  refine ⟨?_, ?_, ?_⟩
  · intro s hs
    have hne : s ≠ g.food_ := fun e => hinv.food_free (e ▸ hs)
    refine ⟨hne, ?_⟩
    rw [hinv.grid_ok.boxAt (hinv.segs_valid s hs), hinv.grid_ok.boxAt hinv.food_lt,
      hasIntersection_cell]
    simpa using hne
  · intro tie next_cell g' ht s hs e
    exact (gameInv_snakeTick hinv ht).1.food_free (e ▸ hs)
  · intro g' hr s hs e
    exact (gameInv_reset hinv hinv.modes hr).food_free (e ▸ hs)

/-- C18 on the reachable state after the first food was eaten: the new food on
cell 0 is not on the head's cell 229 and not on the doubled tail cell 226. -/
theorem C18_food_not_on_snake_witness :
    (229 ≠ grownGame.food_ ∧
        SDL_HasIntersection (boxAt grownGame.grid_ 229)
          (boxAt grownGame.grid_ grownGame.food_) = false) ∧
      (226 ≠ grownGame.food_ ∧
        SDL_HasIntersection (boxAt grownGame.grid_ 226)
          (boxAt grownGame.grid_ grownGame.food_) = false) :=
  ⟨(C18_food_not_on_snake grownGame reachable_grown).1 229 (by decide),
    (C18_food_not_on_snake grownGame reachable_grown).1 226 (by decide)⟩

/-! ## C19: repetitions in the segment list -/

/-- C19, counterexample: after the constructor and one tick that eats the food the
state is not game over and cell 226 is both the fourth and the fifth segment. -/
theorem C19_counterexample :
    Game.session sessionDraws [LoopStep.tick 1000] = some grownGame ∧
      Reachable grownGame ∧ grownGame.game_over_ = false ∧
      grownGame.snake_.snake_segments_ = [229, 228, 227, 226, 226] ∧
      ¬ grownGame.snake_.snake_segments_.Nodup :=
  ⟨session_grown, reachable_grown, rfl, rfl, by decide⟩

/-- C19, amended: in every reachable state in which `game_over_` is false the
segment list without its last entry has no repetition, and the whole list has no
repetition except that its last entry may repeat the entry before it (the copy
`Snake::AddSegment` appends after the food was eaten, which stays until the next
move); the snake the constructor or `Game::Reset` places has no repetition. -/
theorem C19_segments_distinct_except_tail (g : Game) (hreach : Reachable g)
    (hover : g.game_over_ = false) :
    g.snake_.snake_segments_.dropLast.Nodup ∧
      (g.snake_.snake_segments_.Nodup ∨
        ∃ front t, g.snake_.snake_segments_ = front ++ [t, t] ∧ (front ++ [t]).Nodup) ∧
      SegmentsDistinct g.snake_.snake_segments_ ∧
      (∀ draws g0, Game.ctor draws = some g0 → g0.snake_.snake_segments_.Nodup) ∧
      (∀ g', g.Reset = some g' → g'.snake_.snake_segments_.Nodup) := by
  have hinv := reachable_inv hreach
  have hd := hinv.distinct hover
  refine ⟨segmentsDistinct_dropLast hd, hd, hd, ?_, ?_⟩
  · intro draws g0 hc
    rw [(ctor_fields hc).2.2.2.2.2.1, snake_ctor_segments]
    decide
  · intro g' hr
    unfold Game.Reset Game.SpawnFood at hr
    obtain ⟨f, m, hg'⟩ := spawnLoop_fields _ _ hr
    rw [hg']
    show (Snake.ctor 4).snake_segments_.Nodup
    rw [snake_ctor_segments]
    decide

/-- C19 (amended) on the reachable state after the first food was eaten: the first
four segments are pairwise distinct. -/
theorem C19_segments_distinct_except_tail_witness :
    ([229, 228, 227, 226, 226] : List Nat).dropLast.Nodup :=
  (C19_segments_distinct_except_tail grownGame reachable_grown rfl).1

/-! ## C20: reset -/

theorem handleEvent_space_over (g : Game) (e : SDL_Event) (hover : g.game_over_ = true)
    (hdown : e.type_ = SDL_EventType.SDL_KEYDOWN) (hsym : e.sym = SDL_Keycode.SDLK_SPACE) :
    g.HandleEvent e = (Game.Reset { g with autopilot_toggle_ := false }).map
      (fun g1 => { g1 with snake_ := g1.snake_.HandleEvent e }) := by
  unfold Game.HandleEvent
  simp only
  rw [if_neg (by rw [hdown]; decide), if_pos ⟨hover, hdown, hsym⟩]

theorem handleEvent_space_running (g : Game) (e : SDL_Event) (hover : g.game_over_ = false)
    (hdown : e.type_ = SDL_EventType.SDL_KEYDOWN) :
    g.HandleEvent e = some { g with snake_ := g.snake_.HandleEvent e } := by
  unfold Game.HandleEvent
  simp only
  rw [if_neg (by rw [hdown]; decide), if_neg (by rw [hover]; simp),
    if_neg (by rw [hdown]; simp), if_pos hover,
    if_neg (by rw [hdown]; simp), if_neg (by rw [hdown]; simp), if_neg (by rw [hdown]; simp),
    if_neg (by rw [hdown]; simp)]
  rfl

set_option maxRecDepth 1000000 in
/-- C20, counterexample: in the reachable game-over state `collidedGame` a
non-repeat Space key-down resets the game, and in the resulting state the input
latch is set, not cleared. -/
theorem C20_counterexample :
    Reachable collidedGame ∧ collidedGame.game_over_ = true ∧
      (collidedGame.HandleEvent (keyDown SDL_Keycode.SDLK_SPACE)).map
        (fun g => (g.snake_.snake_segments_, g.game_over_, g.snake_.moved_snake_)) =
        some ([228, 227, 226, 225], false, true) :=
  ⟨reachable_collided, rfl, by decide⟩

/-- C20, amended: a Space key-down while `game_over_` is true returns (when the
generator delivers a pair whose cell is off the new snake) and yields
`score_ = 0`, `tick_ms_ = 100`, `game_over_ = false`, `autopilot_toggle_ = false`,
a snake of the 4 segments 228, 227, 226, 225 (head first, all in row 9, each the
direct left neighbour of the one before) heading RIGHT, and a food cell that is
not on that snake. The input latch is not cleared in general: `Game::Reset` clears
it, but the same event is then handed to `Snake::HandleEvent`, which sets it
unless the event is a key repeat. While `game_over_` is false the event only
reaches `Snake::HandleEvent` and resets nothing. -/
theorem C20_reset_postcondition (g : Game) (e : SDL_Event) (hg : GridOK g.grid_)
    (hrange : ∀ d ∈ g.mt_, DrawInRange d)
    (hdown : e.type_ = SDL_EventType.SDL_KEYDOWN) (hsym : e.sym = SDL_Keycode.SDLK_SPACE) :
    (g.game_over_ = true →
      ((∃ d ∈ g.mt_, drawCell d ∉ [228, 227, 226, 225]) → ∃ g', g.HandleEvent e = some g') ∧
      ∀ g', g.HandleEvent e = some g' →
        g'.score_ = 0 ∧ g'.tick_ms_ = 100 ∧ g'.game_over_ = false ∧
        g'.autopilot_toggle_ = false ∧
        g'.snake_.snake_segments_ = [228, 227, 226, 225] ∧
        (∀ s ∈ g'.snake_.snake_segments_, s / 24 = 9) ∧
        List.Chain' (fun a b => b + 1 = a ∧ Adj false a b) g'.snake_.snake_segments_ ∧
        g'.snake_.direction_ = Direction.RIGHT ∧
        (g'.snake_.moved_snake_ = true ↔ e.repeat_ = 0) ∧
        g'.food_ < 432 ∧ g'.food_ ∉ g'.snake_.snake_segments_) ∧
      (g.game_over_ = false →
        g.HandleEvent e = some { g with snake_ := g.snake_.HandleEvent e }) := by
  refine ⟨fun hover => ?_, fun hover => handleEvent_space_running g e hover hdown⟩
  rw [handleEvent_space_over g e hover hdown hsym]
  have hvalid : ∀ s ∈ (Snake.ctor 4).snake_segments_, s < 432 := by
    rw [snake_ctor_segments]; decide
  have hdir : ((Snake.ctor 4).HandleEvent e).direction_ = Direction.RIGHT :=
    (snake_handleEvent_keeps _ e (Or.inr (Or.inr (Or.inr (Or.inl (by rw [hsym]; rfl)))))).trans
      (by decide)
  have hlatch : ((Snake.ctor 4).HandleEvent e).moved_snake_ = true ↔ e.repeat_ = 0 := by
    constructor
    · intro h
      by_contra hr
      rw [snake_handleEvent_ignored _ e (Or.inr hr)] at h
      revert h; decide
    · exact snake_handleEvent_latch _ e hdown
  have hsegs : ((Snake.ctor 4).HandleEvent e).snake_segments_ = [228, 227, 226, 225] :=
    (snake_handleEvent_segments _ e).trans snake_ctor_segments
  constructor
  · rintro ⟨d, hd, hfree⟩
    obtain ⟨d1, rest, hsp, _, _⟩ := spawnLoop_spec
      ({ g with autopilot_toggle_ := false, score_ := 0, snake_ := Snake.ctor 4,
                tick_ms_ := 100, game_over_ := false } : Game) hg hvalid g.mt_ hrange
      ⟨d, hd, by show drawCell d ∉ (Snake.ctor 4).snake_segments_
                 rw [snake_ctor_segments]; exact hfree⟩
    unfold Game.Reset Game.SpawnFood
    exact ⟨_, by rw [show _ = _ from hsp]; rfl⟩
  · intro g' h
    simp only [Option.map_eq_some'] at h
    obtain ⟨g1, hr, hg'⟩ := h
    unfold Game.Reset Game.SpawnFood at hr
    obtain ⟨d, rest, _, _, hlt, hfree, hg1⟩ := spawnLoop_sound
      ({ g with autopilot_toggle_ := false, score_ := 0, snake_ := Snake.ctor 4,
                tick_ms_ := 100, game_over_ := false } : Game) hg hvalid g.mt_ hrange hr
    rw [← hg', hg1]
    refine ⟨rfl, rfl, rfl, rfl, hsegs, ?_, ?_, hdir, hlatch, hlt, ?_⟩
    · show ∀ s ∈ ((Snake.ctor 4).HandleEvent e).snake_segments_, s / 24 = 9
      rw [hsegs]; decide
    · show List.Chain' _ ((Snake.ctor 4).HandleEvent e).snake_segments_
      rw [hsegs]
      simp only [List.chain'_cons, List.chain'_singleton, and_true]
      decide
    · show drawCell d ∉ ((Snake.ctor 4).HandleEvent e).snake_segments_
      rw [snake_handleEvent_segments]; exact hfree

set_option maxRecDepth 1000000 in
/-- C20 (amended) on the game-over state `collidedGame` and a non-repeat Space
key-down, with the generator delivering `(100, 100)` (cell 50). -/
theorem C20_reset_postcondition_witness :
    ∃ g', collidedGame.HandleEvent (keyDown SDL_Keycode.SDLK_SPACE) = some g' ∧
      g'.score_ = 0 ∧ g'.tick_ms_ = 100 ∧ g'.game_over_ = false ∧
      g'.snake_.snake_segments_ = [228, 227, 226, 225] ∧
      g'.snake_.direction_ = Direction.RIGHT ∧ g'.snake_.moved_snake_ = true ∧
      g'.food_ ∉ g'.snake_.snake_segments_ := by
  have h := (C20_reset_postcondition collidedGame (keyDown SDL_Keycode.SDLK_SPACE)
    gridOK_initGrid (by decide) rfl rfl).1 rfl
  obtain ⟨g', hg'⟩ := h.1 ⟨(100, 100), by decide, by decide⟩
  obtain ⟨h1, h2, h3, _, h5, _, _, h8, h9, _, h11⟩ := h.2 g' hg'
  exact ⟨g', hg', h1, h2, h3, h5, h8, h9.mpr rfl, h11⟩

/-! ## The rounding of `Game::SpawnFood` -/

theorem snapCoordinate_eq_iff (raw c : Nat) :
    snapCoordinate (raw : Int) = 50 * (c : Int) ↔ 50 * c ≤ raw + 24 ∧ raw ≤ 50 * c + 25 := by
  unfold snapCoordinate grid_cell_side
  rw [Int.tmod_eq_emod (by omega) (by norm_num)]
  have e : Int.tdiv 50 2 = 25 := by decide
  rw [e]
  simp only
  split_ifs with h <;> omega

theorem countP_range_interval (n a b : Nat) :
    (List.range n).countP (fun r => decide (a ≤ r ∧ r ≤ b)) = min (b + 1) n - a := by
  induction n with
  | zero => simp
  | succ n ih =>
    rw [List.range_succ, List.countP_append, ih]
    simp only [List.countP_cons, List.countP_nil, zero_add]
    by_cases h : a ≤ n ∧ n ≤ b
    · rw [if_pos (by simpa using h)]
      omega
    · rw [if_neg (by simpa using h)]
      omega

theorem rawCount_eq (limit c : Nat) :
    rawCount limit (50 * (c : Int)) = min (50 * c + 26) (limit + 1) - (50 * c - 24) := by
  unfold rawCount
  have : (fun raw : Nat => decide (snapCoordinate (raw : Int) = 50 * (c : Int))) =
      (fun r : Nat => decide (50 * c - 24 ≤ r ∧ r ≤ 50 * c + 25)) := by
    funext raw
    rw [decide_eq_decide, snapCoordinate_eq_iff]
    omega
  rw [this, countP_range_interval]

theorem foldl_add_eq_sum (l : List Nat) (f : Nat → Nat) (a : Nat) :
    l.foldl (fun n x => n + f x) a = a + (l.map f).sum := by
  induction l generalizing a with
  | nil => simp
  | cons x xs ih => rw [List.foldl_cons, ih, List.map_cons, List.sum_cons]; omega

theorem sum_map_ite_const (l : List Nat) (p : Nat → Bool) (K : Nat) :
    (l.map (fun x => if p x = true then K else 0)).sum = l.countP p * K := by
  induction l with
  | nil => simp
  | cons x xs ih =>
    rw [List.map_cons, List.sum_cons, ih, List.countP_cons]
    by_cases h : p x = true
    · rw [if_pos h, if_pos h]; ring
    · rw [if_neg h, if_neg h]; ring

/-- The cell selected for a raw pair in range is `cell` exactly when both rounded
coordinates are those of `cell`. -/
theorem drawCell_eq_iff {raw_x raw_y cell : Nat} (hx : raw_x ≤ 1150) (hy : raw_y ≤ 850) :
    drawCell ((raw_x : Int), (raw_y : Int)) = cell ↔
      snapCoordinate (raw_x : Int) = 50 * ((cell % 24 : Nat) : Int) ∧
        snapCoordinate (raw_y : Int) = 50 * ((cell / 24 : Nat) : Int) := by
  have hr : DrawInRange ((raw_x : Int), (raw_y : Int)) := by
    unfold DrawInRange constants.screen_width constants.screen_height grid_cell_side
    simp only
    omega
  obtain ⟨_, _, h3, h4⟩ := drawCell_spec hr
  simp only at h3 h4
  constructor
  · intro e
    rw [e] at h3 h4
    simp only [cellBox] at h3 h4
    constructor <;> omega
  · rintro ⟨e1, e2⟩
    apply cellBox_injective
    · rw [h3, e1]; simp only [cellBox]; omega
    · rw [h4, e2]; simp only [cellBox]; omega

theorem rawPairCount_eq (cell : Nat) :
    rawPairCount cell =
      rawCount 1150 (50 * ((cell % 24 : Nat) : Int)) *
        rawCount 850 (50 * ((cell / 24 : Nat) : Int)) := by
  unfold rawPairCount
  rw [foldl_add_eq_sum, Nat.zero_add]
  have hmap : (List.range 1151).map (fun raw_x : Nat => (List.range 851).countP
        (fun raw_y : Nat => decide (drawCell ((raw_x : Int), (raw_y : Int)) = cell))) =
      (List.range 1151).map (fun raw_x : Nat =>
        if decide (snapCoordinate (raw_x : Int) = 50 * ((cell % 24 : Nat) : Int)) = true then
          rawCount 850 (50 * ((cell / 24 : Nat) : Int)) else 0) := by
    apply List.map_congr_left
    intro raw_x hx
    have hx' : raw_x ≤ 1150 := by have := List.mem_range.mp hx; omega
    by_cases hsx : snapCoordinate (raw_x : Int) = 50 * ((cell % 24 : Nat) : Int)
    · rw [if_pos (by simpa using hsx)]
      unfold rawCount
      apply List.countP_congr
      intro raw_y hy
      have hy' : raw_y ≤ 850 := by have := List.mem_range.mp hy; omega
      simp only [decide_eq_true_eq]
      rw [drawCell_eq_iff hx' hy']
      exact ⟨fun h => h.2, fun h => ⟨hsx, h⟩⟩
    · rw [if_neg (by simpa using hsx)]
      rw [List.countP_eq_zero]
      intro raw_y hy
      have hy' : raw_y ≤ 850 := by have := List.mem_range.mp hy; omega
      simp only [decide_eq_true_eq]
      rw [drawCell_eq_iff hx' hy']
      exact fun h => hsx h.1
  rw [hmap, sum_map_ite_const]
  rfl

/-! ## C22: the rounding is not uniform -/

/-- C22, counterexample: of the raw values 0, ..., 1150 the rounding of
`Game::SpawnFood` maps 26 to column 0 (x = 0), 50 to column 1 (x = 50) and 25 to
column 23 (x = 1150); so of the 1151 * 851 raw pairs 676 select cell 0 and 2500
select cell 25. The boundaries: 25 is rounded to 0 and 26 to 50; 1125 is rounded
to 1100 and 1126 to 1150. -/
theorem C22_counterexample :
    rawCount 1150 0 = 26 ∧ rawCount 1150 50 = 50 ∧ rawCount 1150 1150 = 25 ∧
      rawPairCount 0 = 676 ∧ rawPairCount 25 = 2500 ∧
      snapCoordinate 25 = 0 ∧ snapCoordinate 26 = 50 ∧
      snapCoordinate 1125 = 1100 ∧ snapCoordinate 1126 = 1150 := by
  have h0 := rawCount_eq 1150 0
  have h1 := rawCount_eq 1150 1
  have h23 := rawCount_eq 1150 23
  have r0 := rawCount_eq 850 0
  have r1 := rawCount_eq 850 1
  have p0 := rawPairCount_eq 0
  have p25 := rawPairCount_eq 25
  norm_num at h0 h1 h23 r0 r1 p0 p25
  rw [h0, r0] at p0
  rw [h1, r1] at p25
  exact ⟨h0, h1, h23, p0, p25, by decide, by decide, by decide, by decide⟩

/-- C22, amended: the rounding in `Game::SpawnFood` maps 26 of the raw x values
0, ..., 1150 to column 0, 25 to column 23 and 50 to each of the columns 1, ...,
22, and 26 of the raw y values 0, ..., 850 to row 0, 25 to row 17 and 50 to each
of the rows 1, ..., 16; the number of raw pairs that select the cell in column
`c` and row `r` is the product of the two counts. -/
theorem C22_rounding_counts (c r : Nat) (hc : c < 24) (hr : r < 18) :
    rawCount 1150 (50 * (c : Int)) = (if c = 0 then 26 else if c = 23 then 25 else 50) ∧
      rawCount 850 (50 * (r : Int)) = (if r = 0 then 26 else if r = 17 then 25 else 50) ∧
      rawPairCount (r * 24 + c) =
        (if c = 0 then 26 else if c = 23 then 25 else 50) *
          (if r = 0 then 26 else if r = 17 then 25 else 50) := by
  have hx : rawCount 1150 (50 * (c : Int)) =
      (if c = 0 then 26 else if c = 23 then 25 else 50) := by
    rw [rawCount_eq]
    split_ifs <;> omega
  have hy : rawCount 850 (50 * (r : Int)) =
      (if r = 0 then 26 else if r = 17 then 25 else 50) := by
    rw [rawCount_eq]
    split_ifs <;> omega
  refine ⟨hx, hy, ?_⟩
  rw [rawPairCount_eq]
  have e1 : (r * 24 + c) % 24 = c := by omega
  have e2 : (r * 24 + c) / 24 = r := by omega
  rw [e1, e2, hx, hy]

/-- C22 (amended) on column 5 and row 0 (cell 5): 50 raw x values, 26 raw y
values, 1300 raw pairs. -/
theorem C22_rounding_counts_witness :
    rawCount 1150 (50 * ((5 : Nat) : Int)) = 50 ∧ rawCount 850 (50 * ((0 : Nat) : Int)) = 26 ∧
      rawPairCount (0 * 24 + 5) = 50 * 26 :=
  C22_rounding_counts 5 0 (by decide) (by decide)

/-! ## C24: the rounded coordinates are on the grid -/

/-- C24 (food snapping stays on the grid): for every raw draw `random_x` in
`[0, 1150]` and `random_y` in `[0, 850]` the coordinates rounded in
`Game::SpawnFood` are multiples of 50 with `0 ≤ x ≤ 1150` and `0 ≤ y ≤ 850`;
`Game::ConvertXYToGridIndex(x, y)` is in `[0, 432)`, so on a grid with the
constructor's boxes the lookup `grid_.at` does not fail, and the box of the
selected cell is exactly `(x, y)` with side 50; the loop of `Game::SpawnFood`
on this draw either asks for the next draw (collision with the snake) or returns
with the food on that cell. -/
theorem C24_food_snapping_on_grid (g : Game) (random_x random_y : Int)
    (rest : List (Int × Int)) (hg : GridOK g.grid_)
    (hx0 : 0 ≤ random_x) (hx1 : random_x ≤ 1150) (hy0 : 0 ≤ random_y) (hy1 : random_y ≤ 850) :
    snapCoordinate random_x % 50 = 0 ∧ snapCoordinate random_y % 50 = 0 ∧
      0 ≤ snapCoordinate random_x ∧ snapCoordinate random_x ≤ 1150 ∧
      0 ≤ snapCoordinate random_y ∧ snapCoordinate random_y ≤ 850 ∧
      0 ≤ ConvertXYToGridIndex (snapCoordinate random_x) (snapCoordinate random_y) ∧
      ConvertXYToGridIndex (snapCoordinate random_x) (snapCoordinate random_y) < 432 ∧
      (ConvertXYToGridIndex (snapCoordinate random_x) (snapCoordinate random_y)).toNat <
        g.grid_.length ∧
      boxAt g.grid_
          (ConvertXYToGridIndex (snapCoordinate random_x) (snapCoordinate random_y)).toNat =
        { x := snapCoordinate random_x, y := snapCoordinate random_y, w := 50, h := 50 } ∧
      (g.spawnLoop ((random_x, random_y) :: rest) = g.spawnLoop rest ∨
        g.spawnLoop ((random_x, random_y) :: rest) = some { g with
          food_ := (ConvertXYToGridIndex (snapCoordinate random_x)
            (snapCoordinate random_y)).toNat,
          mt_ := rest }) := by
  have hr : DrawInRange (random_x, random_y) := by
    unfold DrawInRange constants.screen_width constants.screen_height grid_cell_side
    simp only
    omega
  obtain ⟨h1, h2, h3, h4⟩ := drawCell_spec hr
  simp only at h2 h3 h4
  obtain ⟨c, hc0, hc1, hc⟩ := snapCoordinate_spec 23 hx0 (by omega)
  obtain ⟨r, hr0, hr1, hr'⟩ := snapCoordinate_spec 17 hy0 (by omega)
  have hlt : (ConvertXYToGridIndex (snapCoordinate random_x) (snapCoordinate random_y)).toNat <
      g.grid_.length := by
    rw [hg.length, h2]; simpa using h1
  refine ⟨by omega, by omega, by omega, by omega, by omega, by omega, by rw [h2]; omega,
    by rw [h2]; omega, hlt, ?_, ?_⟩
  · rw [h2, Int.toNat_ofNat, hg.boxAt h1]
    rw [← h3, ← h4]
    rfl
  · have e : g.spawnLoop ((random_x, random_y) :: rest) =
        (if (g.snake_.snake_segments_.any (fun snake_segment =>
            decide ((boxAt g.grid_ snake_segment).x = snapCoordinate random_x ∧
              (boxAt g.grid_ snake_segment).y = snapCoordinate random_y))) = true then
          g.spawnLoop rest
        else if 0 ≤ ConvertXYToGridIndex (snapCoordinate random_x) (snapCoordinate random_y) ∧
            (ConvertXYToGridIndex (snapCoordinate random_x)
              (snapCoordinate random_y)).toNat < g.grid_.length then
          some { g with
            food_ := (ConvertXYToGridIndex (snapCoordinate random_x)
              (snapCoordinate random_y)).toNat,
            mt_ := rest }
        else none) := by
      rw [Game.spawnLoop]
    rw [e]
    split_ifs with hcoll hidx
    · left; rfl
    · right; rfl
    · exact absurd ⟨by rw [h2]; omega, hlt⟩ hidx

set_option maxRecDepth 1000000 in
/-- C24 on the raw draw `(1126, 26)`: it is rounded to `(1150, 50)`, the box of
cell 47. -/
theorem C24_food_snapping_on_grid_witness :
    snapCoordinate 1126 = 1150 ∧ snapCoordinate 26 = 50 ∧
      ConvertXYToGridIndex (snapCoordinate 1126) (snapCoordinate 26) < 432 ∧
      boxAt initGrid (ConvertXYToGridIndex (snapCoordinate 1126) (snapCoordinate 26)).toNat =
        { x := snapCoordinate 1126, y := snapCoordinate 26, w := 50, h := 50 } := by
  obtain ⟨_, _, _, _, _, _, _, h8, _, h10, _⟩ := C24_food_snapping_on_grid
    (Game.sample [228, 227, 226, 225] 0 []) 1126 26 [] gridOK_initGrid
    (by decide) (by decide) (by decide) (by decide)
  exact ⟨by decide, by decide, h8, h10⟩

/-! ## Rounds of the search loop -/

section Search

variable (tie : List Nat → Nat) {occ : List Int} {start target : Nat} {wrapped : Bool} {H : Int}

/-- One round of the main loop from a state with the loop invariant: the round
finds only visited cells in the queue, empties it and leaves the metadata as it is
(`break`), or it marks one cell that was not visited before. -/
theorem expandTop_round {st : SearchState} (h : HeadInv occ start target wrapped H st)
    (hH : 0 < H) (hH40 : H ≤ 40) :
    ∃ st', expandTop tie occ start target wrapped st = some st' ∧
      HeadInv occ start target wrapped H st' ∧
      ((st'.min_heap = [] ∧ st'.grid_ = st.grid_) ∨
        (∃ c, c < 432 ∧ (infoAt st.grid_ c).visited_ = false ∧
          (infoAt st'.grid_ c).visited_ = true ∧
          visitedCount st'.grid_ = visitedCount st.grid_ + 1)) := by
  obtain ⟨h1, hg, htop⟩ := popVisited_spec tie st.min_heap.length st h (le_refl _)
  unfold expandTop
  rcases htop with hnil | ⟨t, rest, hcons, hv⟩
  · simp only [hnil]
    exact ⟨_, rfl, h1, Or.inl ⟨hnil, hg⟩⟩
  · simp only [hcons]
    have hv0 := hv
    rw [← hg] at hv
    obtain ⟨hF, hcnt⟩ := foldInv_mark h1 (le_of_lt hH) hcons hv
    have htlt := (h1.heap_disc t (by rw [hcons]; exact List.mem_cons_self _ _)).1
    rw [boxAt_setInfo, h1.grid_ok.boxAt htlt]
    obtain ⟨st', hs1, hs2, hs3⟩ := foldlM_relax_spec tie hH hH40
      (GetNeighboursIndices (cellBox t) wrapped) (fun _ hi => hi) [] _ hF
    rw [← hcons]
    refine ⟨st', hs1, headInv_of_foldInv (by simpa using hs2), Or.inr ⟨t, htlt, hv0, hs2.cur_vis, ?_⟩⟩
    rw [hs3]
    show visitedCount (setInfo _ _ _) = _
    rw [hcnt, hg]

theorem visitedCount_searchInit (grid : List GridCell) (start target : Nat) (wrapped : Bool)
    (hs : start < grid.length) :
    visitedCount (searchInit tie grid start target wrapped).grid_ = 0 := by
  unfold visitedCount
  rw [List.countP_eq_zero]
  intro c _
  rw [infoAt_searchInit tie grid start target wrapped hs]
  split_ifs <;> simp [GraphInfo.fresh]

/-- After `n` rounds from a state with the loop invariant and no visited cell,
`n` cells are visited, or the last round was the `break` round and `n - 1` cells
are visited. -/
theorem searchRounds_inv {st0 : SearchState} (h0 : HeadInv occ start target wrapped H st0)
    (hv0 : visitedCount st0.grid_ = 0) (hH : 0 < H) (hH40 : H ≤ 40) {n : Nat}
    {st : SearchState} (hr : SearchRounds tie occ start target wrapped st0 n st) :
    HeadInv occ start target wrapped H st ∧
      (visitedCount st.grid_ = n ∨ (st.min_heap = [] ∧ visitedCount st.grid_ + 1 = n)) := by
  induction hr with
  | start => exact ⟨h0, Or.inl hv0⟩
  | round n st st1 _ hc he ih =>
    obtain ⟨hinv, hcnt⟩ := ih
    have hne : st.min_heap ≠ [] := by
      intro e
      unfold loopCond at hc
      rw [e] at hc
      exact Bool.noConfusion hc
    have hn : visitedCount st.grid_ = n := by
      rcases hcnt with e | ⟨e, _⟩
      · exact e
      · exact absurd e hne
    obtain ⟨st', hs, hinv', hcase⟩ := expandTop_round tie hinv hH hH40
    rw [he] at hs
    simp only [Option.some.injEq] at hs
    subst hs
    refine ⟨hinv', ?_⟩
    rcases hcase with ⟨e1, e2⟩ | ⟨c, _, _, _, e⟩
    · right; exact ⟨e1, by rw [e2, hn]⟩
    · left; rw [e, hn]

/-- A loop whose condition is false at the start makes no round. -/
theorem searchRounds_idle {st0 : SearchState} (hc0 : loopCond target st0 = false) {n : Nat}
    {st : SearchState} (hr : SearchRounds tie occ start target wrapped st0 n st) :
    n = 0 ∧ st = st0 := by
  induction hr with
  | start => exact ⟨rfl, rfl⟩
  | round n st st1 _ hc _ ih =>
    rw [ih.2, hc0] at hc
    exact Bool.noConfusion hc

end Search

/-! ## The parent links have no cycle -/

section Search

variable {occ : List Int} {start target : Nat} {wrapped : Bool} {H : Int}

theorem parChain_cost_le {st : SearchState} (h : CoreInv occ start target wrapped H st)
    (hH : 0 < H) {cell : Nat} {chain : List Nat} (hc : ParChain st.grid_ start cell chain) :
    ∀ c ∈ chain, (infoAt st.grid_ c).local_cost_ ≤ (infoAt st.grid_ cell).local_cost_ := by
  induction hc with
  | nil => intro c hc; simp at hc
  | cons cell p rest hne hp _ ih =>
    intro c hc
    rcases List.mem_cons.mp hc with rfl | hc
    · exact le_refl _
    · have h1 := ih c hc
      have h2 := (h.par_ok cell p hp).2.2.2.2.2
      omega

theorem parChain_nodup {st : SearchState} (h : CoreInv occ start target wrapped H st)
    (hH : 0 < H) {cell : Nat} {chain : List Nat} (hc : ParChain st.grid_ start cell chain) :
    chain.Nodup := by
  induction hc with
  | nil => exact List.nodup_nil
  | cons cell p rest hne hp hrest ih =>
    rw [List.nodup_cons]
    refine ⟨?_, ih⟩
    intro hmem
    have h1 := parChain_cost_le h hH hrest cell hmem
    have h2 := (h.par_ok cell p hp).2.2.2.2.2
    omega

theorem parChain_length_le_grid {st : SearchState} (h : CoreInv occ start target wrapped H st)
    (hH : 0 < H) {cell : Nat} {chain : List Nat} (hc : ParChain st.grid_ start cell chain)
    (hd : Discovered st.grid_ start cell) : chain.length ≤ 432 := by
  have h1 := parChain_length_le h hc
  have h2 := h.loc_bound cell hd
  have h3 : (visitedCount st.grid_ : Int) ≤ 432 := by
    have := visitedCount_le st.grid_
    rw [h.grid_ok.length] at this
    exact_mod_cast this
  have h4 : H * (chain.length : Int) ≤ H * 432 := by nlinarith
  have h5 : (chain.length : Int) ≤ 432 := le_of_mul_le_mul_left h4 hH
  exact_mod_cast h5

end Search

/-! ## C21: the search terminates -/

/-- C21 (termination of `Game::FindAStarPath`): for every start and target cell of
the grid, every segment list and both topologies the search returns, with both
loops bounded by `grid_.size() + 1 = 433` rounds. The walk along the parent
links pushes at most 432 cells and no cell twice (the links have no cycle). After
`n` rounds of the main loop exactly `n` cells are marked visited, except that the
last round may be the `break` round, which only drops visited cells from the
queue, finds it empty and marks none; so at most 432 rounds mark a cell and
`n ≤ 433`. Every round entered from such a state returns, and it either is the
`break` round or marks exactly one cell that was not visited before. -/
theorem C21_search_terminates (tie : List Nat → Nat) (g : Game) (start target : Nat)
    (wrapped : Bool) (hg : GridOK g.grid_) (hs : start < 432) (ht : target < 432) :
    (∃ found grid path, g.FindAStarPath tie start target wrapped =
        some (found, { g with grid_ := grid, shortest_path_cells_ := path }) ∧
      path.length ≤ 432 ∧ path.Nodup) ∧
    ∀ n st, SearchRounds tie (SnakeGridIndices g.grid_ g.snake_.snake_segments_) start target
        wrapped (searchInit tie g.grid_ start target wrapped) n st →
      n ≤ 433 ∧ visitedCount st.grid_ ≤ 432 ∧
      (visitedCount st.grid_ = n ∨ (st.min_heap = [] ∧ visitedCount st.grid_ + 1 = n)) ∧
      (loopCond target st = true →
        ∃ st1, expandTop tie (SnakeGridIndices g.grid_ g.snake_.snake_segments_) start target
            wrapped st = some st1 ∧
          ((st1.min_heap = [] ∧ st1.grid_ = st.grid_) ∨
            (∃ c, c < 432 ∧ (infoAt st.grid_ c).visited_ = false ∧
              (infoAt st1.grid_ c).visited_ = true ∧
              visitedCount st1.grid_ = visitedCount st.grid_ + 1))) := by
  by_cases hne : start = target
  · subst hne
    refine ⟨⟨true, _, [], findAStarPath_same tie g start wrapped, by simp, List.nodup_nil⟩, ?_⟩
    -- the loop is never entered: the start cell is on top of the queue
    have hcond : loopCond start (searchInit tie g.grid_ start start wrapped) = false := by
      unfold loopCond searchInit
      simp only [heapPush_nil]
      simp
    have hv0 := visitedCount_searchInit tie g.grid_ start start wrapped (by rw [hg.length]; exact hs)
    intro n st hr
    have hst : n = 0 ∧ st = searchInit tie g.grid_ start start wrapped :=
      searchRounds_idle tie hcond hr
    obtain ⟨rfl, rfl⟩ := hst
    refine ⟨by omega, by rw [hv0]; omega, Or.inl hv0, ?_⟩
    intro hc
    rw [hcond] at hc
    exact Bool.noConfusion hc
  · have hH := cellHeuristic_pos hs ht hne wrapped
    have hH40 := cellHeuristic_le hs ht wrapped
    constructor
    · obtain ⟨st, hinv, _, hcase⟩ := findAStarPath_spec tie g hg hs ht hne wrapped
      rcases hcase with ⟨hd, chain, hch, hfind⟩ | ⟨_, hfind⟩
      · exact ⟨true, st.grid_, chain, hfind,
          parChain_length_le_grid hinv.toCoreInv hH hch hd,
          parChain_nodup hinv.toCoreInv hH hch⟩
      · exact ⟨false, st.grid_, [], hfind, by simp, List.nodup_nil⟩
    · intro n st hr
      have h0 := headInv_searchInit tie (SnakeGridIndices g.grid_ g.snake_.snake_segments_) hg
        hs ht wrapped (le_of_lt hH)
      have hv0 := visitedCount_searchInit tie g.grid_ start target wrapped
        (by rw [hg.length]; exact hs)
      obtain ⟨hinv, hcnt⟩ := searchRounds_inv tie h0 hv0 hH hH40 hr
      have hle : visitedCount st.grid_ ≤ 432 := by
        have := visitedCount_le st.grid_
        rw [hinv.grid_ok.length] at this
        exact this
      refine ⟨by omega, hle, hcnt, fun _ => ?_⟩
      obtain ⟨st1, he, _, hcase⟩ := expandTop_round tie hinv hH hH40
      exact ⟨st1, he, hcase⟩

/-! ## `Game::Tick` while the autopilot follows the cached path -/

theorem tick_not_due (tie : List Nat → Nat) (g : Game) (current_ms : Int)
    (h : ¬ (g.paused_ = false ∧ g.game_over_ = false ∧ current_ms - g.last_ms_ > g.tick_ms_)) :
    g.Tick tie current_ms = some g := by
  unfold Game.Tick
  rw [if_neg h]

/-- A due tick of a running game in autopilot mode with a non-empty cache: the
last cached cell is popped and handed to `Snake::Tick`; a search follows when the
cache is empty afterwards. -/
theorem tick_autopilot (tie : List Nat → Nat) (g : Game) (current_ms : Int)
    (pre : List Nat) (next : Nat)
    (hp : g.paused_ = false) (ho : g.game_over_ = false)
    (hd : current_ms - g.last_ms_ > g.tick_ms_) (ha : g.autopilot_toggle_ = true)
    (hc : g.shortest_path_cells_ = pre ++ [next]) :
    g.Tick tie current_ms =
      match ({ g with last_ms_ := current_ms, shortest_path_cells_ := pre } : Game).SnakeTick
          tie (some next) with
      | none => none
      | some g2 =>
        if (g2.autopilot_toggle_ = true ∧ g2.shortest_path_cells_ = []) ∨
            (g2.shortest_path_toggle_ = true ∨ g2.wrapped_shortest_path_toggle_ = true) then
          let index := ConvertCellToGridIndex (boxAt g2.grid_ g2.food_)
          if 0 ≤ index ∧ index.toNat < g2.grid_.length then
            (g2.FindAStarPath tie g2.GetHead index.toNat g2.wrapped_shortest_path_toggle_).map
              (fun r => r.2)
          else none
        else some g2 := by
  unfold Game.Tick
  rw [if_pos ⟨hp, ho, hd⟩]
  simp only
  rw [if_pos ⟨ha, by rw [hc]; simp⟩]
  simp only [hc, List.getLast?_append, List.getLast?_singleton, List.dropLast_concat]
  rfl

theorem followInv_head {g : Game} {cache : List Nat} (h : FollowInv g cache) :
    ∃ hd rest, g.snake_.snake_segments_ = hd :: rest ∧ g.GetHead = hd ∧ hd < 432 := by
  cases hs : g.snake_.snake_segments_ with
  | nil => exact absurd hs h.segs_ne
  | cons hd rest =>
    refine ⟨hd, rest, rfl, ?_, h.segs_valid hd (by rw [hs]; exact List.mem_cons_self _ _)⟩
    unfold Game.GetHead; rw [hs]; rfl

/-- One due tick while more than one cell is cached: the last cached cell is
popped, the head moves onto it, and nothing else happens. -/
theorem follow_step (tie : List Nat → Nat) {g : Game} {pre : List Nat} {next : Nat}
    (current_ms : Int) (h : FollowInv g (pre ++ [next])) (hpre : pre ≠ [])
    (hd : current_ms - g.last_ms_ > g.tick_ms_) :
    ∃ g', g.Tick tie current_ms = some g' ∧ FollowInv g' pre ∧ g'.GetHead = next ∧
      g'.last_ms_ = current_ms ∧ g'.tick_ms_ = g.tick_ms_ ∧ g'.food_ = g.food_ ∧
      g'.score_ = g.score_ ∧ g'.mt_ = g.mt_ ∧
      g'.snake_.snake_segments_ = next :: g.snake_.snake_segments_.dropLast := by
  obtain ⟨hd0, rest, hs, hhead, hh⟩ := followInv_head h
  have hnext_mem : next ∈ pre ++ [next] := by simp
  have hnext := h.free next hnext_mem
  have hadj : Adj false hd0 next := by
    rw [← hhead]
    exact h.last_adj next (by simp)
  have hnd : pre.Nodup ∧ next ∉ pre := by
    have := h.nodup
    rw [List.nodup_append] at this
    refine ⟨this.1, fun hc => this.2.2 hc (by simp)⟩
  -- the food is the first cell of `pre`
  obtain ⟨f, pre', hpre'⟩ : ∃ f pre', pre = f :: pre' := by
    cases pre with
    | nil => exact absurd rfl hpre
    | cons f pre' => exact ⟨f, pre', rfl⟩
  have hfood : f = g.food_ := h.first_food f (by rw [hpre']; rfl)
  have hfood_pre : g.food_ ∈ pre := by rw [hpre', ← hfood]; exact List.mem_cons_self _ _
  have hne_food : next ≠ g.food_ := fun e => hnd.2 (e ▸ hfood_pre)
  -- the move
  obtain ⟨dir, hmove⟩ := moveSnake_next_adj
    ({ g with last_ms_ := current_ms, shortest_path_cells_ := pre } : Game) h.grid_ok hs hh hadj
  have hvalid0 : ∀ s ∈ next :: (hd0 :: rest).dropLast, s < 432 := by
    intro s hs'
    rcases List.mem_cons.mp hs' with rfl | hs'
    · exact hnext.1
    · exact h.segs_valid s (by rw [hs]; exact mem_dropLast_of_mem hs')
  have htick := snakeTick_no_food tie
    ({ g with last_ms_ := current_ms, shortest_path_cells_ := pre } : Game) (some next) _
    h.grid_ok hmove hvalid0 h.food_lt hne_food
  have hnohit : ¬ next ∈ (next :: (hd0 :: rest).dropLast).drop 1 := by
    intro hc
    rw [List.drop_succ_cons, List.drop_zero] at hc
    exact hnext.2 (by rw [hs]; exact mem_dropLast_of_mem hc)
  simp only [Game.GetHead, List.getD_cons_zero] at htick
  rw [if_neg hnohit] at htick
  rw [tick_autopilot tie g current_ms pre next h.paused h.over hd h.auto h.cache_eq, htick]
  simp only
  rw [if_neg]
  · refine ⟨_, rfl, ?_, rfl, rfl, rfl, rfl, rfl, rfl, ?_⟩
    · exact
        { grid_ok := h.grid_ok
          auto := h.auto
          shortest := h.shortest
          wrapped := h.wrapped
          paused := h.paused
          over := h.over
          cache_eq := rfl
          segs_valid := hvalid0
          segs_ne := by show next :: (hd0 :: rest).dropLast ≠ []; simp
          food_lt := h.food_lt
          draws_ok := h.draws_ok
          nodup := hnd.1
          free := by
            intro c hc
            refine ⟨(h.free c (List.mem_append_left _ hc)).1, ?_⟩
            show c ∉ next :: (hd0 :: rest).dropLast
            intro hmem
            rcases List.mem_cons.mp hmem with e | hmem
            · exact hnd.2 (e ▸ hc)
            · exact (h.free c (List.mem_append_left _ hc)).2
                (by rw [hs]; exact mem_dropLast_of_mem hmem)
          chain := (List.chain'_append.mp h.chain).1
          last_adj := by
            intro l hl
            show Adj false next l
            have hc := (List.chain'_append.mp h.chain).2.2 l hl next (by simp)
            exact hc
          first_food := by
            intro c hc
            exact h.first_food c (by
              rw [hpre'] at hc ⊢
              exact hc) }
    · show next :: (hd0 :: rest).dropLast = next :: g.snake_.snake_segments_.dropLast
      rw [hs]
  · rintro (⟨_, hc⟩ | hc | hc)
    · exact hpre hc
    · rw [show _ = g.shortest_path_toggle_ from rfl, h.shortest] at hc
      exact Bool.noConfusion hc
    · rw [show _ = g.wrapped_shortest_path_toggle_ from rfl, h.wrapped] at hc
      exact Bool.noConfusion hc

/-- When the moved head is on the food and the generator delivers a pair whose
cell is off the moved snake, `Snake::Tick` returns. -/
theorem snakeTick_food_total (tie : List Nat → Nat) (g : Game) (next_cell : Option Nat)
    (g0 : Game) (hg : GridOK g.grid_) (hm : g.MoveSnake next_cell = some g0)
    (hvalid : ∀ s ∈ g0.snake_.snake_segments_, s < 432)
    (hrange : ∀ d ∈ g.mt_, DrawInRange d) (hhead : g0.GetHead = g.food_)
    (hfree : ∃ d ∈ g.mt_, drawCell d ∉ g0.snake_.snake_segments_) :
    ∃ g', g.SnakeTick tie next_cell = some g' := by
  obtain ⟨hsne, dir, new_head, hnh, hg0⟩ := moveSnake_spec hm
  have hgrid : g0.grid_ = g.grid_ := by rw [hg0]
  have hfd : g0.food_ = g.food_ := by rw [hg0]
  have hmt : g0.mt_ = g.mt_ := by rw [hg0]
  have hne0 : g0.snake_.snake_segments_ ≠ [] := by
    rw [hg0]; simp only
    intro e
    have := congrArg List.length e
    rw [List.length_set, (shiftSegments_inv _).1] at this
    exact hsne (List.length_eq_zero.mp this)
  have hh : g0.GetHead < 432 := hvalid _ (getHead_mem hne0)
  rw [snakeTick_unfold tie g next_cell g0 hm]
  set g1 : Game := { g0 with snake_ := { g0.snake_ with moved_snake_ := false } } with hg1
  have hinter : SDL_HasIntersection (boxAt g1.grid_ g1.GetHead) (boxAt g1.grid_ g1.food_) =
      true := by
    show SDL_HasIntersection (boxAt g0.grid_ g0.GetHead) (boxAt g0.grid_ g0.food_) = true
    rw [hgrid, hfd, hhead, hg.boxAt (hhead ▸ hh), hasIntersection_cell]
    simp
  simp only [hinter, if_true]
  obtain ⟨d, rest, hsp, hd3, hd4⟩ := spawnLoop_spec g1
    (by show GridOK g0.grid_; rw [hgrid]; exact hg) hvalid g1.mt_
    (by show ∀ d ∈ g0.mt_, DrawInRange d; rw [hmt]; exact hrange)
    (by show ∃ d ∈ g0.mt_, drawCell d ∉ g0.snake_.snake_segments_; rw [hmt]; exact hfree)
  have hsp' : g1.SpawnFood = some { g1 with food_ := drawCell d, mt_ := rest } := hsp
  rw [hsp']
  simp only
  set g3 : Game := (Game.SpeedUp (Game.AddSegment (Game.IncrementScore
    { g1 with food_ := drawCell d, mt_ := rest }))) with hg3
  have hg3grid : g3.grid_ = g.grid_ := by
    rw [hg3]; unfold Game.SpeedUp Game.AddSegment Game.IncrementScore
    simp only; split_ifs <;> exact hgrid
  have hg3food : g3.food_ = drawCell d := by
    rw [hg3]; unfold Game.SpeedUp Game.AddSegment Game.IncrementScore
    simp only; split_ifs <;> rfl
  have hg3segs : g3.snake_.snake_segments_ = g0.snake_.snake_segments_ ++
      [g0.snake_.snake_segments_.getD (g0.snake_.snake_segments_.length - 1) 0] := by
    rw [hg3]; unfold Game.SpeedUp Game.AddSegment Game.IncrementScore
    simp only; split_ifs <;> rfl
  by_cases hauto : g3.autopilot_toggle_ = true
  · rw [if_pos hauto]
    have hidx : ConvertCellToGridIndex (boxAt g3.grid_ g3.food_) = (drawCell d : Int) := by
      rw [hg3grid, hg3food, hg.boxAt hd3, (convert_cellBox _ hd3).1]
    have hcond : 0 ≤ ConvertCellToGridIndex (boxAt g3.grid_ g3.food_) ∧
        (ConvertCellToGridIndex (boxAt g3.grid_ g3.food_)).toNat < g3.grid_.length := by
      rw [hidx, hg3grid, hg.length]
      exact ⟨by omega, by simpa using hd3⟩
    rw [if_pos hcond]
    have hhead3 : g3.GetHead < 432 := by
      apply hvalid
      unfold Game.GetHead
      rw [hg3segs, List.getD_eq_getElem?_getD]
      have h0lt : 0 < g0.snake_.snake_segments_.length := List.length_pos.mpr hne0
      rw [List.getElem?_append_left h0lt, List.getElem?_eq_getElem h0lt]
      exact List.getElem_mem _
    have htgt : (ConvertCellToGridIndex (boxAt g3.grid_ g3.food_)).toNat < 432 := by
      rw [hidx]; simpa using hd3
    obtain ⟨found, grid, path, hgok, hfind⟩ := findAStarPath_frame tie g3 (hg3grid ▸ hg)
      hhead3 htgt g3.wrapped_shortest_path_toggle_
    rw [hfind]
    exact ⟨_, rfl⟩
  · rw [if_neg hauto]
    exact ⟨_, rfl⟩

/-- The due tick that pops the last cached cell, the food cell: whenever it
returns the head is on the former food cell, the score is 10 higher, the snake
one segment longer and `game_over_` still false; and it returns when the generator
delivers a pair whose cell is off the moved snake. -/
theorem follow_last (tie : List Nat → Nat) {g : Game} {next : Nat}
    (current_ms : Int) (h : FollowInv g [next])
    (hd : current_ms - g.last_ms_ > g.tick_ms_) :
    ((∃ d ∈ g.mt_, drawCell d ∉ next :: g.snake_.snake_segments_.dropLast) →
        ∃ g', g.Tick tie current_ms = some g') ∧
      ∀ g', g.Tick tie current_ms = some g' →
        g'.GetHead = g.food_ ∧ g'.game_over_ = false ∧ g'.score_ = g.score_ + 10 ∧
        g'.snake_.snake_segments_.length = g.snake_.snake_segments_.length + 1 := by
  obtain ⟨hd0, rest, hs, hhead, hh⟩ := followInv_head h
  have hnext := h.free next (by simp)
  have hfood : next = g.food_ := h.first_food next rfl
  have hadj : Adj false hd0 next := by
    rw [← hhead]
    exact h.last_adj next (by simp)
  obtain ⟨g1, hg1⟩ : ∃ g1 : Game,
      g1 = ({ g with last_ms_ := current_ms, shortest_path_cells_ := [] } : Game) := ⟨_, rfl⟩
  have hgrid1 : GridOK g1.grid_ := by rw [hg1]; exact h.grid_ok
  have hs1 : g1.snake_.snake_segments_ = hd0 :: rest := by rw [hg1]; exact hs
  have hfood1 : g1.food_ = g.food_ := by rw [hg1]
  have hmt1 : g1.mt_ = g.mt_ := by rw [hg1]
  have hover1 : g1.game_over_ = false := by rw [hg1]; exact h.over
  have hscore1 : g1.score_ = g.score_ := by rw [hg1]
  have htk : g.Tick tie current_ms =
      match g1.SnakeTick tie (some next) with
      | none => none
      | some g2 =>
        if (g2.autopilot_toggle_ = true ∧ g2.shortest_path_cells_ = []) ∨
            (g2.shortest_path_toggle_ = true ∨ g2.wrapped_shortest_path_toggle_ = true) then
          let index := ConvertCellToGridIndex (boxAt g2.grid_ g2.food_)
          if 0 ≤ index ∧ index.toNat < g2.grid_.length then
            (g2.FindAStarPath tie g2.GetHead index.toNat g2.wrapped_shortest_path_toggle_).map
              (fun r => r.2)
          else none
        else some g2 := by
    rw [hg1]
    exact tick_autopilot tie g current_ms [] next h.paused h.over hd h.auto
      (by rw [h.cache_eq]; rfl)
  obtain ⟨dir, hmove⟩ := moveSnake_next_adj g1 hgrid1 hs1 hh hadj
  have hvalid0 : ∀ s ∈ next :: (hd0 :: rest).dropLast, s < 432 := by
    intro s hs'
    rcases List.mem_cons.mp hs' with rfl | hs'
    · exact hnext.1
    · exact h.segs_valid s (by rw [hs]; exact mem_dropLast_of_mem hs')
  have hhead0 : Game.GetHead ({ g1 with snake_ := { g1.snake_ with
      direction_ := dir, snake_segments_ := next :: (hd0 :: rest).dropLast } } : Game) =
      g1.food_ := by
    simp only [Game.GetHead, List.getD_cons_zero]
    rw [hfood1]; exact hfood
  have hlen : (next :: (hd0 :: rest).dropLast).length = g.snake_.snake_segments_.length := by
    rw [hs, List.length_cons, List.length_dropLast, List.length_cons]; rfl
  -- what `Snake::Tick` returns
  have hshape : ∀ g2, g1.SnakeTick tie (some next) = some g2 →
      GridOK g2.grid_ ∧ g2.GetHead = g.food_ ∧ g2.GetHead < 432 ∧ g2.food_ < 432 ∧
        g2.game_over_ = false ∧ g2.score_ = g.score_ + 10 ∧
        g2.snake_.snake_segments_.length = g.snake_.snake_segments_.length + 1 := by
    intro g2 ht
    obtain ⟨d, rest', grid, path, _, _, hd3, _, hgok, hg2⟩ :=
      snakeTick_food_sound tie g1 (some next) _ g2 hgrid1 hmove hvalid0
        (by rw [hmt1]; exact h.draws_ok) hhead0 ht
    rw [hg2]
    unfold Game.SpeedUp Game.AddSegment Game.IncrementScore
    simp only [Game.GetHead]
    split_ifs <;>
      exact ⟨hgok, by rw [List.cons_append, List.getD_cons_zero]; exact hfood,
        by rw [List.cons_append, List.getD_cons_zero]; exact hnext.1, hd3, hover1,
        by rw [hscore1],
        by rw [List.length_append, hlen]; rfl⟩
  have hpost : ∀ g2, g1.SnakeTick tie (some next) = some g2 →
      ∃ g', g.Tick tie current_ms = some g' ∧
        g'.GetHead = g2.GetHead ∧ g'.game_over_ = g2.game_over_ ∧ g'.score_ = g2.score_ ∧
        g'.snake_.snake_segments_ = g2.snake_.snake_segments_ := by
    intro g2 ht
    obtain ⟨hgok, _, hhd, hfd, _⟩ := hshape g2 ht
    rw [htk, ht]
    simp only
    by_cases hc : (g2.autopilot_toggle_ = true ∧ g2.shortest_path_cells_ = []) ∨
        (g2.shortest_path_toggle_ = true ∨ g2.wrapped_shortest_path_toggle_ = true)
    · rw [if_pos hc]
      have hidx : ConvertCellToGridIndex (boxAt g2.grid_ g2.food_) = (g2.food_ : Int) := by
        rw [hgok.boxAt hfd, (convert_cellBox _ hfd).1]
      rw [if_pos ⟨by rw [hidx]; omega, by rw [hidx, hgok.length]; simpa using hfd⟩]
      obtain ⟨found, grid, path, hfind⟩ := findAStarPath_total tie g2 hgok hhd
        (show (ConvertCellToGridIndex (boxAt g2.grid_ g2.food_)).toNat < 432 by
          rw [hidx]; simpa using hfd) g2.wrapped_shortest_path_toggle_
      rw [hfind]
      exact ⟨_, rfl, rfl, rfl, rfl, rfl⟩
    · rw [if_neg hc]
      exact ⟨_, rfl, rfl, rfl, rfl, rfl⟩
  constructor
  · intro hfree
    obtain ⟨g2, ht⟩ := snakeTick_food_total tie g1 (some next) _ hgrid1 hmove hvalid0
      (by rw [hmt1]; exact h.draws_ok) hhead0
      (by rw [hmt1]; rw [hs] at hfree; exact hfree)
    obtain ⟨g', hg', _⟩ := hpost g2 ht
    exact ⟨g', hg'⟩
  · intro g' hg'
    cases ht : g1.SnakeTick tie (some next) with
    | none =>
      rw [htk, ht] at hg'
      simp at hg'
    | some g2 =>
      obtain ⟨g'', h1, e1, e2, e3, e4⟩ := hpost g2 ht
      rw [h1] at hg'
      simp only [Option.some.injEq] at hg'
      subst hg'
      obtain ⟨_, f2, _, _, f5, f6, f7⟩ := hshape g2 ht
      exact ⟨e1.trans f2, e2.trans f5, e3.trans f6, by rw [e4]; exact f7⟩

/-! ## Several ticks along the cached path -/

theorem ticks_append (tie : List Nat → Nat) (times : List Int) (t : Int) :
    ∀ g : Game, g.ticks tie (times ++ [t]) = (g.ticks tie times).bind (fun g1 => g1.Tick tie t) := by
  induction times with
  | nil =>
    intro g
    simp only [List.nil_append, Game.ticks, Option.some_bind]
    cases g.Tick tie t <;> rfl
  | cons a rest ih =>
    intro g
    simp only [List.cons_append, Game.ticks]
    cases g.Tick tie a with
    | none => rfl
    | some g1 => exact ih g1

theorem getLast?_getD_cons (a : Int) (l : List Int) (d : Int) :
    (a :: l).getLast?.getD d = l.getLast?.getD a := by
  cases l with
  | nil => rfl
  | cons b r =>
    rw [List.getLast?_cons_cons, List.getLast?_eq_getLast _ (List.cons_ne_nil b r)]
    rfl

theorem ticksDue_append (tick_ms : Int) (times : List Int) (t : Int) :
    ∀ last_ms, TicksDue tick_ms last_ms (times ++ [t]) ↔
      TicksDue tick_ms last_ms times ∧ t - times.getLast?.getD last_ms > tick_ms := by
  induction times with
  | nil => intro last_ms; simp [TicksDue]
  | cons a rest ih =>
    intro last_ms
    rw [getLast?_getD_cons]
    change (a - last_ms > tick_ms ∧ TicksDue tick_ms a (rest ++ [t])) ↔
      ((a - last_ms > tick_ms ∧ TicksDue tick_ms a rest) ∧ _)
    rw [ih a, and_assoc]

theorem ticksDue_take (tick_ms : Int) (times : List Int) :
    ∀ (j : Nat) (last_ms : Int), TicksDue tick_ms last_ms times →
      TicksDue tick_ms last_ms (times.take j) := by
  induction times with
  | nil => intro j last_ms h; simpa using h
  | cons a rest ih =>
    intro j last_ms h
    cases j with
    | zero => simp [TicksDue]
    | succ j =>
      simp only [List.take_succ_cons, TicksDue] at h ⊢
      exact ⟨h.1, ih j a h.2⟩

/-- Due ticks, fewer than cached cells: each pops the last cached cell and moves
the head onto it; the food, the score, the tick interval and `game_over_` stay. -/
theorem follow_many (tie : List Nat → Nat) (times : List Int) :
    ∀ (g : Game) (cache : List Nat), FollowInv g cache →
      TicksDue g.tick_ms_ g.last_ms_ times → times.length < cache.length →
      ∃ g', g.ticks tie times = some g' ∧
        FollowInv g' (cache.take (cache.length - times.length)) ∧
        g'.GetHead = (cache ++ [g.GetHead]).getD (cache.length - times.length) 0 ∧
        g'.last_ms_ = times.getLast?.getD g.last_ms_ ∧ g'.tick_ms_ = g.tick_ms_ ∧
        g'.food_ = g.food_ ∧ g'.score_ = g.score_ ∧ g'.mt_ = g.mt_ ∧
        g'.snake_.snake_segments_.length = g.snake_.snake_segments_.length ∧
        (∀ s ∈ g'.snake_.snake_segments_, s ∈ cache ∨ s ∈ g.snake_.snake_segments_) := by
  induction times with
  | nil =>
    intro g cache h _ _
    refine ⟨g, rfl, ?_, ?_, rfl, rfl, rfl, rfl, rfl, rfl, fun s hs => Or.inr hs⟩
    · simpa using h
    · simp [List.getD_eq_getElem?_getD]
  | cons t ts ih =>
    intro g cache h hdue hlen
    simp only [List.length_cons] at hlen
    have hne : cache ≠ [] := by
      intro e; rw [e] at hlen; simp at hlen
    obtain ⟨pre, next, hcache⟩ : ∃ pre next, cache = pre ++ [next] :=
      ⟨cache.dropLast, cache.getLast hne, (List.dropLast_append_getLast hne).symm⟩
    subst hcache
    simp only [List.length_append, List.length_singleton] at hlen
    have hpre : pre ≠ [] := by
      intro e; rw [e] at hlen; simp at hlen
    simp only [TicksDue] at hdue
    obtain ⟨g1, ht1, hinv1, hhead1, hlast1, htick1, hfood1, hscore1, hmt1, hsegs1⟩ :=
      follow_step tie t h hpre hdue.1
    obtain ⟨g', hg', hinv', hhead', hlast', htick', hfood', hscore', hmt', hlen', hsub'⟩ :=
      ih g1 pre hinv1 (by rw [htick1, hlast1]; exact hdue.2) (by omega)
    have hidx : (pre ++ [next]).length - (t :: ts).length = pre.length - ts.length := by
      simp
    have hsegne := h.segs_ne
    refine ⟨g', ?_, ?_, ?_, ?_, htick'.trans htick1, hfood'.trans hfood1,
      hscore'.trans hscore1, hmt'.trans hmt1, ?_, ?_⟩
    · simp only [Game.ticks, ht1]
      exact hg'
    · rw [hidx, List.take_append_of_le_length (by omega)]
      exact hinv'
    · rw [hhead', hhead1, hidx]
      have hlt : pre.length - ts.length < (pre ++ [next]).length := by
        rw [List.length_append, List.length_singleton]; omega
      rw [List.getD_eq_getElem?_getD, List.getD_eq_getElem?_getD,
        List.getElem?_append_left hlt]
    · rw [hlast', hlast1, getLast?_getD_cons]
    · rw [hlen', hsegs1, List.length_cons, List.length_dropLast]
      have := List.length_pos.mpr hsegne
      omega
    · intro s hs
      rcases hsub' s hs with hm | hm
      · exact Or.inl (List.mem_append_left _ hm)
      · rw [hsegs1] at hm
        rcases List.mem_cons.mp hm with e | hm
        · left; rw [e]; simp
        · exact Or.inr (mem_dropLast_of_mem hm)

/-- The path that the bounded search from the head to the food returned, held in
the cache of a running game in autopilot mode, gives the situation `FollowInv`. -/
theorem followInv_of_search (tie0 : List Nat → Nat) (g : Game) (path : List Nat)
    (hinv : GameInv g) (hauto : g.autopilot_toggle_ = true) (hpaused : g.paused_ = false)
    (hover : g.game_over_ = false)
    (hsearch : g.searchResult tie0 g.GetHead g.food_ false = some (true, path))
    (hcache : g.shortest_path_cells_ = path) : FollowInv g path ∧ (path ≠ []) := by
  have hhead : g.GetHead < 432 := hinv.segs_valid _ (getHead_mem hinv.segs_ne)
  have hne : g.GetHead ≠ g.food_ := fun e => hinv.food_free (e ▸ getHead_mem hinv.segs_ne)
  obtain ⟨st, hst, _, hcase⟩ := searchResult_spec tie0 g hinv.grid_ok hhead hinv.food_lt hne false
  have hH := cellHeuristic_pos hhead hinv.food_lt hne false
  rcases hcase with ⟨_, chain, hch, hres⟩ | ⟨_, hres⟩
  · rw [hres] at hsearch
    simp only [Option.some.injEq, Prod.mk.injEq, true_and] at hsearch
    subst hsearch
    have hm := hinv.modes
    unfold ModesExclusive at hm
    have hmem := parChain_mem hst.toCoreInv hch
    refine ⟨?_, fun e => hne ((parChain_nil_iff hch).mp e).symm⟩
    exact
      { grid_ok := hinv.grid_ok
        auto := hauto
        shortest := by
          cases hb : g.shortest_path_toggle_ with
          | false => rfl
          | true => exact absurd ⟨hauto, hb⟩ hm.1
        wrapped := by
          cases hb : g.wrapped_shortest_path_toggle_ with
          | false => rfl
          | true => exact absurd ⟨hauto, hb⟩ hm.2.1
        paused := hpaused
        over := hover
        cache_eq := hcache
        segs_valid := hinv.segs_valid
        segs_ne := hinv.segs_ne
        food_lt := hinv.food_lt
        draws_ok := hinv.draws_ok
        nodup := parChain_nodup hst.toCoreInv hH hch
        free := by
          intro c hc
          obtain ⟨h1, h2, _⟩ := hmem c hc
          refine ⟨h1, fun hseg => h2 ?_⟩
          unfold SnakeGridIndices
          refine List.mem_map.mpr ⟨c, hseg, ?_⟩
          rw [hinv.grid_ok.boxAt h1, (convert_cellBox c h1).1]
        chain := (parChain_chain hst.toCoreInv hch).imp (fun _ _ h => h.1)
        last_adj := fun l hl => (parChain_last hst.toCoreInv hhead hch l hl).1
        first_food := by
          intro c hc
          rw [parChain_head hch hne.symm] at hc
          simp only [Option.some.injEq] at hc
          exact hc.symm }
  · rw [hres] at hsearch
    simp at hsearch

/-! ## C21: a round that marks no cell -/

set_option maxRecDepth 1000000 in
/-- C21, counterexample: bounded search from cell 0 to cell 100 with the snake on
the cells 0, 1, 25, 24, so that both neighbours of the start cell are segments.
The loop condition holds at the start and again after the first round, which
marks the start cell; the second round pops the start cell, finds the queue
empty and breaks: it leaves the metadata as they are, with one cell visited as
before. -/
theorem C21_counterexample :
    (expandTop tieFirst (SnakeGridIndices initGrid [0, 1, 25, 24]) 0 100 false
        (searchInit tieFirst initGrid 0 100 false)).bind (fun st1 =>
      (expandTop tieFirst (SnakeGridIndices initGrid [0, 1, 25, 24]) 0 100 false st1).map
        (fun st2 => (loopCond 100 (searchInit tieFirst initGrid 0 100 false), loopCond 100 st1,
          visitedCount st1.grid_, visitedCount st2.grid_, st2.min_heap,
          decide (st2.grid_ = st1.grid_)))) =
      some (true, true, 1, 1, [], true) := by
  rfl

/-- C21 (amended) on the same search: it returns, and the walk pushes at most 432
pairwise distinct cells. -/
theorem C21_search_terminates_witness :
    ∃ found grid path,
      (Game.sample [0, 1, 25, 24] 100 []).FindAStarPath tieFirst 0 100 false =
        some (found, { Game.sample [0, 1, 25, 24] 100 [] with
          grid_ := grid, shortest_path_cells_ := path }) ∧
      path.length ≤ 432 ∧ path.Nodup :=
  (C21_search_terminates tieFirst (Game.sample [0, 1, 25, 24] 100 []) 0 100 false
    gridOK_initGrid (by decide) (by decide)).1

/-! ## C23: following the cached path -/

set_option maxRecDepth 1000000 in
/-- The state after `autopilotSteps`: autopilot on, head on cell 229, food on cell
231, and the cache holds the path `[231, 230]` that the bounded search from the
head to the food returns for this snake. -/
theorem session_autopilot :
    (Game.session [(750, 450), (0, 0)] autopilotSteps).map (fun g =>
      (g.autopilot_toggle_, g.paused_, g.game_over_, g.GetHead, g.food_,
        g.shortest_path_cells_, g.last_ms_, g.tick_ms_, g.score_, g.mt_,
        g.snake_.snake_segments_,
        g.searchResult tieFirst g.GetHead g.food_ false)) =
      some (true, false, false, 229, 231, [231, 230], 1000, 100, 0, [(0, 0)],
        [229, 228, 227, 226], some (true, [231, 230])) := by
  rfl

/-- C23, counterexample: in the reachable state after `autopilotSteps` the
autopilot is on and the cache holds the path of 2 cells that the search from the
head (cell 229) to the food (cell 231) returns for the current snake; the next
call of `Game::Tick`, 1 ms after the last tick, pops nothing and moves nothing:
it returns the state as it is. -/
theorem C23_counterexample :
    ∃ g, Game.session [(750, 450), (0, 0)] autopilotSteps = some g ∧ Reachable g ∧
      g.autopilot_toggle_ = true ∧ g.paused_ = false ∧ g.game_over_ = false ∧
      g.GetHead = 229 ∧ g.food_ = 231 ∧ g.shortest_path_cells_ = [231, 230] ∧
      g.searchResult tieFirst g.GetHead g.food_ false = some (true, [231, 230]) ∧
      g.Tick tieFirst 1001 = some g := by
  have h := session_autopilot
  simp only [Option.map_eq_some', Prod.mk.injEq] at h
  obtain ⟨g, hg, h1, h2, h3, h4, h5, h6, h7, h8, _, _, _, h12⟩ := h
  refine ⟨g, hg, reachable_session (by decide) hg, h1, h2, h3, h4, h5, h6, h12, ?_⟩
  apply tick_not_due
  rintro ⟨_, _, hd⟩
  rw [h7, h8] at hd
  exact absurd hd (by decide)

/-- C23, amended: let the game run (not paused, not game over) in autopilot mode
from a state with the invariant of the reachable states, with the cache holding
the path of `k ≥ 1` cells that the bounded search from the head to the food
returns for the current snake, and let the next `k` calls of `Game::Tick` be due
(each more than `tick_ms_` after the one before), with no event in between. Then
each of the first `k - 1` calls pops the last cached cell and moves the head
exactly onto it, keeps `game_over_` false and eats nothing (food, score and
segment count stay); the `k`-th call, whenever it returns, puts the head on the
food cell and eats it (score + 10, one more segment, `game_over_` false), and it
returns when the generator delivers a pair whose cell is neither on the path nor
on the snake. -/
theorem C23_follow_cached_path (tie0 tie : List Nat → Nat) (g : Game) (path : List Nat)
    (times : List Int) (t_last : Int) (hinv : GameInv g)
    (hauto : g.autopilot_toggle_ = true) (hpaused : g.paused_ = false)
    (hover : g.game_over_ = false)
    (hsearch : g.searchResult tie0 g.GetHead g.food_ false = some (true, path))
    (hcache : g.shortest_path_cells_ = path)
    (hlen : times.length + 1 = path.length)
    (hdue : TicksDue g.tick_ms_ g.last_ms_ (times ++ [t_last])) :
    (∀ j, j ≤ times.length → ∃ gj, g.ticks tie (times.take j) = some gj ∧
        gj.GetHead = (path ++ [g.GetHead]).getD (path.length - j) 0 ∧
        gj.shortest_path_cells_ = path.take (path.length - j) ∧
        gj.game_over_ = false ∧ gj.food_ = g.food_ ∧ gj.score_ = g.score_ ∧
        gj.snake_.snake_segments_.length = g.snake_.snake_segments_.length) ∧
      ((∃ d ∈ g.mt_, drawCell d ∉ path ∧ drawCell d ∉ g.snake_.snake_segments_) →
        ∃ g', g.ticks tie (times ++ [t_last]) = some g') ∧
      (∀ g', g.ticks tie (times ++ [t_last]) = some g' →
        g'.GetHead = g.food_ ∧ g'.game_over_ = false ∧ g'.score_ = g.score_ + 10 ∧
        g'.snake_.snake_segments_.length = g.snake_.snake_segments_.length + 1) := by
  obtain ⟨hF, _⟩ := followInv_of_search tie0 g path hinv hauto hpaused hover hsearch hcache
  obtain ⟨hdue1, hdue2⟩ := (ticksDue_append _ _ _ _).mp hdue
  -- the state before the last tick
  obtain ⟨gk, hgk, hFk, _, hlastk, htickk, hfoodk, hscorek, hmtk, hlenk, hsubk⟩ :=
    follow_many tie times g path hF hdue1 (by omega)
  obtain ⟨c, hc⟩ : ∃ c, path.take (path.length - times.length) = [c] := by
    have h1 : path.length - times.length = 1 := by omega
    rw [h1]
    cases path with
    | nil => simp at hlen
    | cons c tl => exact ⟨c, by simp⟩
  rw [hc] at hFk
  have hcmem : c ∈ path := by
    have : c ∈ path.take (path.length - times.length) := by rw [hc]; simp
    exact List.mem_of_mem_take this
  obtain ⟨hlast1, hlast2⟩ := follow_last tie t_last hFk (by rw [hlastk, htickk]; exact hdue2)
  refine ⟨?_, ?_, ?_⟩
  · intro j hj
    obtain ⟨gj, h1, h2, h3, _, _, h6, h7, _, h9, _⟩ := follow_many tie (times.take j) g path hF
      (ticksDue_take _ _ j _ hdue1) (by rw [List.length_take]; omega)
    have hl : (times.take j).length = j := by rw [List.length_take]; omega
    rw [hl] at h2 h3
    exact ⟨gj, h1, h3, h2.cache_eq, h2.over, h6, h7, h9⟩
  · rintro ⟨d, hd1, hd2, hd3⟩
    obtain ⟨g', hg'⟩ := hlast1 ⟨d, by rw [hmtk]; exact hd1, by
      intro hm
      rcases List.mem_cons.mp hm with e | hm
      · exact hd2 (e ▸ hcmem)
      · rcases hsubk _ (mem_dropLast_of_mem hm) with h | h
        · exact hd2 h
        · exact hd3 h⟩
    exact ⟨g', by rw [ticks_append, hgk]; exact hg'⟩
  · intro g' hg'
    rw [ticks_append, hgk] at hg'
    obtain ⟨h1, h2, h3, h4⟩ := hlast2 g' hg'
    exact ⟨h1.trans hfoodk, h2, by rw [h3, hscorek], by rw [h4, hlenk]⟩

/-- C23 (amended) on the state after `autopilotSteps` (head on cell 229, cache
`[231, 230]`, food on cell 231) and two due ticks: after the first the head is on
cell 230, and the second returns with the head on cell 231 and the score 10. -/
theorem C23_follow_cached_path_witness :
    ∃ g, Game.session [(750, 450), (0, 0)] autopilotSteps = some g ∧
      (∃ g1, g.ticks tieFirst [1101] = some g1 ∧ g1.GetHead = 230 ∧
        g1.shortest_path_cells_ = [231] ∧ g1.game_over_ = false) ∧
      ∃ g2, g.ticks tieFirst [1101, 1202] = some g2 ∧ g2.GetHead = 231 ∧
        g2.game_over_ = false ∧ g2.score_ = 10 := by
  have h := session_autopilot
  simp only [Option.map_eq_some', Prod.mk.injEq] at h
  obtain ⟨g, hg, h1, h2, h3, h4, h5, h6, h7, h8, h9, h10, h11, h12⟩ := h
  have hthm := C23_follow_cached_path tieFirst tieFirst g [231, 230] [1101] 1202
    (reachable_inv (reachable_session (by decide) hg)) h1 h2 h3 h12 h6 rfl
    (by rw [h7, h8]; simp only [List.singleton_append, TicksDue]; decide)
  obtain ⟨ha, hb, hc⟩ := hthm
  refine ⟨g, hg, ?_, ?_⟩
  · obtain ⟨g1, e1, e2, e3, e4, _⟩ := ha 1 (by simp)
    exact ⟨g1, e1, by rw [e2]; rfl, by rw [e3]; rfl, e4⟩
  · obtain ⟨g2, e⟩ := hb ⟨(0, 0), by rw [h10]; simp, by decide, by rw [h11]; decide⟩
    obtain ⟨f1, f2, f3, _⟩ := hc g2 e
    exact ⟨g2, e, by rw [f1, h5], f2, by rw [f3, h9]; rfl⟩

end Snake2D
